import Mathlib

/-!
# VGA text console driver (`drivers/video/console/vgacon.c`)

A shallow embedding of the scroll engine, the attribute encoder, the cursor
shape mapper and the cell output, selection and blanking entry points of the VGA
console driver, followed by theorems about them.

Conventions of the embedding.

* Pointers into video memory (`vga_origin`, `vga_visible_origin`, `vga_vram_end`)
  are cell offsets from `vga_vram_base`, as integers; video memory is a map from
  cell offset to the 16-bit word stored there.
* Pointers into the console screen buffer (`vc_pos`, `vc_scr_end`) are cell
  offsets from `vc_screenbuf`; the buffer is a map from offset to cell.
* `unsigned int` is 32 bits, `int` is 32 bits, `size_t` and `ptrdiff_t` are 64
  bits (LP64).  Unsigned arithmetic and integer conversions are reduced
  explicitly; pointer arithmetic is exact.
* Signed arithmetic wraps (the kernel is built with `-fno-strict-overflow`), so a loop
  `while (count--)` over an `int` counter makes `count` iterations reduced modulo
  `2^32`.
* Port output is recorded in `port_log`, in program order.  The spin lock taken
  around port sequences has no counterpart in this sequential model.
-/

namespace Vgacon

/-! ## Machine integers -/

/-- Conversion to `u8` / `unsigned char`. -/
def u8 (x : Nat) : Nat := x % 256

/-- Conversion to `u16`. -/
def u16 (x : Nat) : Nat := x % 65536

/-- Conversion to `unsigned int`. -/
def u32 (x : Int) : Nat := (x % 4294967296).toNat

/-- Conversion to `int` (two's complement, 32 bits). -/
def i32 (x : Int) : Int := (x + 2147483648) % 4294967296 - 2147483648

/-- Conversion to `size_t`. -/
def usize (x : Int) : Nat := (x % 18446744073709551616).toNat

/-- The C remainder operator on signed operands (the quotient truncates toward zero). -/
def c_rem (a b : Int) : Int := Int.tmod a b

/-- The C division operator on signed operands (truncation toward zero). -/
def c_div (a b : Int) : Int := Int.tdiv a b

/-! ## Constants declared outside this source tree -/

/-- One port output: the value written and the port it went to. -/
inductive PortWrite where
  | outw (value port : Nat)
  | outb (value port : Nat)
deriving DecidableEq

/-- Constants that the driver takes from kernel headers which are not part of this
source tree (`uapi/linux/kd.h`, `linux/console.h`, `uapi/linux/screen_info.h`,
`video/vga.h`, `errno.h`).  They are parameters of the embedding.  The cursor modes are
case labels of one `switch`, hence pairwise distinct.  `screen_info_field` is the
conversion to the integer type of the fields `orig_video_cols` and `orig_video_lines` of
`struct screen_info`.  `vga_w` is the register write helper of `video/vga.h`, applied to
`vgastate.vgabase`: the port output it performs for a register and a value. -/
structure Consts where
  KD_TEXT : Nat
  CM_DRAW : Int
  CM_ERASE : Int
  CM_MOVE : Int
  VIDEO_TYPE_EGAM : Nat
  VIDEO_TYPE_VGAC : Nat
  VGA_CRTC_CURSOR_START : Nat
  VGA_CRTC_CURSOR_END : Nat
  VGA_CRTC_H_DISP : Nat
  VGA_CRTC_OVERFLOW : Nat
  VGA_CRTC_MAX_SCAN : Nat
  VGA_CRTC_V_SYNC_END : Nat
  VGA_CRTC_V_DISP_END : Nat
  VGA_CRTC_OFFSET : Nat
  VGA_CRTC_MODE : Nat
  EINVAL : Int
  VIDEO_FLAGS_NOCURSOR : Nat
  VGA_PEL_MSK : Nat
  VGA_PEL_IW : Nat
  VGA_PEL_D : Nat
  vga_w : Nat → Nat → List PortWrite
  screen_info_field : Nat → Nat
  cm_erase_ne_draw : CM_ERASE ≠ CM_DRAW
  cm_erase_ne_move : CM_ERASE ≠ CM_MOVE

/-- The values of these constants in the mainline kernel headers. -/
def linuxConsts : Consts where
  KD_TEXT := 0
  CM_DRAW := 1
  CM_ERASE := 2
  CM_MOVE := 3
  VIDEO_TYPE_EGAM := 0x20
  VIDEO_TYPE_VGAC := 0x22
  VGA_CRTC_CURSOR_START := 0x0A
  VGA_CRTC_CURSOR_END := 0x0B
  VGA_CRTC_H_DISP := 1
  VGA_CRTC_OVERFLOW := 7
  VGA_CRTC_MAX_SCAN := 9
  VGA_CRTC_V_SYNC_END := 0x11
  VGA_CRTC_V_DISP_END := 0x12
  VGA_CRTC_OFFSET := 0x13
  VGA_CRTC_MODE := 0x17
  EINVAL := 22
  VIDEO_FLAGS_NOCURSOR := 1
  VGA_PEL_MSK := 0x3C6
  VGA_PEL_IW := 0x3C8
  VGA_PEL_D := 0x3C9
  vga_w := fun port val => [PortWrite.outb (val % 256) port]
  screen_info_field := fun x => x % 256
  cm_erase_ne_draw := by decide
  cm_erase_ne_move := by decide

/-- Scroll direction, `enum con_scroll` of `linux/console.h`. -/
inductive con_scroll where
  | SM_UP
  | SM_DOWN
deriving DecidableEq

/-! ## Data model (`include/linux/console_struct.h`) -/

/-- Value `VCI_HALF_BRIGHT` of `enum vc_intensity`. -/
def VCI_HALF_BRIGHT : Fin 4 := 0

/-- Value `VCI_NORMAL` of `enum vc_intensity`. -/
def VCI_NORMAL : Fin 4 := 1

/-- Value `VCI_BOLD` of `enum vc_intensity`. -/
def VCI_BOLD : Fin 4 := 2

/-- Bit-field record `struct vc_cell_attr`: two 3-bit colours, a 2-bit intensity and six
one-bit flags. -/
structure vc_cell_attr where
  fg_color : Fin 8
  bg_color : Fin 8
  intensity : Fin 4
  italic : Bool
  underline : Bool
  blink : Bool
  reverse : Bool
  pointer_pos : Bool
  selected : Bool
deriving DecidableEq

/-- Record `struct vc_cell`: an attribute and an 8-bit glyph. -/
structure vc_cell where
  attr : vc_cell_attr
  glyph : Fin 256
deriving DecidableEq

/-- Cursor size selector `CUR_SIZE(c)`. -/
def CUR_SIZE (c : Nat) : Nat := c &&& 0x00000f

/-- Cursor kind `CUR_DEF`. -/
def CUR_DEF : Nat := 0

/-- Cursor kind `CUR_NONE`. -/
def CUR_NONE : Nat := 1

/-- Cursor kind `CUR_UNDERLINE`. -/
def CUR_UNDERLINE : Nat := 2

/-- Cursor kind `CUR_LOWER_THIRD`. -/
def CUR_LOWER_THIRD : Nat := 3

/-- Cursor kind `CUR_LOWER_HALF`. -/
def CUR_LOWER_HALF : Nat := 4

/-- Cursor kind `CUR_TWO_THIRDS`. -/
def CUR_TWO_THIRDS : Nat := 5

/-- Cursor kind `CUR_BLOCK`. -/
def CUR_BLOCK : Nat := 6

/-- The fields of `struct vc_data` that the driver reads or writes.  `screenbuf` is the
content of the buffer `vc_screenbuf` points to; `vc_pos` and `vc_scr_end` are offsets from
`vc_screenbuf`; `is_visible` is the answer of `con_is_visible(c)`. -/
structure vc_data where
  vc_cols : Nat
  vc_rows : Nat
  vc_scan_lines : Nat
  vc_screen_size : Nat
  vc_mode : Nat
  vc_can_do_color : Bool
  vc_ulcolor : Fin 256
  vc_itcolor : Fin 256
  vc_halfcolor : Fin 256
  vc_cursor_type : Nat
  vc_pos : Int
  vc_scr_end : Int
  vc_video_erase : vc_cell
  screenbuf : Int → vc_cell
  is_visible : Bool

/-- The file-scope variables of the driver, the video memory, and the part of the
environment it talks to: `console_blanked` (of the VT layer), the two `screen_info`
fields that `vgacon_resize` uses, the log of port writes, and `crtc`, the byte that the
CRT controller returns on its data port after the given register index was selected. -/
structure VgaState where
  cursor_size_lastfrom : Int
  cursor_size_lastto : Int
  vgacon_xres : Nat
  vgacon_yres : Nat
  vga_vram_size : Nat
  vga_video_port_reg : Nat
  vga_video_port_val : Nat
  vga_video_num_columns : Nat
  vga_video_num_lines : Nat
  vga_can_do_color : Bool
  vga_default_font_height : Nat
  vga_video_type : Nat
  vga_vesa_blanked : Int
  vga_palette_blanked : Bool
  vga_is_gfx : Bool
  vga_video_font_height : Int
  vga_scan_lines : Int
  vga_origin : Int
  vga_visible_origin : Int
  vga_rolled_over : Nat
  vga_hardscroll_enabled : Bool
  console_blanked : Int
  orig_video_cols : Nat
  orig_video_lines : Nat
  vram : Int → Nat
  crtc : Nat → Nat
  port_log : List PortWrite

/-- Offset of `vga_vram_end`, which `vgacon_startup` sets to
`vga_vram_base + vga_vram_size`. -/
def vga_vram_end (s : VgaState) : Int := s.vga_vram_size

/-- The constant `VGA_FONTWIDTH`. -/
def VGA_FONTWIDTH : Nat := 8

/-- The constant `BLANK`. -/
def BLANK : Nat := 0x0020

/-! ## Memory helpers -/

/-- The library routine `memmove` on a cell-indexed memory: the `count` source cells are
read before any destination cell is written. -/
def memmove {α : Type} (mem : Int → α) (dst src : Int) (count : Nat) : Int → α :=
  fun i => if dst ≤ i ∧ i < dst + count then mem (src + (i - dst)) else mem i

/-- Store one cell. -/
def store {α : Type} (mem : Int → α) (p : Int) (v : α) : Int → α :=
  fun i => if i = p then v else mem i

/-- Helper `cellmove`. -/
def cellmove (mem : Int → vc_cell) (dest src : Int) (count : Nat) : Int → vc_cell :=
  memmove mem dest src count

/-- Helper `cellset`: `while (count--) *dest++ = cell;`. -/
def cellset (mem : Int → vc_cell) (dest : Int) (cell : vc_cell) : Nat → Int → vc_cell
  | 0 => mem
  | count + 1 => cellset (store mem dest cell) (dest + 1) cell count

/-- Helper `scr_read`. -/
def scr_read (mem : Int → Nat) (p : Int) : Nat := mem p

/-- Helper `scr_write`. -/
def scr_write (mem : Int → Nat) (celldata : Nat) (p : Int) : Int → Nat :=
  store mem p (u16 celldata)

/-- Helper `scr_memset`: `while (count--) *p++ = a;`. -/
def scr_memset (mem : Int → Nat) (p : Int) (a : Nat) : Nat → Int → Nat
  | 0 => mem
  | count + 1 => scr_memset (store mem p (u16 a)) (p + 1) a count

/-- Helper `scr_memmove`. -/
def scr_memmove (mem : Int → Nat) (dst src : Int) (count : Nat) : Int → Nat :=
  memmove mem dst src count

/-! ## Display start register -/

/-- Function `write_vga`: two back-to-back 16-bit port writes. -/
def write_vga (s : VgaState) (reg : Nat) (val : Nat) : VgaState :=
  let v1 := u32 (reg + (val &&& 0xff00 : Nat))
  let v2 := u32 (reg + 1 + ((u32 (val <<< 8) &&& 0xff00 : Nat) : Int))
  { s with port_log := s.port_log ++
      [PortWrite.outw (u16 v1) s.vga_video_port_reg,
       PortWrite.outw (u16 v2) s.vga_video_port_reg] }

/-- Function `vga_update_mem_top`. -/
def vga_update_mem_top (s : VgaState) : VgaState :=
  write_vga s 12 (u32 s.vga_visible_origin)

/-- Function `vgacon_restore_screen`. -/
def vgacon_restore_screen (s : VgaState) : VgaState :=
  vga_update_mem_top { s with vga_visible_origin := s.vga_origin }

/-- Lines 188-201 of `vgacon_scrollback`: the pair `(from, wrap)`, start and length of
the navigable window. -/
def scrollback_window (s : VgaState) (c : vc_data) : Int × Int :=
  let scr_end : Int := s.vga_origin + c.vc_screen_size
  let margin : Int := i32 (u32 (c.vc_cols * 4))
  if (s.vga_rolled_over : Int) > scr_end + margin then
    (i32 scr_end, i32 (u32 (s.vga_rolled_over + c.vc_cols)))
  else
    (0, i32 s.vga_vram_size)

/-- Function `vgacon_scrollback`.  The locals `margin`, `from`, `wrap`, `from_off` and
`avail` are `int`: every value assigned to them is converted, and the product
`2 * margin`, the difference `avail - margin` and the sum `from + from_off` are formed in
`int`. -/
def vgacon_scrollback (s : VgaState) (c : vc_data) (lines : Int) : VgaState :=
  let vorigin : Int := s.vga_visible_origin
  let origin : Int := s.vga_origin
  let margin : Int := i32 (u32 (c.vc_cols * 4))
  let frm : Int := (scrollback_window s c).1
  let wrap : Int := (scrollback_window s c).2
  let from_off : Int := i32 (c_rem (vorigin - frm + wrap) wrap + u32 (lines * c.vc_cols))
  let avail : Int := i32 (c_rem (origin - frm + wrap) wrap)
  let margin : Int := if avail < i32 (2 * margin) then 0 else margin
  let from_off : Int := if from_off < margin then 0 else from_off
  let from_off : Int := if from_off > i32 (avail - margin) then avail else from_off
  vga_update_mem_top { s with vga_visible_origin := c_rem (i32 (frm + from_off)) wrap }

/-! ## Attribute encoder -/

/-- Function `vgacon_build_attr`.  Every assignment to the `u8` variable `attr` converts
the `int` value of its right-hand side. -/
def vgacon_build_attr (s : VgaState) (c : vc_data) (a : vc_cell_attr) : Nat :=
  let invert : Bool := xor a.reverse a.selected
  if s.vga_can_do_color then
    let attr : Nat := u8 (a.fg_color.val ||| (a.bg_color.val <<< 4))
    let attr : Nat :=
      if a.italic then u8 ((attr &&& 0xf0) ||| c.vc_itcolor.val)
      else if a.underline then u8 ((attr &&& 0xf0) ||| c.vc_ulcolor.val)
      else if a.intensity = VCI_HALF_BRIGHT then u8 ((attr &&& 0xf0) ||| c.vc_halfcolor.val)
      else attr
    let attr : Nat := if a.pointer_pos then u8 (attr ^^^ 0x77) else attr
    let attr : Nat :=
      if invert then u8 ((attr &&& 0x88) ||| (((attr >>> 4) ||| (attr <<< 4)) &&& 0x77))
      else attr
    let attr : Nat := if a.blink then u8 (attr ||| 0x80) else attr
    let attr : Nat := if a.intensity = VCI_BOLD then u8 (attr ||| 0x08) else attr
    attr
  else
    let attr : Nat :=
      if invert then 0x70
      else if a.italic || a.underline then 0x01
      else 0x07
    let attr : Nat := if a.blink || a.pointer_pos then u8 (attr ||| 0x80) else attr
    let attr : Nat := if a.intensity = VCI_BOLD then u8 (attr ||| 0x08) else attr
    attr

/-- Function `to_u16`. -/
def to_u16 (s : VgaState) (vc : vc_data) (c : vc_cell) : Nat :=
  u16 ((u16 (vgacon_build_attr s vc c.attr) <<< 8) ||| c.glyph.val)

/-! ## Cursor shape -/

/-- Function `vgacon_set_cursor_size`. -/
def vgacon_set_cursor_size (K : Consts) (s : VgaState) (frm to_ : Int) : VgaState :=
  if frm = s.cursor_size_lastfrom ∧ to_ = s.cursor_size_lastto then s
  else
    let s : VgaState := { s with cursor_size_lastfrom := frm, cursor_size_lastto := to_ }
    let vga : Bool := decide (s.vga_video_type ≥ K.VIDEO_TYPE_VGAC)
    let curs : Int := if vga then (u8 (s.crtc K.VGA_CRTC_CURSOR_START) : Int) else 0
    let cure : Int := if vga then (u8 (s.crtc K.VGA_CRTC_CURSOR_END) : Int) else 0
    let selects : List PortWrite :=
      if vga then
        [PortWrite.outb (u8 K.VGA_CRTC_CURSOR_START) s.vga_video_port_reg,
         PortWrite.outb (u8 K.VGA_CRTC_CURSOR_END) s.vga_video_port_reg]
      else []
    let curs : Int := Int.lor (Int.land curs 0xc0) frm
    let cure : Int := Int.lor (Int.land cure 0xe0) to_
    { s with port_log := s.port_log ++ selects ++
        [PortWrite.outb (u8 K.VGA_CRTC_CURSOR_START) s.vga_video_port_reg,
         PortWrite.outb (curs % 256).toNat s.vga_video_port_val,
         PortWrite.outb (u8 K.VGA_CRTC_CURSOR_END) s.vga_video_port_reg,
         PortWrite.outb (cure % 256).toNat s.vga_video_port_val] }

/-- Function `vgacon_cursor`.  The differences `vga_video_font_height - k` and the product
`vga_video_font_height * 2` are formed in `int`. -/
def vgacon_cursor (K : Consts) (s : VgaState) (c : vc_data) (mode : Int) : VgaState :=
  if c.vc_mode ≠ K.KD_TEXT then s
  else
    let s : VgaState := vgacon_restore_screen s
    if mode = K.CM_ERASE then
      let s : VgaState := write_vga s 14 (u32 (s.vga_origin + c.vc_pos))
      if s.vga_video_type ≥ K.VIDEO_TYPE_VGAC then vgacon_set_cursor_size K s 31 30
      else vgacon_set_cursor_size K s 31 31
    else if mode = K.CM_MOVE ∨ mode = K.CM_DRAW then
      let s : VgaState := write_vga s 14 (u32 (s.vga_origin + c.vc_pos))
      let h : Int := s.vga_video_font_height
      let kind : Nat := CUR_SIZE c.vc_cursor_type
      if kind = CUR_UNDERLINE then
        vgacon_set_cursor_size K s (i32 (h - (if h < 10 then 2 else 3)))
          (i32 (h - (if h < 10 then 1 else 2)))
      else if kind = CUR_TWO_THIRDS then
        vgacon_set_cursor_size K s (c_div h 3) (i32 (h - (if h < 10 then 1 else 2)))
      else if kind = CUR_LOWER_THIRD then
        vgacon_set_cursor_size K s (c_div (i32 (h * 2)) 3)
          (i32 (h - (if h < 10 then 1 else 2)))
      else if kind = CUR_LOWER_HALF then
        vgacon_set_cursor_size K s (c_div h 2) (i32 (h - (if h < 10 then 1 else 2)))
      else if kind = CUR_NONE then
        if s.vga_video_type ≥ K.VIDEO_TYPE_VGAC then vgacon_set_cursor_size K s 31 30
        else vgacon_set_cursor_size K s 31 31
      else
        vgacon_set_cursor_size K s 1 h
    else s

/-! ## Origin reset and hardware scrolling -/

/-- Function `vgacon_reset_origin`: the returned `int` and the state it leaves. -/
def vgacon_reset_origin (s : VgaState) : Int × VgaState :=
  if s.vga_is_gfx = true ∨ (s.console_blanked ≠ 0 ∧ s.vga_palette_blanked = false) then
    (0, s)
  else
    let s : VgaState := { s with vga_origin := 0, vga_visible_origin := 0 }
    let s : VgaState := vga_update_mem_top s
    (1, { s with vga_rolled_over := 0 })

/-- Function `vgacon_scroll`: the returned `bool`, the driver state and the console it
leaves. -/
def vgacon_scroll (K : Consts) (s : VgaState) (c : vc_data) (t b : Nat) (dir : con_scroll)
    (lines : Nat) : Bool × VgaState × vc_data :=
  if t ≠ 0 ∨ b ≠ c.vc_rows ∨ s.vga_is_gfx = true ∨ c.vc_mode ≠ K.KD_TEXT then
    (false, s, c)
  else if s.vga_hardscroll_enabled = false ∨ lines ≥ c.vc_rows / 2 then
    (false, s, c)
  else
    let erase : Nat := to_u16 s c c.vc_video_erase
    let s : VgaState := vgacon_restore_screen s
    let oldo : Nat := usize s.vga_origin
    let delta : Nat := u32 (lines * c.vc_cols)
    let rest : Nat := u32 ((c.vc_screen_size : Int) - delta)
    match dir with
    | con_scroll.SM_UP =>
      let s : VgaState :=
        if s.vga_origin + c.vc_screen_size + delta ≥ vga_vram_end s then
          { s with
            vram := scr_memmove s.vram 0 (s.vga_origin + delta) rest
            vga_origin := 0
            vga_rolled_over := u32 oldo }
        else
          { s with vga_origin := s.vga_origin + delta }
      let s : VgaState :=
        { s with vram := scr_memset s.vram (s.vga_origin + c.vc_screen_size - delta) erase delta }
      let c : vc_data :=
        { c with screenbuf := cellmove c.screenbuf 0 delta rest }
      let c : vc_data :=
        { c with screenbuf := cellset c.screenbuf (c.vc_scr_end - delta) c.vc_video_erase delta }
      let s : VgaState := { s with vga_visible_origin := s.vga_origin }
      (true, vga_update_mem_top s, c)
    | con_scroll.SM_DOWN =>
      let s : VgaState :=
        if (delta : Nat) > oldo then
          { s with
            vram := scr_memmove s.vram (vga_vram_end s - c.vc_screen_size + delta)
              s.vga_origin rest
            vga_origin := vga_vram_end s - c.vc_screen_size
            vga_rolled_over := 0 }
        else
          { s with vga_origin := s.vga_origin - delta }
      let s : VgaState := { s with vram := scr_memset s.vram s.vga_origin erase delta }
      let c : vc_data :=
        { c with screenbuf := cellmove c.screenbuf delta 0 rest }
      let c : vc_data :=
        { c with screenbuf := cellset c.screenbuf 0 c.vc_video_erase delta }
      let s : VgaState := { s with vga_visible_origin := s.vga_origin }
      (true, vga_update_mem_top s, c)

/-- Function `vgacon_deinit`. -/
def vgacon_deinit (s : VgaState) (c : vc_data) : VgaState :=
  if c.is_visible then
    vga_update_mem_top { s with vga_origin := 0, vga_visible_origin := 0 }
  else s

/-! ## Resizing -/

/-- Function `vgacon_doresize`: the returned `int` and the state it leaves. -/
def vgacon_doresize (K : Consts) (s : VgaState) (width height : Nat) : Int × VgaState :=
  let scanlines : Nat := u32 (height * s.vga_video_font_height)
  let s : VgaState :=
    { s with
      vgacon_xres := u32 (width * VGA_FONTWIDTH)
      vgacon_yres := u32 (height * s.vga_video_font_height) }
  let vga : Bool := decide (s.vga_video_type ≥ K.VIDEO_TYPE_VGAC)
  let max_scan : Nat := u8 (s.crtc K.VGA_CRTC_MAX_SCAN)
  let scanlines : Nat :=
    if vga = true ∧ max_scan &&& 0x80 ≠ 0 then u32 (scanlines <<< 1) else scanlines
  let mode : Nat := u8 (s.crtc K.VGA_CRTC_MODE)
  let scanlines : Nat := if vga = true ∧ mode &&& 0x04 ≠ 0 then scanlines >>> 1 else scanlines
  let scanlines : Nat := if vga then u32 ((scanlines : Int) - 1) else scanlines
  let scanlines_lo : Nat := if vga then u8 (scanlines &&& 0xff) else 0
  let r7 : Nat := if vga then u8 (u8 (s.crtc K.VGA_CRTC_OVERFLOW) &&& 0xbd) else 0
  let r7 : Nat := if vga = true ∧ scanlines &&& 0x100 ≠ 0 then u8 (r7 ||| 0x02) else r7
  let r7 : Nat := if vga = true ∧ scanlines &&& 0x200 ≠ 0 then u8 (r7 ||| 0x40) else r7
  let vsync_end : Nat := if vga then u8 (s.crtc K.VGA_CRTC_V_SYNC_END) else 0
  let deprotect : List PortWrite :=
    if vga then
      [PortWrite.outb (u8 K.VGA_CRTC_MAX_SCAN) s.vga_video_port_reg,
       PortWrite.outb (u8 K.VGA_CRTC_MODE) s.vga_video_port_reg,
       PortWrite.outb (u8 K.VGA_CRTC_OVERFLOW) s.vga_video_port_reg,
       PortWrite.outb (u8 K.VGA_CRTC_V_SYNC_END) s.vga_video_port_reg,
       PortWrite.outb (u8 K.VGA_CRTC_V_SYNC_END) s.vga_video_port_reg,
       PortWrite.outb (u8 (vsync_end &&& 0x7f)) s.vga_video_port_val]
    else []
  let horizontal : List PortWrite :=
    [PortWrite.outb (u8 K.VGA_CRTC_H_DISP) s.vga_video_port_reg,
     PortWrite.outb (u8 (u32 ((width : Int) - 1))) s.vga_video_port_val,
     PortWrite.outb (u8 K.VGA_CRTC_OFFSET) s.vga_video_port_reg,
     PortWrite.outb (u8 (width >>> 1)) s.vga_video_port_val]
  let vertical : List PortWrite :=
    if vga then
      [PortWrite.outb (u8 K.VGA_CRTC_V_DISP_END) s.vga_video_port_reg,
       PortWrite.outb scanlines_lo s.vga_video_port_val,
       PortWrite.outb (u8 K.VGA_CRTC_OVERFLOW) s.vga_video_port_reg,
       PortWrite.outb r7 s.vga_video_port_val,
       PortWrite.outb (u8 K.VGA_CRTC_V_SYNC_END) s.vga_video_port_reg,
       PortWrite.outb vsync_end s.vga_video_port_val]
    else []
  (0, { s with port_log := s.port_log ++ deprotect ++ horizontal ++ vertical })

/-- Function `vgacon_resize`: the returned `int` and the state it leaves. -/
def vgacon_resize (K : Consts) (s : VgaState) (c : vc_data) (width height user : Nat) :
    Int × VgaState :=
  if u32 (width * height) > s.vga_vram_size then (-K.EINVAL, s)
  else if user ≠ 0 then
    (0, { s with
          orig_video_cols := K.screen_info_field width
          orig_video_lines := K.screen_info_field height
          vga_default_font_height := u32 s.vga_video_font_height })
  else if width % 2 ≠ 0 ∨ width > s.orig_video_cols ∨
      height > u32 (s.orig_video_lines * s.vga_default_font_height) /
        u32 s.vga_video_font_height then
    (-K.EINVAL, s)
  else if c.is_visible = true ∧ s.vga_is_gfx = false then
    (0, (vgacon_doresize K s width height).2)
  else
    (0, s)

/-! ## Console set-up -/

/-- Function `vgacon_init`: the driver state, the console and the value it leaves in
`global_cursor_default`, a variable of the VT layer.  `vc_resize` belongs to the VT layer,
outside this source tree, and is a parameter: the driver state and the console it leaves
when called with the given columns and lines.  `flags` is `screen_info.flags`. -/
def vgacon_init (K : Consts)
    (vc_resize : VgaState → vc_data → Nat → Nat → VgaState × vc_data)
    (global_cursor_default : Int) (flags : Nat) (s : VgaState) (c : vc_data) (init : Int) :
    VgaState × vc_data × Int :=
  let c : vc_data :=
    { c with
      vc_can_do_color := s.vga_can_do_color
      vc_scan_lines := u32 s.vga_scan_lines }
  let sc : VgaState × vc_data :=
    if init ≠ 0 then
      (s, { c with
            vc_cols := s.vga_video_num_columns
            vc_rows := s.vga_video_num_lines })
    else vc_resize s c s.vga_video_num_columns s.vga_video_num_lines
  let global_cursor_default : Int :=
    if global_cursor_default = -1 then
      (if flags &&& K.VIDEO_FLAGS_NOCURSOR = 0 then 1 else 0)
    else global_cursor_default
  (sc.1, sc.2, global_cursor_default)

/-! ## Selection highlight -/

/-- The body of the loop of `vgacon_invert_selection` on one word `a` read from video
memory; `col` is `vga_can_do_color`.  The result is stored in the `u16` variable `a`. -/
def invert_word (col : Bool) (a : Nat) : Nat :=
  if col then
    u16 ((a &&& 0x88ff) ||| ((a &&& 0x7000) >>> 4) ||| ((a &&& 0x0700) <<< 4))
  else
    u16 (a ^^^ (if a &&& 0x0700 = 0x0100 then 0x7000 else 0x7700))

/-- The loop `while (count--)` of `vgacon_invert_selection`, for the number of iterations
it makes. -/
def invert_loop (col : Bool) (mem : Int → Nat) (p : Int) : Nat → Int → Nat
  | 0 => mem
  | count + 1 =>
    invert_loop col (scr_write mem (invert_word col (u16 (scr_read mem p))) p) (p + 1) count

/-- Function `vgacon_invert_selection`.  The counter is an `int` tested for non-zero and
decremented with wrapping arithmetic, so the loop makes `count` iterations, reduced modulo
`2^32`. -/
def vgacon_invert_selection (s : VgaState) (offset count : Int) : VgaState :=
  { s with
    vram := invert_loop s.vga_can_do_color s.vram (s.vga_visible_origin + offset)
      (u32 count) }

/-! ## Blanking -/

/-- Function `vga_pal_blank`: one write to the pixel mask, then for each of the 16 palette
entries its index and three zero components. -/
def vga_pal_blank (K : Consts) (s : VgaState) : VgaState :=
  { s with
    port_log := s.port_log ++ K.vga_w K.VGA_PEL_MSK 0xff ++
      ((List.range 16).map (fun i =>
        K.vga_w K.VGA_PEL_IW i ++ K.vga_w K.VGA_PEL_D 0 ++ K.vga_w K.VGA_PEL_D 0 ++
          K.vga_w K.VGA_PEL_D 0)).flatten }

/-- The statements under the labels `case 1:` (normal blanking) and `case -1:` of the
`switch (blank)` in `vgacon_blank` (lines 862-873): the returned `int` and the state left.
The result of `vgacon_reset_origin` is discarded, as in the source. -/
def vgacon_blank_normal (K : Consts) (s : VgaState) (c : vc_data) (mode_switch : Int) :
    Int × VgaState :=
  if mode_switch = 0 ∧ s.vga_video_type = K.VIDEO_TYPE_VGAC then
    let s : VgaState := vga_pal_blank K s
    (0, { s with vga_palette_blanked := true })
  else
    let s : VgaState := (vgacon_reset_origin s).2
    let s : VgaState := { s with vram := scr_memset s.vram 0 BLANK c.vc_screen_size }
    let s : VgaState := if mode_switch ≠ 0 then { s with vga_is_gfx := true } else s
    (1, s)

/-! ## Cell output -/

/-- The loop `while (height--)` of `vgacon_clear`, for the number of iterations it makes:
each fills `width` cells from `p` with `BLANK` and advances `p` by `vc_cols`. -/
def clear_rows (mem : Int → Nat) (p : Int) (cols : Nat) (width : Nat) : Nat → Int → Nat
  | 0 => mem
  | height + 1 => clear_rows (scr_memset mem p BLANK width) (p + cols) cols width height

/-- Function `vgacon_clear`.  The product `ypos * vc->vc_cols` is formed in `unsigned int`
and added to the pointer before `xpos` is; `width` is converted to `size_t`; the `int`
counter `height` is tested for non-zero and decremented with wrapping arithmetic, which
makes `height` iterations, reduced modulo `2^32`. -/
def vgacon_clear (s : VgaState) (vc : vc_data) (ypos xpos height width : Int) : VgaState :=
  let p : Int := s.vga_origin + u32 (ypos * vc.vc_cols) + xpos
  { s with vram := clear_rows s.vram p vc.vc_cols (usize width) (u32 height) }

/-- Function `vgacon_putc`. -/
def vgacon_putc (s : VgaState) (vc : vc_data) (c : vc_cell) (ypos xpos : Int) : VgaState :=
  let w : Nat := to_u16 s vc c
  let p : Int := s.vga_origin + u32 (ypos * vc.vc_cols) + xpos
  { s with vram := scr_write s.vram w p }

/-- The loop `while (count--)` of `vgacon_putcs` for the number of iterations it makes;
`cells k` is the cell `s[k]` of the caller's array and `k` the index `s` has advanced to.
The comparison `xpos >= vc->vc_cols` is made in `unsigned int`. -/
def putcs_loop (vc : vc_data) (cells : Nat → vc_cell) :
    Nat → Nat → VgaState → Int → Int → VgaState
  | 0, _, s, _, _ => s
  | count + 1, k, s, ypos, xpos =>
    let s : VgaState := vgacon_putc s vc (cells k) ypos xpos
    let xpos : Int := i32 (xpos + 1)
    if u32 xpos ≥ vc.vc_cols then putcs_loop vc cells count (k + 1) s (i32 (ypos + 1)) 0
    else putcs_loop vc cells count (k + 1) s ypos xpos

/-- Function `vgacon_putcs`; `cells k` is the cell `s[k]` of the caller's array.  The `int`
counter is tested for non-zero and decremented with wrapping arithmetic, which makes
`count` iterations, reduced modulo `2^32`. -/
def vgacon_putcs (s : VgaState) (vc : vc_data) (cells : Nat → vc_cell)
    (count ypos xpos : Int) : VgaState :=
  putcs_loop vc cells (u32 count) 0 s ypos xpos

/-! ## Program order of effects and the hardware lock -/

/-- One effect of a driver call, in program order: taking the spin lock `vga_lock`
(`raw_spin_lock_irqsave`), releasing it (`raw_spin_unlock_irqrestore`), a port output, a
store to video memory (`scr_write`, `scr_memset`, `scr_memmove`) or a store to the console
screen buffer (`cellmove`, `cellset`). -/
inductive Event where
  | lock
  | unlock
  | port (w : PortWrite)
  | vram_write (p : Int) (w : Nat)
  | vram_set (p : Int) (a : Nat) (count : Nat)
  | vram_move (dst src : Int) (count : Nat)
  | shadow_move (dst src : Int) (count : Nat)
  | shadow_set (dst : Int) (cell : vc_cell) (count : Nat)
deriving DecidableEq

/-- The effects of `write_vga` (lines 158-173) in program order: the lock is taken, the
two words go out, the lock is released. -/
def write_vga_events (s : VgaState) (reg : Nat) (val : Nat) : List Event :=
  let v1 := u32 (reg + (val &&& 0xff00 : Nat))
  let v2 := u32 (reg + 1 + ((u32 (val <<< 8) &&& 0xff00 : Nat) : Int))
  [Event.lock,
   Event.port (PortWrite.outw (u16 v1) s.vga_video_port_reg),
   Event.port (PortWrite.outw (u16 v2) s.vga_video_port_reg),
   Event.unlock]

/-- The effects of `vga_update_mem_top`. -/
def vga_update_mem_top_events (s : VgaState) : List Event :=
  write_vga_events s 12 (u32 s.vga_visible_origin)

/-- The effects of `vgacon_restore_screen`. -/
def vgacon_restore_screen_events (s : VgaState) : List Event :=
  vga_update_mem_top_events { s with vga_visible_origin := s.vga_origin }

/-- The effects of `vgacon_scroll` (lines 1116-1172) in program order: none when the
request is declined; otherwise those of `vgacon_restore_screen`, then the stores to video
memory (`scr_memmove` on a wrap, `scr_memset`), then the stores to the screen buffer
(`cellmove`, `cellset`), then those of `vga_update_mem_top`.  The function itself contains
no lock call. -/
def vgacon_scroll_events (K : Consts) (s : VgaState) (c : vc_data) (t b : Nat)
    (dir : con_scroll) (lines : Nat) : List Event :=
  if t ≠ 0 ∨ b ≠ c.vc_rows ∨ s.vga_is_gfx = true ∨ c.vc_mode ≠ K.KD_TEXT then []
  else if s.vga_hardscroll_enabled = false ∨ lines ≥ c.vc_rows / 2 then []
  else
    let erase : Nat := to_u16 s c c.vc_video_erase
    let restore : List Event := vgacon_restore_screen_events s
    let s : VgaState := vgacon_restore_screen s
    let oldo : Nat := usize s.vga_origin
    let delta : Nat := u32 (lines * c.vc_cols)
    let rest : Nat := u32 ((c.vc_screen_size : Int) - delta)
    match dir with
    | con_scroll.SM_UP =>
      let move : List Event :=
        if s.vga_origin + c.vc_screen_size + delta ≥ vga_vram_end s then
          [Event.vram_move 0 (s.vga_origin + delta) rest]
        else []
      let origin : Int :=
        if s.vga_origin + c.vc_screen_size + delta ≥ vga_vram_end s then 0
        else s.vga_origin + delta
      restore ++ move ++
        [Event.vram_set (origin + c.vc_screen_size - delta) erase delta,
         Event.shadow_move 0 delta rest,
         Event.shadow_set (c.vc_scr_end - delta) c.vc_video_erase delta] ++
        write_vga_events s 12 (u32 origin)
    | con_scroll.SM_DOWN =>
      let move : List Event :=
        if (delta : Nat) > oldo then
          [Event.vram_move (vga_vram_end s - c.vc_screen_size + delta) s.vga_origin rest]
        else []
      let origin : Int :=
        if (delta : Nat) > oldo then vga_vram_end s - c.vc_screen_size
        else s.vga_origin - delta
      restore ++ move ++
        [Event.vram_set origin erase delta,
         Event.shadow_move delta 0 rest,
         Event.shadow_set 0 c.vc_video_erase delta] ++
        write_vga_events s 12 (u32 origin)

/-- The effects of the loop of `vgacon_clear`: one `scr_memset` for each row. -/
def clear_rows_events (p : Int) (cols : Nat) (width : Nat) : Nat → List Event
  | 0 => []
  | height + 1 => Event.vram_set p BLANK width :: clear_rows_events (p + cols) cols width height

/-- The effects of `vgacon_clear` (lines 1203-1212); the function contains no lock call. -/
def vgacon_clear_events (s : VgaState) (vc : vc_data) (ypos xpos height width : Int) :
    List Event :=
  clear_rows_events (s.vga_origin + u32 (ypos * vc.vc_cols) + xpos) vc.vc_cols (usize width)
    (u32 height)

/-- The effects of the loop of `vgacon_putcs`: one `scr_write` (in `vgacon_putc`) for each
cell. -/
def putcs_events (s : VgaState) (vc : vc_data) (cells : Nat → vc_cell) :
    Nat → Nat → Int → Int → List Event
  | 0, _, _, _ => []
  | count + 1, k, ypos, xpos =>
    Event.vram_write (s.vga_origin + u32 (ypos * vc.vc_cols) + xpos) (to_u16 s vc (cells k)) ::
      (if u32 (i32 (xpos + 1)) ≥ vc.vc_cols then
        putcs_events s vc cells count (k + 1) (i32 (ypos + 1)) 0
      else putcs_events s vc cells count (k + 1) ypos (i32 (xpos + 1)))

/-- The effects of `vgacon_putcs` (lines 1222-1232); neither it nor `vgacon_putc` (lines
1214-1220) contains a lock call. -/
def vgacon_putcs_events (s : VgaState) (vc : vc_data) (cells : Nat → vc_cell)
    (count ypos xpos : Int) : List Event :=
  putcs_events s vc cells (u32 count) 0 ypos xpos

/-- The video memory, the screen buffer and the port log after one effect. -/
def replay_event (m : (Int → Nat) × (Int → vc_cell) × List PortWrite) :
    Event → (Int → Nat) × (Int → vc_cell) × List PortWrite
  | Event.lock => m
  | Event.unlock => m
  | Event.port w => (m.1, m.2.1, m.2.2 ++ [w])
  | Event.vram_write p w => (scr_write m.1 w p, m.2.1, m.2.2)
  | Event.vram_set p a count => (scr_memset m.1 p a count, m.2.1, m.2.2)
  | Event.vram_move dst src count => (scr_memmove m.1 dst src count, m.2.1, m.2.2)
  | Event.shadow_move dst src count => (m.1, cellmove m.2.1 dst src count, m.2.2)
  | Event.shadow_set dst cell count => (m.1, cellset m.2.1 dst cell count, m.2.2)

/-- The video memory, the screen buffer and the port log after the effects of a trace. -/
def replay (m : (Int → Nat) × (Int → vc_cell) × List PortWrite) (tr : List Event) :
    (Int → Nat) × (Int → vc_cell) × List PortWrite :=
  tr.foldl replay_event m

/-- The mutations of a trace (port outputs, stores to video memory, stores to the screen
buffer) that occur while `vga_lock` is not held; `held` says whether it is held at the
start of the trace. -/
def unlocked_mutations : Bool → List Event → List Event
  | _, [] => []
  | _, Event.lock :: tr => unlocked_mutations true tr
  | _, Event.unlock :: tr => unlocked_mutations false tr
  | held, e :: tr =>
    if held then unlocked_mutations held tr else e :: unlocked_mutations held tr

/-- The number of times a trace takes `vga_lock`. -/
def lock_count (tr : List Event) : Nat := tr.count Event.lock

/-- The property of the specification for one call: every mutation occurs while `vga_lock`
is held, and the lock is taken at most once. -/
def single_lock_interval (tr : List Event) : Prop :=
  unlocked_mutations false tr = [] ∧ lock_count tr ≤ 1

instance (tr : List Event) : Decidable (single_lock_interval tr) := by
  unfold single_lock_interval
  infer_instance

/-! ## Font height -/

/-- The two tests at the head of `vgacon_font_set` (lines 1050-1055), on the adapter type
and on the font geometry: `some (-EINVAL)` when one of them rejects the request, `none` when
the function goes on to load the font and to adopt its height. -/
def font_set_guard (K : Consts) (s : VgaState) (width height vpitch charcount : Nat) :
    Option Int :=
  if s.vga_video_type < K.VIDEO_TYPE_EGAM then some (-K.EINVAL)
  else if width ≠ VGA_FONTWIDTH ∨ height > 32 ∨ vpitch ≠ 32 ∨ charcount ≠ 256 then
    some (-K.EINVAL)
  else none

/-! ## Sequences of operations -/

/-- One call of the scroll engine on the visible console: a scroll request, a scrollback
pan, `vgacon_restore_screen`, `vgacon_reset_origin`, or `vgacon_deinit` (with the answer
`con_is_visible` gives at that call). -/
inductive Op where
  | scroll (t b : Nat) (dir : con_scroll) (lines : Nat)
  | scrollback (lines : Int)
  | restore_screen
  | reset_origin
  | deinit (visible : Bool)

/-- The driver state and the console after one operation. -/
def step (K : Consts) (sc : VgaState × vc_data) : Op → VgaState × vc_data
  | Op.scroll t b dir lines => (vgacon_scroll K sc.1 sc.2 t b dir lines).2
  | Op.scrollback lines => (vgacon_scrollback sc.1 sc.2 lines, sc.2)
  | Op.restore_screen => (vgacon_restore_screen sc.1, sc.2)
  | Op.reset_origin => ((vgacon_reset_origin sc.1).2, sc.2)
  | Op.deinit visible => (vgacon_deinit sc.1 { sc.2 with is_visible := visible }, sc.2)

/-- The driver state and the console after a sequence of operations. -/
def run (K : Consts) (sc : VgaState × vc_data) (ops : List Op) : VgaState × vc_data :=
  ops.foldl (step K) sc

/-- The visible origin after a sequence of `vgacon_scrollback` calls with the given line
counts. -/
def scrollback_seq (s : VgaState) (c : vc_data) (ls : List Int) : VgaState :=
  ls.foldl (fun st lines => vgacon_scrollback st c lines) s

/-! ## Reference definitions taken from the specification -/

/-- The invariants of the data model on the live view: `0 ≤ Origin < N` and the view
`[Origin, Origin + screenSize)` ends inside the buffer. -/
def origin_in_buffer (s : VgaState) (c : vc_data) : Prop :=
  0 ≤ s.vga_origin ∧ s.vga_origin < s.vga_vram_size ∧
    s.vga_origin + c.vc_screen_size ≤ s.vga_vram_size

instance (s : VgaState) (c : vc_data) : Decidable (origin_in_buffer s c) := by
  unfold origin_in_buffer
  infer_instance

/-- The invariant of the data model on the displayed view: `0 ≤ VisibleOrigin < N`. -/
def visible_in_buffer (s : VgaState) : Prop :=
  0 ≤ s.vga_visible_origin ∧ s.vga_visible_origin < s.vga_vram_size

instance (s : VgaState) : Decidable (visible_in_buffer s) := by
  unfold visible_in_buffer
  infer_instance

/-- The quantities `vgacon_scrollback` converts to `int` are representable: the capacity
and `RolledOver + cols` are at most `2^30`, and `4 * cols` is below `2^31`. -/
def scrollback_in_range (s : VgaState) (c : vc_data) : Prop :=
  s.vga_vram_size ≤ 1073741824 ∧ s.vga_rolled_over + c.vc_cols ≤ 1073741824 ∧
    c.vc_cols < 536870912

instance (s : VgaState) (c : vc_data) : Decidable (scrollback_in_range s c) := by
  unfold scrollback_in_range
  infer_instance

/-- The navigable window of the specification, as start and length, for a given value
`scrEnd` of the screen end: `[scrEnd, RolledOver + cols)` if `RolledOver > scrEnd + margin`
with `margin = 4 * cols`, else `[0, N)`. -/
def nav_window (scrEnd : Int) (s : VgaState) (c : vc_data) : Int × Int :=
  if (s.vga_rolled_over : Int) > scrEnd + 4 * c.vc_cols then
    (scrEnd, (s.vga_rolled_over : Int) + c.vc_cols)
  else
    (0, (s.vga_vram_size : Int))

/-- The navigable window for the screen end the driver computes, `Origin + screenSize`. -/
def live_window (s : VgaState) (c : vc_data) : Int × Int :=
  nav_window (s.vga_origin + c.vc_screen_size) s c

/-- Distance from the start of the window `w` to the offset `p`, modulo the window
length. -/
def window_distance (w : Int × Int) (p : Int) : Int := (p - w.1) % w.2

/-- The effective margin in the window `w`: `4 * cols`, or 0 when the distance `avail`
from the window start to `Origin` is below `8 * cols`. -/
def effective_margin (w : Int × Int) (s : VgaState) (c : vc_data) : Int :=
  if window_distance w s.vga_origin < 2 * (4 * (c.vc_cols : Int)) then 0
  else 4 * (c.vc_cols : Int)

/-- The margin as `vgacon_scrollback` computes it in the window `w` (lines 207-208):
`4 * cols`, or 0 when the distance `avail` from the window start to `Origin` is below the
`int` product `2 * margin`. -/
def driver_margin (w : Int × Int) (s : VgaState) (c : vc_data) : Int :=
  if window_distance w s.vga_origin < i32 (2 * (4 * (c.vc_cols : Int))) then 0
  else 4 * (c.vc_cols : Int)

/-- The pan formula of the specification for a given screen end `scrEnd`: the new
`VisibleOrigin` after `scrollback(lines)`, over the mathematical integers. -/
def scrollback_formula (scrEnd : Int) (s : VgaState) (c : vc_data) (lines : Int) : Int :=
  let w : Int × Int := nav_window scrEnd s c
  let avail : Int := window_distance w s.vga_origin
  let margin : Int := effective_margin w s c
  let raw : Int := window_distance w s.vga_visible_origin + lines * c.vc_cols
  let off : Int :=
    if raw < margin then 0
    else if raw > avail - margin then avail
    else raw
  (w.1 + off) % w.2

/-- The two clamping steps of `vgacon_scrollback` (lines 209-212), applied in order to the
requested offset `r` for margin `m` and available distance `avail`. -/
def pan_clamp (m avail r : Int) : Int :=
  if (if r < m then 0 else r) > avail - m then avail else (if r < m then 0 else r)

/-- The colour attribute encoder of the specification: `b = fg | (bg << 4)`; the low
nibble is replaced by the italic colour if italic, else by the underline colour if
underline, else by the half-bright colour if the intensity is half; `b ^= 0x77` if
`pointerMarker`; the nibbles are swapped, keeping bits `0x88`, if `reverse XOR selected`;
then `0x80` is set if blink and `0x08` if bold; the result is truncated to 8 bits. -/
def encode_color (c : vc_data) (a : vc_cell_attr) : Nat :=
  let b : Nat := a.fg_color.val ||| (a.bg_color.val <<< 4)
  let b : Nat :=
    if a.italic then (b &&& 0xF0) ||| c.vc_itcolor.val
    else if a.underline then (b &&& 0xF0) ||| c.vc_ulcolor.val
    else if a.intensity = VCI_HALF_BRIGHT then (b &&& 0xF0) ||| c.vc_halfcolor.val
    else b
  let b : Nat := if a.pointer_pos then b ^^^ 0x77 else b
  let b : Nat :=
    if xor a.reverse a.selected then (b &&& 0x88) ||| (((b >>> 4) ||| (b <<< 4)) &&& 0x77)
    else b
  let b : Nat := if a.blink then b ||| 0x80 else b
  let b : Nat := if a.intensity = VCI_BOLD then b ||| 0x08 else b
  b % 256

/-- The monochrome attribute encoder of the specification: `0x70` if
`reverse XOR selected`, else `0x01` if `italic OR underline`, else `0x07`; then `0x80` is
set if `blink OR pointerMarker` and `0x08` if bold. -/
def encode_mono (a : vc_cell_attr) : Nat :=
  let base : Nat :=
    if xor a.reverse a.selected then 0x70
    else if a.italic || a.underline then 0x01
    else 0x07
  let b : Nat := if a.blink || a.pointer_pos then base ||| 0x80 else base
  if a.intensity = VCI_BOLD then b ||| 0x08 else b

/-- The cursor shape table of the specification, `map(kind, fontHeight) -> (start, end)`,
with the quotients of C; `extended` says whether the hardware has the extended (VGA-class)
cursor. -/
def cursor_shape (extended : Bool) (kind : Nat) (h : Int) : Int × Int :=
  if kind = CUR_UNDERLINE then
    (h - (if h < 10 then 2 else 3), h - (if h < 10 then 1 else 2))
  else if kind = CUR_TWO_THIRDS then
    (c_div h 3, h - (if h < 10 then 1 else 2))
  else if kind = CUR_LOWER_THIRD then
    (c_div (2 * h) 3, h - (if h < 10 then 1 else 2))
  else if kind = CUR_LOWER_HALF then
    (c_div h 2, h - (if h < 10 then 1 else 2))
  else if kind = CUR_NONE then
    (if extended then (31, 30) else (31, 31))
  else
    (1, h)

/-- The pair of arguments that `vgacon_cursor` passes to `vgacon_set_cursor_size` in the
branch `CM_MOVE` / `CM_DRAW` (lines 559-594), with the `int` differences and the `int`
product of the source. -/
def cursor_args (extended : Bool) (kind : Nat) (h : Int) : Int × Int :=
  if kind = CUR_UNDERLINE then
    (i32 (h - (if h < 10 then 2 else 3)), i32 (h - (if h < 10 then 1 else 2)))
  else if kind = CUR_TWO_THIRDS then
    (c_div h 3, i32 (h - (if h < 10 then 1 else 2)))
  else if kind = CUR_LOWER_THIRD then
    (c_div (i32 (h * 2)) 3, i32 (h - (if h < 10 then 1 else 2)))
  else if kind = CUR_LOWER_HALF then
    (c_div h 2, i32 (h - (if h < 10 then 1 else 2)))
  else if kind = CUR_NONE then
    (if extended then (31, 30) else (31, 31))
  else
    (1, h)

/-- The writes to the cursor start and end registers in a port log: the byte writes, which
only `vgacon_set_cursor_size` and `vgacon_doresize` issue (the display start and the cursor
position go out as 16-bit writes). -/
def cursor_writes (log : List PortWrite) : List PortWrite :=
  log.filter (fun e => match e with
    | PortWrite.outb _ _ => true
    | PortWrite.outw _ _ => false)

/-- The 16-bit value carried by the last two port writes of a log when they are the two
register words that `write_vga (12, val)` emits: register index 12 with the high byte of
`val`, then index 13 with the low byte (index in the low byte of the word, data in the
high byte). -/
def display_start (log : List PortWrite) : Option Nat :=
  match log.reverse with
  | PortWrite.outw w2 _ :: PortWrite.outw w1 _ :: _ =>
    if w1 % 256 = 12 ∧ w2 % 256 = 13 then some (w1 / 256 * 256 + w2 / 256) else none
  | _ => none

/-- The invariant carried along a sequence of operations, for capacity `N`, screen size
`S` and `cols` columns: the geometry is unchanged, the live view lies inside the buffer,
the displayed origin is a buffer offset, and the view recorded at the last wraparound lay
inside the buffer. -/
def reach_inv (N S cols : Nat) (sc : VgaState × vc_data) : Prop :=
  sc.1.vga_vram_size = N ∧ sc.2.vc_screen_size = S ∧ sc.2.vc_cols = cols ∧
    0 ≤ sc.1.vga_origin ∧ sc.1.vga_origin + S ≤ N ∧
    0 ≤ sc.1.vga_visible_origin ∧ sc.1.vga_visible_origin < N ∧
    (sc.1.vga_rolled_over : Int) + S ≤ N

/-- The value of `attr` in the colour branch of `vgacon_build_attr` when the test of
`invert` is reached: the two colours, the override of the low nibble, the pointer XOR. -/
def color_attr_base (c : vc_data) (a : vc_cell_attr) : Nat :=
  let attr : Nat := u8 (a.fg_color.val ||| (a.bg_color.val <<< 4))
  let attr : Nat :=
    if a.italic then u8 ((attr &&& 0xf0) ||| c.vc_itcolor.val)
    else if a.underline then u8 ((attr &&& 0xf0) ||| c.vc_ulcolor.val)
    else if a.intensity = VCI_HALF_BRIGHT then u8 ((attr &&& 0xf0) ||| c.vc_halfcolor.val)
    else attr
  let attr : Nat := if a.pointer_pos then u8 (attr ^^^ 0x77) else attr
  attr

/-- The nibble swap that the colour branch of `vgacon_build_attr` applies under
`invert`. -/
def color_attr_swap (attr : Nat) : Nat :=
  u8 ((attr &&& 0x88) ||| (((attr >>> 4) ||| (attr <<< 4)) &&& 0x77))

/-- The last two steps of the colour branch of `vgacon_build_attr`: the blink bit and the
bold bit. -/
def color_attr_finish (blink bold : Bool) (attr : Nat) : Nat :=
  let attr : Nat := if blink then u8 (attr ||| 0x80) else attr
  let attr : Nat := if bold then u8 (attr ||| 0x08) else attr
  attr

/-- The effect of the colour transform of `vgacon_invert_selection` on the attribute byte
(the high byte of the word): bits `0x88` kept, the two 3-bit colours exchanged. -/
def invert_attr (x : Nat) : Nat :=
  (x &&& 0x88) ||| ((x &&& 0x70) >>> 4) ||| ((x &&& 0x07) <<< 4)

/-- The cell `c` with its selected flag toggled. -/
def toggle_selected (c : vc_cell) : vc_cell :=
  { c with attr := { c.attr with selected := !c.attr.selected } }

/-! ## Concrete configurations used to instantiate the theorems -/

/-- The attribute white on black, normal intensity, every flag clear. -/
def plain_attr : vc_cell_attr :=
  { fg_color := 7, bg_color := 0, intensity := VCI_NORMAL, italic := false,
    underline := false, blink := false, reverse := false, pointer_pos := false,
    selected := false }

/-- A blank: the space glyph with the plain attribute. -/
def space_cell : vc_cell := { attr := plain_attr, glyph := 32 }

/-- A text-mode console of 25 rows and 80 columns whose screen buffer holds the glyphs
`0, 1, 2, ...` with the plain attribute. -/
def console80x25 : vc_data :=
  { vc_cols := 80, vc_rows := 25, vc_scan_lines := 400, vc_screen_size := 2000,
    vc_mode := 0, vc_can_do_color := true,
    vc_ulcolor := 3, vc_itcolor := 2, vc_halfcolor := 8, vc_cursor_type := 2,
    vc_pos := 0, vc_scr_end := 2000, vc_video_erase := space_cell,
    screenbuf := fun i => { attr := plain_attr, glyph := Fin.ofNat i.toNat },
    is_visible := true }

/-- A colour VGA adapter with 16384 cells of video memory, freshly reset: both origins at
the base, nothing rolled over, the word at offset `i` being `i`. -/
def vga16k : VgaState :=
  { cursor_size_lastfrom := 0, cursor_size_lastto := 0, vgacon_xres := 640,
    vgacon_yres := 400, vga_vram_size := 16384,
    vga_video_port_reg := 0x3D4, vga_video_port_val := 0x3D5,
    vga_video_num_columns := 80, vga_video_num_lines := 25, vga_can_do_color := true,
    vga_default_font_height := 16, vga_video_type := 0x22, vga_vesa_blanked := 0,
    vga_palette_blanked := false, vga_is_gfx := false, vga_video_font_height := 16,
    vga_scan_lines := 400, vga_origin := 0, vga_visible_origin := 0,
    vga_rolled_over := 0, vga_hardscroll_enabled := true, console_blanked := 0,
    orig_video_cols := 80, orig_video_lines := 25,
    vram := fun i => i.toNat % 65536, crtc := fun _ => 0, port_log := [] }

/-- The adapter after a downward wrap followed by one more line of scroll-down: the view
starts 2080 cells before the end of video memory. -/
def vga16k_near_end : VgaState :=
  { vga16k with vga_origin := 14304, vga_visible_origin := 14304 }

/-- The adapter with the live view ending exactly at the end of video memory and
`RolledOver = 1000`. -/
def vga16k_view_at_end : VgaState :=
  { vga16k with vga_origin := 14384, vga_visible_origin := 14384, vga_rolled_over := 1000 }

/-- The adapter with the live and the displayed view at offset 8000, nothing rolled
over. -/
def vga16k_mid : VgaState :=
  { vga16k with vga_origin := 8000, vga_visible_origin := 8000 }

/-- A monochrome adapter (MDA) with 4096 cells of video memory and a 14-line font. -/
def mda4k : VgaState :=
  { vga16k with
    vga_vram_size := 4096
    vga_can_do_color := false
    vga_video_type := 0x10
    vga_video_port_reg := 0x3B4
    vga_video_port_val := 0x3B5
    vga_default_font_height := 14
    vga_video_font_height := 14
    vga_scan_lines := 350
    vga_hardscroll_enabled := false }

/-- The 80x25 console switched to graphics mode (`vc_mode` 1, `KD_GRAPHICS`). -/
def console80x25_graphics : vc_data := { console80x25 with vc_mode := 1 }

/-- A bold attribute with italic, reverse and blink set, foreground 3 on background 4. -/
def fancy_attr : vc_cell_attr :=
  { fg_color := 3, bg_color := 4, intensity := VCI_BOLD, italic := true,
    underline := false, blink := true, reverse := true, pointer_pos := false,
    selected := false }

/-- The adapter with the live view at offset 8000 and the displayed view at offset 100,
inside the margin of 320 cells at the start of the window. -/
def vga16k_inside_margin : VgaState :=
  { vga16k with vga_origin := 8000, vga_visible_origin := 100 }

/-- The adapter with the live and the displayed view at offset 100, nothing rolled over:
the navigable span is below 640 cells. -/
def vga16k_short : VgaState :=
  { vga16k with vga_origin := 100, vga_visible_origin := 100 }

/-- The adapter with the live and the displayed view at offset 8000 while the VT layer has
the console blanked (`console_blanked = 1`) without palette blanking. -/
def vga16k_mid_blanked : VgaState := { vga16k_mid with console_blanked := 1 }

/-- The 80x25 console when it is not the visible one. -/
def console80x25_hidden : vc_data := { console80x25 with is_visible := false }

/-- The colour adapter with a font of 32 scan lines. -/
def vga16k_font32 : VgaState := { vga16k with vga_video_font_height := 32 }

/-- The 80x25 console with the block cursor (`CUR_BLOCK`). -/
def console80x25_block : vc_data := { console80x25 with vc_cursor_type := 6 }

/-- The plain attribute with reverse and underline both set. -/
def reverse_underline_attr : vc_cell_attr :=
  { plain_attr with reverse := true, underline := true }

/-- A stand-in for `vc_resize` that leaves the driver state and the console as they
are. -/
def vc_resize_idle (s : VgaState) (c : vc_data) (_cols _lines : Nat) : VgaState × vc_data :=
  (s, c)

/-- The freshly reset colour adapter whose video memory holds, at every offset, the
encoding of the cell of the 80x25 console's screen buffer with the same index. -/
def vga16k_lockstep : VgaState :=
  { vga16k with vram := fun i => to_u16 vga16k console80x25 (console80x25.screenbuf i) }

/-- A console with `2^28` columns (screen size 2000 as before): the product `8 * cols` does
not fit the C `int` type. -/
def console_wide : vc_data := { console80x25 with vc_cols := 268435456 }

/-- The colour adapter with the font height variable holding `2^30`. -/
def vga16k_font_huge : VgaState := { vga16k with vga_video_font_height := 1073741824 }

/-- The 80x25 console with the lower-third cursor (`CUR_LOWER_THIRD`). -/
def console80x25_lower_third : vc_data := { console80x25 with vc_cursor_type := 3 }

/-! ## Theorems -/

/-! ### Memory helpers in closed form -/

theorem scr_memset_apply (mem : Int → Nat) (p : Int) (a : Nat) (count : Nat) (i : Int) :
    scr_memset mem p a count i = if p ≤ i ∧ i < p + count then u16 a else mem i := by
  induction count generalizing mem p with
  | zero =>
    rw [scr_memset]
    split_ifs <;> first | rfl | omega
  | succ n ih =>
    rw [scr_memset, ih]
    unfold store
    split_ifs <;> first | rfl | omega

theorem cellset_apply (mem : Int → vc_cell) (dest : Int) (cell : vc_cell) (count : Nat)
    (i : Int) :
    cellset mem dest cell count i = if dest ≤ i ∧ i < dest + count then cell else mem i := by
  induction count generalizing mem dest with
  | zero =>
    rw [cellset]
    split_ifs <;> first | rfl | omega
  | succ n ih =>
    rw [cellset, ih]
    unfold store
    split_ifs <;> first | rfl | omega

theorem u16_to_u16 (s : VgaState) (vc : vc_data) (c : vc_cell) :
    u16 (to_u16 s vc c) = to_u16 s vc c := by
  simp [to_u16, u16]

theorem u32_of_nat_lt (n : Nat) (h : n < 4294967296) : u32 (n : Int) = n := by
  unfold u32
  omega

theorem usize_of_nat_lt (n : Nat) (h : n < 18446744073709551616) : usize (n : Int) = n := by
  unfold usize
  omega

/-! ### Hardware scrolling -/


theorem u32_mul_lt (a b : Nat) (h : a * b < 4294967296) :
    u32 ((a : Int) * (b : Int)) = a * b := by
  rw [← Nat.cast_mul]
  exact u32_of_nat_lt _ h

theorem scroll_accepted_iff (K : Consts) (s : VgaState) (c : vc_data) (t b : Nat)
    (dir : con_scroll) (lines : Nat) :
    (vgacon_scroll K s c t b dir lines).1 = true ↔
      (t = 0 ∧ b = c.vc_rows ∧ s.vga_is_gfx = false ∧ c.vc_mode = K.KD_TEXT ∧
        s.vga_hardscroll_enabled = true ∧ lines < c.vc_rows / 2) := by
  unfold vgacon_scroll
  split_ifs with h1 h2
  · simp only [Bool.false_eq_true, false_iff]
    intro h
    rcases h with ⟨a1, a2, a3, a4, _, _⟩
    rcases h1 with h | h | h | h
    · exact h a1
    · exact h a2
    · rw [a3] at h; exact Bool.noConfusion h
    · exact h a4
  · simp only [Bool.false_eq_true, false_iff]
    intro h
    rcases h with ⟨_, _, _, _, a5, a6⟩
    rcases h2 with h | h
    · rw [a5] at h; exact Bool.noConfusion h
    · omega
  · have g1 : t = 0 := by
      by_contra h; exact h1 (Or.inl h)
    have g2 : b = c.vc_rows := by
      by_contra h; exact h1 (Or.inr (Or.inl h))
    have g3 : s.vga_is_gfx = false := by
      cases h : s.vga_is_gfx
      · rfl
      · exact absurd (Or.inr (Or.inr (Or.inl h))) h1
    have g4 : c.vc_mode = K.KD_TEXT := by
      by_contra h; exact h1 (Or.inr (Or.inr (Or.inr h)))
    have g5 : s.vga_hardscroll_enabled = true := by
      cases h : s.vga_hardscroll_enabled
      · exact absurd (Or.inl h) h2
      · rfl
    have g6 : lines < c.vc_rows / 2 := by
      by_contra h; exact h2 (Or.inr (by omega))
    cases dir <;> exact ⟨fun _ => ⟨g1, g2, g3, g4, g5, g6⟩, fun _ => rfl⟩


theorem scroll_not_rejected (K : Consts) (s : VgaState) (c : vc_data) (t b : Nat)
    (dir : con_scroll) (lines : Nat)
    (hacc : (vgacon_scroll K s c t b dir lines).1 = true) :
    ¬ (t ≠ 0 ∨ b ≠ c.vc_rows ∨ s.vga_is_gfx = true ∨ c.vc_mode ≠ K.KD_TEXT) ∧
    ¬ (s.vga_hardscroll_enabled = false ∨ lines ≥ c.vc_rows / 2) := by
  unfold vgacon_scroll at hacc
  split_ifs at hacc with h1 h2
  exact ⟨h1, h2⟩

theorem scroll_up_origin (K : Consts) (s : VgaState) (c : vc_data) (t b lines : Nat)
    (hacc : (vgacon_scroll K s c t b con_scroll.SM_UP lines).1 = true) :
    (vgacon_scroll K s c t b con_scroll.SM_UP lines).2.1.vga_origin =
      if s.vga_origin + c.vc_screen_size + u32 (lines * c.vc_cols) ≥ s.vga_vram_size then 0
      else s.vga_origin + u32 (lines * c.vc_cols) := by
  obtain ⟨h1, h2⟩ := scroll_not_rejected K s c t b _ lines hacc
  unfold vgacon_scroll
  rw [if_neg h1, if_neg h2]
  simp only [vgacon_restore_screen, vga_update_mem_top, write_vga, vga_vram_end]
  split_ifs <;> rfl

theorem scroll_up_vram (K : Consts) (s : VgaState) (c : vc_data) (t b lines : Nat)
    (hacc : (vgacon_scroll K s c t b con_scroll.SM_UP lines).1 = true) :
    (vgacon_scroll K s c t b con_scroll.SM_UP lines).2.1.vram =
      if s.vga_origin + c.vc_screen_size + u32 (lines * c.vc_cols) ≥ s.vga_vram_size then
        scr_memset
          (scr_memmove s.vram 0 (s.vga_origin + u32 (lines * c.vc_cols))
            (u32 ((c.vc_screen_size : Int) - u32 (lines * c.vc_cols))))
          (0 + c.vc_screen_size - u32 (lines * c.vc_cols))
          (to_u16 s c c.vc_video_erase) (u32 (lines * c.vc_cols))
      else
        scr_memset s.vram
          (s.vga_origin + u32 (lines * c.vc_cols) + c.vc_screen_size - u32 (lines * c.vc_cols))
          (to_u16 s c c.vc_video_erase) (u32 (lines * c.vc_cols)) := by
  obtain ⟨h1, h2⟩ := scroll_not_rejected K s c t b _ lines hacc
  unfold vgacon_scroll
  rw [if_neg h1, if_neg h2]
  simp only [vgacon_restore_screen, vga_update_mem_top, write_vga, vga_vram_end]
  split_ifs <;> rfl


theorem scroll_up_rolled_over (K : Consts) (s : VgaState) (c : vc_data) (t b lines : Nat)
    (hacc : (vgacon_scroll K s c t b con_scroll.SM_UP lines).1 = true) :
    (vgacon_scroll K s c t b con_scroll.SM_UP lines).2.1.vga_rolled_over =
      if s.vga_origin + c.vc_screen_size + u32 (lines * c.vc_cols) ≥ s.vga_vram_size then
        u32 (usize s.vga_origin)
      else s.vga_rolled_over := by
  obtain ⟨h1, h2⟩ := scroll_not_rejected K s c t b _ lines hacc
  unfold vgacon_scroll
  rw [if_neg h1, if_neg h2]
  simp only [vgacon_restore_screen, vga_update_mem_top, write_vga, vga_vram_end]
  split_ifs <;> rfl

theorem scroll_down_origin (K : Consts) (s : VgaState) (c : vc_data) (t b lines : Nat)
    (hacc : (vgacon_scroll K s c t b con_scroll.SM_DOWN lines).1 = true) :
    (vgacon_scroll K s c t b con_scroll.SM_DOWN lines).2.1.vga_origin =
      if u32 (lines * c.vc_cols) > usize s.vga_origin then
        (s.vga_vram_size : Int) - c.vc_screen_size
      else s.vga_origin - u32 (lines * c.vc_cols) := by
  obtain ⟨h1, h2⟩ := scroll_not_rejected K s c t b _ lines hacc
  unfold vgacon_scroll
  rw [if_neg h1, if_neg h2]
  simp only [vgacon_restore_screen, vga_update_mem_top, write_vga, vga_vram_end]
  split_ifs <;> rfl

theorem scroll_down_rolled_over (K : Consts) (s : VgaState) (c : vc_data) (t b lines : Nat)
    (hacc : (vgacon_scroll K s c t b con_scroll.SM_DOWN lines).1 = true) :
    (vgacon_scroll K s c t b con_scroll.SM_DOWN lines).2.1.vga_rolled_over =
      if u32 (lines * c.vc_cols) > usize s.vga_origin then 0 else s.vga_rolled_over := by
  obtain ⟨h1, h2⟩ := scroll_not_rejected K s c t b _ lines hacc
  unfold vgacon_scroll
  rw [if_neg h1, if_neg h2]
  simp only [vgacon_restore_screen, vga_update_mem_top, write_vga, vga_vram_end]
  split_ifs <;> rfl

theorem scroll_down_vram (K : Consts) (s : VgaState) (c : vc_data) (t b lines : Nat)
    (hacc : (vgacon_scroll K s c t b con_scroll.SM_DOWN lines).1 = true) :
    (vgacon_scroll K s c t b con_scroll.SM_DOWN lines).2.1.vram =
      if u32 (lines * c.vc_cols) > usize s.vga_origin then
        scr_memset
          (scr_memmove s.vram
            ((s.vga_vram_size : Int) - c.vc_screen_size + u32 (lines * c.vc_cols))
            s.vga_origin (u32 ((c.vc_screen_size : Int) - u32 (lines * c.vc_cols))))
          ((s.vga_vram_size : Int) - c.vc_screen_size)
          (to_u16 s c c.vc_video_erase) (u32 (lines * c.vc_cols))
      else
        scr_memset s.vram (s.vga_origin - u32 (lines * c.vc_cols))
          (to_u16 s c c.vc_video_erase) (u32 (lines * c.vc_cols)) := by
  obtain ⟨h1, h2⟩ := scroll_not_rejected K s c t b _ lines hacc
  unfold vgacon_scroll
  rw [if_neg h1, if_neg h2]
  simp only [vgacon_restore_screen, vga_update_mem_top, write_vga, vga_vram_end]
  split_ifs <;> rfl

/-- Claim C1 (P1, scroll wrap correctness).  For a capacity that fits an `unsigned int`, a
view `[Origin, Origin + S)` inside the buffer and `delta = lines * cols` with
`0 < delta < S`, after an accepted `vgacon_scroll(SM_UP)` the first `S - delta` cells of the
new view are the old cells shifted by `delta`, and the last `delta` cells hold the encoded
erase cell.  One statement covers the in-place advance and the wrap-copy. -/
theorem scroll_up_view_correct (K : Consts) (s : VgaState) (c : vc_data) (t b lines : Nat)
    (hN : s.vga_vram_size < 4294967296)
    (hO : 0 ≤ s.vga_origin)
    (hV : s.vga_origin + c.vc_screen_size ≤ s.vga_vram_size)
    (hd0 : 0 < lines * c.vc_cols)
    (hd1 : lines * c.vc_cols < c.vc_screen_size)
    (hacc : (vgacon_scroll K s c t b con_scroll.SM_UP lines).1 = true) :
    (∀ i : Nat, i < c.vc_screen_size - lines * c.vc_cols →
      (vgacon_scroll K s c t b con_scroll.SM_UP lines).2.1.vram
          ((vgacon_scroll K s c t b con_scroll.SM_UP lines).2.1.vga_origin + i) =
        s.vram (s.vga_origin + (lines * c.vc_cols : Nat) + i)) ∧
    (∀ i : Nat, c.vc_screen_size - lines * c.vc_cols ≤ i → i < c.vc_screen_size →
      (vgacon_scroll K s c t b con_scroll.SM_UP lines).2.1.vram
          ((vgacon_scroll K s c t b con_scroll.SM_UP lines).2.1.vga_origin + i) =
        to_u16 s c c.vc_video_erase) := by
  have hd : u32 ((lines : Int) * (c.vc_cols : Int)) = lines * c.vc_cols :=
    u32_mul_lt _ _ (by omega)
  have hr : u32 ((c.vc_screen_size : Int) - ((lines * c.vc_cols : Nat) : Int)) =
      c.vc_screen_size - lines * c.vc_cols := by
    unfold u32
    omega
  rw [scroll_up_vram K s c t b lines hacc, scroll_up_origin K s c t b lines hacc, hd, hr]
  constructor
  · intro i hi
    split_ifs with hw
    · rw [scr_memset_apply]
      unfold scr_memmove memmove
      split_ifs <;> (congr 1; omega)
    · rw [scr_memset_apply]
      split_ifs <;> first | rfl | omega
  · intro i hi1 hi2
    split_ifs with hw
    · rw [scr_memset_apply, u16_to_u16]
      split_ifs <;> first | rfl | omega
    · rw [scr_memset_apply, u16_to_u16]
      split_ifs <;> first | rfl | omega


/-- Instance of C1 at the 80x25 console whose view starts 2080 cells before the end of a
16384-cell buffer (the wrap-copy case), cell 5 of the new view. -/
theorem scroll_up_view_correct_witness :
    (vgacon_scroll linuxConsts vga16k_near_end console80x25 0 25 con_scroll.SM_UP 1).2.1.vram
        ((vgacon_scroll linuxConsts vga16k_near_end console80x25 0 25
          con_scroll.SM_UP 1).2.1.vga_origin + (5 : Nat)) =
      vga16k_near_end.vram
        (vga16k_near_end.vga_origin + (1 * console80x25.vc_cols : Nat) + (5 : Nat)) :=
  (scroll_up_view_correct linuxConsts vga16k_near_end console80x25 0 25 1
    (by decide) (by decide) (by decide) (by decide) (by decide) (by decide)).1 5 (by decide)

/-- Counterexample to C2 as stated.  With `Origin = 14304`, `S = 2000`, `delta = 80` and
`N = 16384` the sum `Origin + S + delta` equals `N`, so it does not exceed the buffer end;
the accepted scroll-up nevertheless wraps: `Origin` becomes 0 instead of `Origin + delta`
and `RolledOver` becomes 14304 instead of staying unchanged. -/
theorem scroll_up_boundary_counterexample :
    (vgacon_scroll linuxConsts vga16k_near_end console80x25 0 25 con_scroll.SM_UP 1).1 = true ∧
    vga16k_near_end.vga_origin + (console80x25.vc_screen_size : Int)
        + ((1 * console80x25.vc_cols : Nat) : Int) ≤ (vga16k_near_end.vga_vram_size : Int) ∧
    (vgacon_scroll linuxConsts vga16k_near_end console80x25 0 25
        con_scroll.SM_UP 1).2.1.vga_origin = 0 ∧
    (vgacon_scroll linuxConsts vga16k_near_end console80x25 0 25
        con_scroll.SM_UP 1).2.1.vga_origin ≠
      vga16k_near_end.vga_origin + ((1 * console80x25.vc_cols : Nat) : Int) ∧
    (vgacon_scroll linuxConsts vga16k_near_end console80x25 0 25
        con_scroll.SM_UP 1).2.1.vga_rolled_over = 14304 ∧
    (vgacon_scroll linuxConsts vga16k_near_end console80x25 0 25
        con_scroll.SM_UP 1).2.1.vga_rolled_over ≠ vga16k_near_end.vga_rolled_over := by
  decide

/-- Claim C2, amended.  For every accepted scroll-up with `delta = lines * cols`: if
`Origin + S + delta >= N` (the shifted view would reach or pass the buffer end) then
afterwards `Origin = 0` and `RolledOver` is the old `Origin`; otherwise
(`Origin + S + delta < N`) `Origin` is advanced to `Origin + delta` and `RolledOver` is
unchanged. -/
theorem scroll_up_origin_rule (K : Consts) (s : VgaState) (c : vc_data) (t b lines : Nat)
    (hN : s.vga_vram_size < 4294967296)
    (hO : 0 ≤ s.vga_origin)
    (hV : s.vga_origin + c.vc_screen_size ≤ s.vga_vram_size)
    (hd : lines * c.vc_cols < 4294967296)
    (hacc : (vgacon_scroll K s c t b con_scroll.SM_UP lines).1 = true) :
    (s.vga_origin + c.vc_screen_size + (lines * c.vc_cols : Nat) ≥ s.vga_vram_size →
      (vgacon_scroll K s c t b con_scroll.SM_UP lines).2.1.vga_origin = 0 ∧
      ((vgacon_scroll K s c t b con_scroll.SM_UP lines).2.1.vga_rolled_over : Int) =
        s.vga_origin) ∧
    (s.vga_origin + c.vc_screen_size + (lines * c.vc_cols : Nat) < s.vga_vram_size →
      (vgacon_scroll K s c t b con_scroll.SM_UP lines).2.1.vga_origin =
        s.vga_origin + (lines * c.vc_cols : Nat) ∧
      (vgacon_scroll K s c t b con_scroll.SM_UP lines).2.1.vga_rolled_over =
        s.vga_rolled_over) := by
  have hd : u32 ((lines : Int) * (c.vc_cols : Int)) = lines * c.vc_cols :=
    u32_mul_lt _ _ hd
  rw [scroll_up_origin K s c t b lines hacc, scroll_up_rolled_over K s c t b lines hacc, hd]
  constructor
  · intro hw
    rw [if_pos hw, if_pos hw]
    refine ⟨rfl, ?_⟩
    unfold u32 usize
    omega
  · intro hw
    have hw2 : ¬ (s.vga_origin + c.vc_screen_size + ((lines * c.vc_cols : Nat) : Int)
        ≥ s.vga_vram_size) := by omega
    rw [if_neg hw2, if_neg hw2]
    exact ⟨rfl, rfl⟩

/-- Instance of the amended C2 at the boundary `Origin + S + delta = N`. -/
theorem scroll_up_origin_rule_witness :
    (vgacon_scroll linuxConsts vga16k_near_end console80x25 0 25
        con_scroll.SM_UP 1).2.1.vga_origin = 0 ∧
    ((vgacon_scroll linuxConsts vga16k_near_end console80x25 0 25
        con_scroll.SM_UP 1).2.1.vga_rolled_over : Int) = vga16k_near_end.vga_origin :=
  (scroll_up_origin_rule linuxConsts vga16k_near_end console80x25 0 25 1
    (by decide) (by decide) (by decide) (by decide) (by decide)).1 (by decide)

/-- Claim C3.  Scroll-down mirrors scroll-up: for a view inside the buffer and
`0 < delta = lines * cols < S`, after an accepted `vgacon_scroll(SM_DOWN)` the first `delta`
cells of the new view hold the encoded erase cell and cell `i` of the new view, for
`delta <= i < S`, is old cell `i - delta`; when `delta > Origin` the new origin is `N - S`
and `RolledOver` is 0, otherwise the new origin is `Origin - delta`. -/
theorem scroll_down_view_correct (K : Consts) (s : VgaState) (c : vc_data) (t b lines : Nat)
    (hN : s.vga_vram_size < 4294967296)
    (hO : 0 ≤ s.vga_origin)
    (hV : s.vga_origin + c.vc_screen_size ≤ s.vga_vram_size)
    (hd0 : 0 < lines * c.vc_cols)
    (hd1 : lines * c.vc_cols < c.vc_screen_size)
    (hacc : (vgacon_scroll K s c t b con_scroll.SM_DOWN lines).1 = true) :
    (∀ i : Nat, i < lines * c.vc_cols →
      (vgacon_scroll K s c t b con_scroll.SM_DOWN lines).2.1.vram
          ((vgacon_scroll K s c t b con_scroll.SM_DOWN lines).2.1.vga_origin + i) =
        to_u16 s c c.vc_video_erase) ∧
    (∀ i : Nat, lines * c.vc_cols ≤ i → i < c.vc_screen_size →
      (vgacon_scroll K s c t b con_scroll.SM_DOWN lines).2.1.vram
          ((vgacon_scroll K s c t b con_scroll.SM_DOWN lines).2.1.vga_origin + i) =
        s.vram (s.vga_origin + i - (lines * c.vc_cols : Nat))) ∧
    (((lines * c.vc_cols : Nat) : Int) > s.vga_origin →
      (vgacon_scroll K s c t b con_scroll.SM_DOWN lines).2.1.vga_origin =
        (s.vga_vram_size : Int) - c.vc_screen_size ∧
      (vgacon_scroll K s c t b con_scroll.SM_DOWN lines).2.1.vga_rolled_over = 0) ∧
    (((lines * c.vc_cols : Nat) : Int) ≤ s.vga_origin →
      (vgacon_scroll K s c t b con_scroll.SM_DOWN lines).2.1.vga_origin =
        s.vga_origin - (lines * c.vc_cols : Nat)) := by
  have hd : u32 ((lines : Int) * (c.vc_cols : Int)) = lines * c.vc_cols :=
    u32_mul_lt _ _ (by omega)
  have hr : u32 ((c.vc_screen_size : Int) - ((lines * c.vc_cols : Nat) : Int)) =
      c.vc_screen_size - lines * c.vc_cols := by
    unfold u32
    omega
  have ho : ((usize s.vga_origin : Nat) : Int) = s.vga_origin := by
    unfold usize
    omega
  rw [scroll_down_vram K s c t b lines hacc, scroll_down_origin K s c t b lines hacc,
    scroll_down_rolled_over K s c t b lines hacc, hd, hr]
  refine ⟨?_, ?_, ?_, ?_⟩
  · intro i hi
    split_ifs with hw
    · rw [scr_memset_apply, u16_to_u16]
      split_ifs <;> first | rfl | omega
    · rw [scr_memset_apply, u16_to_u16]
      split_ifs <;> first | rfl | omega
  · intro i hi1 hi2
    split_ifs with hw
    · rw [scr_memset_apply]
      unfold scr_memmove memmove
      split_ifs <;> (congr 1; omega)
    · rw [scr_memset_apply]
      split_ifs <;> (congr 1; omega)
  · intro hw
    have hw2 : lines * c.vc_cols > usize s.vga_origin := by omega
    rw [if_pos hw2, if_pos hw2]
    exact ⟨rfl, rfl⟩
  · intro hw
    have hw2 : ¬ (lines * c.vc_cols > usize s.vga_origin) := by omega
    rw [if_neg hw2]

/-- Instance of C3 at the freshly reset adapter, where scrolling down one line wraps toward
the buffer end. -/
theorem scroll_down_view_correct_witness :
    (vgacon_scroll linuxConsts vga16k console80x25 0 25 con_scroll.SM_DOWN 1).2.1.vga_origin =
        (vga16k.vga_vram_size : Int) - console80x25.vc_screen_size ∧
    (vgacon_scroll linuxConsts vga16k console80x25 0 25
        con_scroll.SM_DOWN 1).2.1.vga_rolled_over = 0 :=
  (scroll_down_view_correct linuxConsts vga16k console80x25 0 25 1
    (by decide) (by decide) (by decide) (by decide) (by decide) (by decide)).2.2.1 (by decide)



/-! ### Scrollback -/

theorem i32_of_range (x : Int) (h1 : -2147483648 ≤ x) (h2 : x < 2147483648) : i32 x = x := by
  unfold i32
  omega

theorem c_rem_eq_emod (a b : Int) (ha : 0 ≤ a) (hb : 0 < b) : c_rem a b = a % b :=
  Int.tmod_eq_emod ha (le_of_lt hb)

theorem scrollback_window_eq (s : VgaState) (c : vc_data)
    (hinv : origin_in_buffer s c) (hr : scrollback_in_range s c) :
    scrollback_window s c = live_window s c := by
  obtain ⟨h1, h2, h3⟩ := hinv
  obtain ⟨r1, r2, r3⟩ := hr
  have hm : i32 (u32 ((c.vc_cols : Int) * 4)) = 4 * (c.vc_cols : Int) := by
    unfold i32 u32
    omega
  have hw : i32 (u32 ((s.vga_rolled_over : Int) + (c.vc_cols : Int))) =
      (s.vga_rolled_over : Int) + c.vc_cols := by
    unfold i32 u32
    omega
  have he : i32 (s.vga_origin + (c.vc_screen_size : Int)) =
      s.vga_origin + (c.vc_screen_size : Int) := by
    unfold i32
    omega
  have hn : i32 (s.vga_vram_size : Int) = s.vga_vram_size := by
    unfold i32
    omega
  unfold scrollback_window live_window nav_window
  simp only [hm, hw, he, hn]

theorem nav_window_bounds (s : VgaState) (c : vc_data) (hinv : origin_in_buffer s c) :
    0 ≤ (live_window s c).1 ∧
    0 < (live_window s c).2 ∧
    (live_window s c).1 <
      (live_window s c).2 ∧
    (live_window s c).1 ≤
      s.vga_origin + (live_window s c).2 := by
  obtain ⟨h1, h2, h3⟩ := hinv
  unfold live_window nav_window
  split_ifs with h
  · simp only
    omega
  · simp only
    omega

theorem pan_clamp_cases (m avail r : Int) (hm : 0 ≤ m) (hav : 0 ≤ avail) :
    (pan_clamp m avail r = 0 ∨ pan_clamp m avail r = avail ∨
      (m ≤ pan_clamp m avail r ∧ pan_clamp m avail r ≤ avail - m)) ∧
    0 ≤ pan_clamp m avail r ∧ pan_clamp m avail r ≤ avail := by
  unfold pan_clamp
  split_ifs <;> omega

theorem effective_margin_cases (w : Int × Int) (s : VgaState) (c : vc_data) :
    0 ≤ effective_margin w s c ∧
    (effective_margin w s c = 0 ∨
      2 * effective_margin w s c ≤ window_distance w s.vga_origin) := by
  unfold effective_margin
  split_ifs <;> omega

theorem window_distance_bounds (w : Int × Int) (p : Int) (hw : 0 < w.2) :
    0 ≤ window_distance w p ∧ window_distance w p < w.2 :=
  ⟨Int.emod_nonneg _ (ne_of_gt hw), Int.emod_lt_of_pos _ hw⟩

theorem driver_margin_bounds (w : Int × Int) (s : VgaState) (c : vc_data) :
    0 ≤ driver_margin w s c ∧ driver_margin w s c ≤ 4 * (c.vc_cols : Int) := by
  unfold driver_margin
  split_ifs <;> omega

theorem driver_margin_eq (w : Int × Int) (s : VgaState) (c : vc_data)
    (hc : c.vc_cols < 268435456) : driver_margin w s c = effective_margin w s c := by
  have h : i32 (2 * (4 * (c.vc_cols : Int))) = 2 * (4 * (c.vc_cols : Int)) :=
    i32_of_range _ (by omega) (by omega)
  unfold driver_margin effective_margin
  rw [h]

theorem driver_margin_wrapped (w : Int × Int) (s : VgaState) (c : vc_data)
    (hc1 : 268435456 ≤ c.vc_cols) (hc2 : c.vc_cols < 536870912)
    (hav : 0 ≤ window_distance w s.vga_origin) :
    driver_margin w s c = 4 * (c.vc_cols : Int) := by
  have h : i32 (2 * (4 * (c.vc_cols : Int))) < 0 := by
    unfold i32
    omega
  unfold driver_margin
  rw [if_neg (by omega)]

theorem pan_clamp_idem (m avail r : Int) :
    pan_clamp m avail (pan_clamp m avail r) = pan_clamp m avail r := by
  unfold pan_clamp
  split_ifs <;> omega

theorem pan_clamp_avail (m avail : Int) : pan_clamp m avail avail = avail := by
  unfold pan_clamp
  split_ifs <;> omega

theorem pan_clamp_wide (m avail r : Int) (h : avail < m) (hav : 0 ≤ avail) :
    pan_clamp m avail r = avail := by
  unfold pan_clamp
  split_ifs <;> omega

theorem scrollback_visible_origin (s : VgaState) (c : vc_data) (lines : Int)
    (hinv : origin_in_buffer s c) (hr : scrollback_in_range s c) :
    (vgacon_scrollback s c lines).vga_visible_origin =
      ((live_window s c).1 +
        pan_clamp (driver_margin (live_window s c) s c)
          (window_distance (live_window s c) s.vga_origin)
          (i32 (c_rem (s.vga_visible_origin -
              (live_window s c).1 +
              (live_window s c).2)
            (live_window s c).2 +
            u32 (lines * c.vc_cols)))) %
        (live_window s c).2 := by
  obtain ⟨b1, b2, b3, b4⟩ := nav_window_bounds s c hinv
  have hwin := scrollback_window_eq s c hinv hr
  have r1 : s.vga_vram_size ≤ 1073741824 := hr.1
  have r2 : s.vga_rolled_over + c.vc_cols ≤ 1073741824 := hr.2.1
  have r3 : c.vc_cols < 536870912 := hr.2.2
  have hW : (live_window s c).2 ≤ 1073741824 := by
    unfold live_window nav_window
    split_ifs <;> simp only <;> omega
  have hm : i32 (u32 ((c.vc_cols : Int) * 4)) = 4 * (c.vc_cols : Int) := by
    unfold i32 u32
    omega
  obtain ⟨d1, d2⟩ := window_distance_bounds
    (live_window s c) s.vga_origin b2
  have hav : i32 (c_rem (s.vga_origin - (live_window s c).1 +
      (live_window s c).2)
      (live_window s c).2) =
      window_distance (live_window s c) s.vga_origin := by
    rw [c_rem_eq_emod _ _ (by omega) b2, Int.add_emod_self]
    exact i32_of_range _ (by unfold window_distance at d1; omega)
      (by unfold window_distance at d2; omega)
  obtain ⟨m1, m2⟩ := driver_margin_bounds (live_window s c) s c
  obtain ⟨_, p1, p2⟩ := pan_clamp_cases
    (driver_margin (live_window s c) s c)
    (window_distance (live_window s c) s.vga_origin)
    (i32 (c_rem (s.vga_visible_origin -
        (live_window s c).1 +
        (live_window s c).2)
      (live_window s c).2 +
      u32 (lines * c.vc_cols))) m1 d1
  have hsub : i32 (window_distance (live_window s c) s.vga_origin -
      driver_margin (live_window s c) s c) =
      window_distance (live_window s c) s.vga_origin -
        driver_margin (live_window s c) s c := i32_of_range _ (by omega) (by omega)
  have hsum : i32 ((live_window s c).1 +
      pan_clamp (driver_margin (live_window s c) s c)
        (window_distance (live_window s c) s.vga_origin)
        (i32 (c_rem (s.vga_visible_origin - (live_window s c).1 + (live_window s c).2)
          (live_window s c).2 + u32 (lines * c.vc_cols)))) =
      (live_window s c).1 +
      pan_clamp (driver_margin (live_window s c) s c)
        (window_distance (live_window s c) s.vga_origin)
        (i32 (c_rem (s.vga_visible_origin - (live_window s c).1 + (live_window s c).2)
          (live_window s c).2 + u32 (lines * c.vc_cols))) :=
    i32_of_range _ (by linarith) (by linarith)
  have hnn : 0 ≤ (live_window s c).1 +
      pan_clamp (driver_margin (live_window s c) s c)
        (window_distance (live_window s c) s.vga_origin)
        (i32 (c_rem (s.vga_visible_origin - (live_window s c).1 + (live_window s c).2)
          (live_window s c).2 + u32 (lines * c.vc_cols))) := by linarith
  rw [← c_rem_eq_emod _ _ hnn b2, ← hsum]
  unfold pan_clamp
  rw [← hsub]
  unfold vgacon_scrollback vga_update_mem_top write_vga
  simp only [hwin, hm, hav]
  rfl


theorem window_distance_of_emod (w : Int × Int) (p : Int) (h0 : 0 ≤ p) (h1 : p < w.2) :
    window_distance w ((w.1 + p) % w.2) = p := by
  unfold window_distance
  rw [Int.sub_emod, Int.emod_emod_of_dvd _ (dvd_refl w.2), ← Int.sub_emod,
    add_sub_cancel_left, Int.emod_eq_of_lt h0 h1]

/-- Claim C5.  After `vgacon_scrollback`, the distance `d` from the window start to the new
`VisibleOrigin`, modulo the window length, is never inside the effective margin `m` of
either window edge: `d = 0`, or `d = avail`, or `m <= d <= avail - m`, where `avail` is the
distance from the window start to `Origin` and `m` is `4 * cols`, or 0 when
`avail < 8 * cols`; in particular `0 <= d <= avail`.  The window is the one the driver
navigates (screen end `Origin + screenSize`); the state satisfies the data-model invariants
on `Origin` and its quantities fit the C types. -/
theorem scrollback_keeps_margin (s : VgaState) (c : vc_data) (lines : Int)
    (hinv : origin_in_buffer s c) (hr : scrollback_in_range s c) :
    (window_distance (live_window s c) (vgacon_scrollback s c lines).vga_visible_origin = 0 ∨
      window_distance (live_window s c) (vgacon_scrollback s c lines).vga_visible_origin =
        window_distance (live_window s c) s.vga_origin ∨
      (effective_margin (live_window s c) s c ≤
          window_distance (live_window s c) (vgacon_scrollback s c lines).vga_visible_origin ∧
        window_distance (live_window s c) (vgacon_scrollback s c lines).vga_visible_origin ≤
          window_distance (live_window s c) s.vga_origin -
            effective_margin (live_window s c) s c)) ∧
    0 ≤ window_distance (live_window s c) (vgacon_scrollback s c lines).vga_visible_origin ∧
    window_distance (live_window s c) (vgacon_scrollback s c lines).vga_visible_origin ≤
      window_distance (live_window s c) s.vga_origin := by
  obtain ⟨_, b2, _, _⟩ := nav_window_bounds s c hinv
  obtain ⟨d1, d2⟩ := window_distance_bounds (live_window s c) s.vga_origin b2
  have hW : (live_window s c).2 ≤ 1073741824 := by
    obtain ⟨r1, r2, r3⟩ := hr
    unfold live_window nav_window
    split_ifs <;> simp only <;> omega
  by_cases hc : c.vc_cols < 268435456
  · obtain ⟨m1, _⟩ := effective_margin_cases (live_window s c) s c
    obtain ⟨q, p1, p2⟩ := pan_clamp_cases (effective_margin (live_window s c) s c)
      (window_distance (live_window s c) s.vga_origin)
      (i32 (c_rem (s.vga_visible_origin - (live_window s c).1 + (live_window s c).2)
        (live_window s c).2 + u32 (lines * c.vc_cols))) m1 d1
    rw [scrollback_visible_origin s c lines hinv hr, driver_margin_eq _ _ _ hc,
      window_distance_of_emod _ _ p1 (by linarith)]
    exact ⟨q, p1, p2⟩
  · have hdm := driver_margin_wrapped (live_window s c) s c (by omega) hr.2.2 d1
    have hp := pan_clamp_wide (4 * (c.vc_cols : Int))
      (window_distance (live_window s c) s.vga_origin)
      (i32 (c_rem (s.vga_visible_origin - (live_window s c).1 + (live_window s c).2)
        (live_window s c).2 + u32 (lines * c.vc_cols))) (by omega) d1
    rw [scrollback_visible_origin s c lines hinv hr, hdm, hp,
      window_distance_of_emod _ _ d1 d2]
    exact ⟨Or.inr (Or.inl rfl), d1, le_refl _⟩

/-- Instance of C5: panning back three lines from a view that ends at the end of video
memory. -/
theorem scrollback_keeps_margin_witness :
    0 ≤ window_distance (live_window vga16k_view_at_end console80x25)
      (vgacon_scrollback vga16k_view_at_end console80x25 (-3)).vga_visible_origin ∧
    window_distance (live_window vga16k_view_at_end console80x25)
        (vgacon_scrollback vga16k_view_at_end console80x25 (-3)).vga_visible_origin ≤
      window_distance (live_window vga16k_view_at_end console80x25)
        vga16k_view_at_end.vga_origin :=
  (scrollback_keeps_margin vga16k_view_at_end console80x25 (-3)
    (by decide) (by decide)).2

theorem u8_of_lt (x : Nat) (h : x < 256) : u8 x = x := Nat.mod_eq_of_lt h

theorem or_lt_256 (x y : Nat) (hx : x < 256) (hy : y < 256) : x ||| y < 256 :=
  @Nat.or_lt_two_pow x y 8 hx hy

theorem and_lt_256 (x y : Nat) (hy : y < 256) : x &&& y < 256 :=
  @Nat.and_lt_two_pow x y 8 hy

theorem xor_lt_256 (x y : Nat) (hx : x < 256) (hy : y < 256) : x ^^^ y < 256 :=
  @Nat.xor_lt_two_pow x y 8 hx hy

theorem base_attr_lt (a : vc_cell_attr) : a.fg_color.val ||| (a.bg_color.val <<< 4) < 256 := by
  apply or_lt_256
  · have := a.fg_color.isLt; omega
  · have := a.bg_color.isLt
    rw [Nat.shiftLeft_eq]
    omega

/-- Claim C6.  In colour mode `vgacon_build_attr` equals the reference encoder
`encode_color` for every attribute and every per-display italic, underline and half-bright
colour: colour overrides of the low nibble in the priority italic, underline, half-bright;
then the pointer XOR `0x77`; then the nibble swap under `reverse XOR selected`; blink and
bold bits last; none of the intermediate conversions to `u8` loses a bit. -/
theorem build_attr_color (s : VgaState) (c : vc_data) (a : vc_cell_attr)
    (hcol : s.vga_can_do_color = true) :
    vgacon_build_attr s c a = encode_color c a := by
  have h0 := base_attr_lt a
  have hi := c.vc_itcolor.isLt
  have hu := c.vc_ulcolor.isLt
  have hh := c.vc_halfcolor.isLt
  unfold vgacon_build_attr encode_color
  simp only [hcol, if_true]
  rw [u8_of_lt _ h0]
  generalize a.fg_color.val ||| (a.bg_color.val <<< 4) = A at h0 ⊢
  have e1 : ∀ col : Nat, col < 256 → u8 ((A &&& 0xf0) ||| col) = (A &&& 0xF0) ||| col :=
    fun col h => u8_of_lt _ (or_lt_256 _ _ (and_lt_256 _ _ (by decide)) h)
  rw [e1 _ hi, e1 _ hu, e1 _ hh]
  have h1 : (if a.italic = true then (A &&& 0xF0) ||| c.vc_itcolor.val
      else if a.underline = true then (A &&& 0xF0) ||| c.vc_ulcolor.val
      else if a.intensity = VCI_HALF_BRIGHT then (A &&& 0xF0) ||| c.vc_halfcolor.val
      else A) < 256 := by
    split_ifs
    · exact or_lt_256 _ _ (and_lt_256 _ _ (by decide)) hi
    · exact or_lt_256 _ _ (and_lt_256 _ _ (by decide)) hu
    · exact or_lt_256 _ _ (and_lt_256 _ _ (by decide)) hh
    · exact h0
  generalize (if a.italic = true then (A &&& 0xF0) ||| c.vc_itcolor.val
      else if a.underline = true then (A &&& 0xF0) ||| c.vc_ulcolor.val
      else if a.intensity = VCI_HALF_BRIGHT then (A &&& 0xF0) ||| c.vc_halfcolor.val
      else A) = B at h1 ⊢
  rw [u8_of_lt _ (xor_lt_256 _ _ h1 (by decide))]
  have h2 : (if a.pointer_pos = true then B ^^^ 0x77 else B) < 256 := by
    split_ifs
    · exact xor_lt_256 _ _ h1 (by decide)
    · exact h1
  generalize (if a.pointer_pos = true then B ^^^ 0x77 else B) = C at h2 ⊢
  have e3 : ∀ x : Nat, (x &&& 0x88) ||| (((x >>> 4) ||| (x <<< 4)) &&& 0x77) < 256 :=
    fun x => or_lt_256 _ _ (and_lt_256 _ _ (by decide)) (and_lt_256 _ _ (by decide))
  rw [u8_of_lt _ (e3 C)]
  have h3 : (if xor a.reverse a.selected = true then
      (C &&& 0x88) ||| (((C >>> 4) ||| (C <<< 4)) &&& 0x77) else C) < 256 := by
    split_ifs
    · exact e3 C
    · exact h2
  generalize (if xor a.reverse a.selected = true then
      (C &&& 0x88) ||| (((C >>> 4) ||| (C <<< 4)) &&& 0x77) else C) = D at h3 ⊢
  rw [u8_of_lt _ (or_lt_256 _ _ h3 (by decide))]
  have h4 : (if a.blink = true then D ||| 0x80 else D) < 256 := by
    split_ifs
    · exact or_lt_256 _ _ h3 (by decide)
    · exact h3
  generalize (if a.blink = true then D ||| 0x80 else D) = E at h4 ⊢
  rw [u8_of_lt _ (or_lt_256 _ _ h4 (by decide))]
  have h5 : (if a.intensity = VCI_BOLD then E ||| 0x08 else E) < 256 := by
    split_ifs
    · exact or_lt_256 _ _ h4 (by decide)
    · exact h4
  exact (Nat.mod_eq_of_lt h5).symm


/-- Instance of C6 on the colour adapter for an italic, reversed, blinking, bold
attribute. -/
theorem build_attr_color_witness :
    vgacon_build_attr vga16k console80x25 fancy_attr = encode_color console80x25 fancy_attr :=
  build_attr_color vga16k console80x25 fancy_attr (by decide)

/-- Claim C7.  In monochrome mode `vgacon_build_attr` returns, for every attribute, the
base `0x70` if `reverse XOR selected`, else `0x01` if `italic OR underline`, else `0x07`,
with `0x80` set if `blink OR pointerMarker` and `0x08` set if bold.  In particular (P4)
underline alone gives `0x01`, reverse alone gives `0x70`, plain normal gives `0x07`, and
setting blink on an attribute without blink and pointer marker adds exactly `0x80`. -/
theorem build_attr_mono (s : VgaState) (c : vc_data) (hmono : s.vga_can_do_color = false) :
    (∀ a : vc_cell_attr, vgacon_build_attr s c a = encode_mono a) ∧
    vgacon_build_attr s c { plain_attr with underline := true } = 0x01 ∧
    vgacon_build_attr s c { plain_attr with reverse := true } = 0x70 ∧
    vgacon_build_attr s c plain_attr = 0x07 ∧
    (∀ a : vc_cell_attr, a.blink = false → a.pointer_pos = false →
      vgacon_build_attr s c { a with blink := true } = vgacon_build_attr s c a + 0x80) := by
  have key : ∀ a : vc_cell_attr, vgacon_build_attr s c a = encode_mono a := by
    intro a
    unfold vgacon_build_attr encode_mono
    simp only [hmono, Bool.false_eq_true, if_false]
    split_ifs <;> rfl
  refine ⟨key, ?_, ?_, ?_, ?_⟩
  · rw [key]; decide
  · rw [key]; decide
  · rw [key]; decide
  · intro a hb hp
    rw [key, key]
    unfold encode_mono
    simp only [hb, hp, Bool.or_false, Bool.true_or, Bool.false_eq_true, if_false, if_true]
    split_ifs <;> rfl

/-- Instance of C7 (the three P4 values) on the monochrome adapter. -/
theorem build_attr_mono_witness :
    vgacon_build_attr mda4k console80x25 { plain_attr with underline := true } = 0x01 ∧
    vgacon_build_attr mda4k console80x25 { plain_attr with reverse := true } = 0x70 ∧
    vgacon_build_attr mda4k console80x25 plain_attr = 0x07 :=
  ⟨(build_attr_mono mda4k console80x25 (by decide)).2.1,
   (build_attr_mono mda4k console80x25 (by decide)).2.2.1,
   (build_attr_mono mda4k console80x25 (by decide)).2.2.2.1⟩

/-! ### Cursor shape -/

theorem set_cursor_size_cache (K : Consts) (s : VgaState) (frm to_ : Int) :
    (vgacon_set_cursor_size K s frm to_).cursor_size_lastfrom = frm ∧
    (vgacon_set_cursor_size K s frm to_).cursor_size_lastto = to_ := by
  unfold vgacon_set_cursor_size
  split_ifs with h
  · exact ⟨h.1.symm, h.2.symm⟩
  · exact ⟨rfl, rfl⟩

theorem c_div_three (a : Int) : c_div a 3 = if 0 ≤ a then a / 3 else -((-a) / 3) := by
  unfold c_div
  split_ifs with h
  · exact Int.tdiv_eq_ediv h (by decide)
  · have e : a = -(-a) := (Int.neg_neg a).symm
    rw [e, Int.neg_tdiv, Int.tdiv_eq_ediv (by omega) (by decide), Int.neg_neg]

theorem c_div_two (a : Int) : c_div a 2 = if 0 ≤ a then a / 2 else -((-a) / 2) := by
  unfold c_div
  split_ifs with h
  · exact Int.tdiv_eq_ediv h (by decide)
  · have e : a = -(-a) := (Int.neg_neg a).symm
    rw [e, Int.neg_tdiv, Int.tdiv_eq_ediv (by omega) (by decide), Int.neg_neg]

theorem cursor_args_eq_shape (extended : Bool) (kind : Nat) (h : Int)
    (h1 : -1073741824 ≤ h) (h2 : h < 1073741824) :
    cursor_args extended kind h = cursor_shape extended kind h := by
  have e1 : ∀ k : Int, 0 ≤ k → k ≤ 3 → i32 (h - k) = h - k :=
    fun k _ _ => i32_of_range _ (by omega) (by omega)
  have e2 : i32 (h * 2) = 2 * h := by
    rw [i32_of_range _ (by omega) (by omega)]
    ring
  unfold cursor_args cursor_shape
  rw [e2]
  by_cases h10 : h < 10
  · simp only [h10, if_true, e1 2 (by decide) (by decide), e1 1 (by decide) (by decide)]
  · simp only [h10, if_false, e1 3 (by decide) (by decide), e1 2 (by decide) (by decide)]

set_option maxHeartbeats 4000000 in
theorem cursor_args_same (extended : Bool) (k1 k2 : Nat) (h : Int)
    (hsame : cursor_shape extended k1 h = cursor_shape extended k2 h) :
    cursor_args extended k1 h = cursor_args extended k2 h := by
  by_cases hs : -1073741824 ≤ h ∧ h < 1073741824
  · rw [cursor_args_eq_shape _ _ _ hs.1 hs.2, cursor_args_eq_shape _ _ _ hs.1 hs.2]
    exact hsame
  · unfold cursor_shape at hsame
    unfold cursor_args
    rw [c_div_three h, c_div_two h, c_div_three (2 * h)] at hsame
    by_cases hp : 0 ≤ h
    · have h10 : ¬ h < 10 := by omega
      have hp2 : 0 ≤ 2 * h := by omega
      simp only [hp, hp2, h10, if_true, if_false] at hsame ⊢
      split_ifs at hsame ⊢ <;>
      first
      | (exfalso; simp only [Prod.mk.injEq] at hsame; omega)
      | rfl
    · have h10 : h < 10 := by omega
      have hp2 : ¬ 0 ≤ 2 * h := by omega
      simp only [hp, hp2, h10, if_true, if_false] at hsame ⊢
      split_ifs at hsame ⊢ <;>
      first
      | (exfalso; simp only [Prod.mk.injEq] at hsame; omega)
      | rfl

theorem cursor_call_args (K : Consts) (s : VgaState) (c : vc_data) (mode : Int)
    (htext : c.vc_mode = K.KD_TEXT) (hmode : mode = K.CM_DRAW ∨ mode = K.CM_MOVE) :
    vgacon_cursor K s c mode =
      vgacon_set_cursor_size K
        (write_vga (vgacon_restore_screen s) 14 (u32 (s.vga_origin + c.vc_pos)))
        (cursor_args (decide (s.vga_video_type ≥ K.VIDEO_TYPE_VGAC))
          (CUR_SIZE c.vc_cursor_type) s.vga_video_font_height).1
        (cursor_args (decide (s.vga_video_type ≥ K.VIDEO_TYPE_VGAC))
          (CUR_SIZE c.vc_cursor_type) s.vga_video_font_height).2 := by
  have he : mode ≠ K.CM_ERASE := by
    rcases hmode with h | h
    · rw [h]; exact fun e => K.cm_erase_ne_draw e.symm
    · rw [h]; exact fun e => K.cm_erase_ne_move e.symm
  have hm : mode = K.CM_MOVE ∨ mode = K.CM_DRAW := hmode.symm
  have e1 : (vgacon_restore_screen s).vga_origin = s.vga_origin := rfl
  have e2 : ∀ x : Nat, (write_vga (vgacon_restore_screen s) 14 x).vga_video_type =
      s.vga_video_type := fun _ => rfl
  have e3 : ∀ x : Nat, (write_vga (vgacon_restore_screen s) 14 x).vga_video_font_height =
      s.vga_video_font_height := fun _ => rfl
  unfold vgacon_cursor cursor_args
  rw [if_neg (not_not.mpr htext), if_neg he, if_pos hm]
  simp only [e1, e2, e3]
  by_cases hx : s.vga_video_type ≥ K.VIDEO_TYPE_VGAC
  · simp only [hx, decide_True, if_true]
    split_ifs <;> rfl
  · simp only [hx, decide_False, if_false, Bool.false_eq_true]
    split_ifs <;> rfl

theorem cursor_call_shape (K : Consts) (s : VgaState) (c : vc_data) (mode : Int)
    (htext : c.vc_mode = K.KD_TEXT) (hmode : mode = K.CM_DRAW ∨ mode = K.CM_MOVE)
    (hh1 : -1073741824 ≤ s.vga_video_font_height)
    (hh2 : s.vga_video_font_height < 1073741824) :
    vgacon_cursor K s c mode =
      vgacon_set_cursor_size K
        (write_vga (vgacon_restore_screen s) 14 (u32 (s.vga_origin + c.vc_pos)))
        (cursor_shape (decide (s.vga_video_type ≥ K.VIDEO_TYPE_VGAC))
          (CUR_SIZE c.vc_cursor_type) s.vga_video_font_height).1
        (cursor_shape (decide (s.vga_video_type ≥ K.VIDEO_TYPE_VGAC))
          (CUR_SIZE c.vc_cursor_type) s.vga_video_font_height).2 := by
  rw [cursor_call_args K s c mode htext hmode, cursor_args_eq_shape _ _ _ hh1 hh2]

/-- Counterexample to C9 as stated.  Full-screen region (`t = 0`, `b = rows = 25`),
hardware scrolling enabled, `lines = 1 < 25 / 2`, device not in graphics mode
(`vga_is_gfx` clear), but the console not in text mode (`vc_mode = 1`): none of the four
listed conditions holds and `vgacon_scroll` returns false. -/
theorem scroll_decline_counterexample :
    ¬ ((0 : Nat) ≠ 0 ∨ 25 ≠ console80x25_graphics.vc_rows ∨
        vga16k.vga_hardscroll_enabled = false ∨
        1 ≥ console80x25_graphics.vc_rows / 2 ∨ vga16k.vga_is_gfx = true) ∧
    (vgacon_scroll linuxConsts vga16k console80x25_graphics 0 25 con_scroll.SM_UP 1).1
      = false := by
  decide

/-- Claim C9, amended.  `vgacon_scroll` returns false exactly when the scroll region is not
the full screen (`t != 0` or `b != rows`), hardware scrolling is disabled,
`lines >= rows / 2`, the device is in graphics mode, or the console is not in text mode
(`vc_mode != KD_TEXT`), and returns true in every other case; whenever it returns false the
driver state (origins, `RolledOver`, video memory, port log) and the console (screen buffer
included) are unchanged. -/
theorem scroll_declines_iff (K : Consts) (s : VgaState) (c : vc_data) (t b : Nat)
    (dir : con_scroll) (lines : Nat) :
    ((vgacon_scroll K s c t b dir lines).1 = false ↔
      (t ≠ 0 ∨ b ≠ c.vc_rows ∨ s.vga_hardscroll_enabled = false ∨ lines ≥ c.vc_rows / 2 ∨
        s.vga_is_gfx = true ∨ c.vc_mode ≠ K.KD_TEXT)) ∧
    ((vgacon_scroll K s c t b dir lines).1 = true ↔
      ¬ (t ≠ 0 ∨ b ≠ c.vc_rows ∨ s.vga_hardscroll_enabled = false ∨ lines ≥ c.vc_rows / 2 ∨
        s.vga_is_gfx = true ∨ c.vc_mode ≠ K.KD_TEXT)) ∧
    ((vgacon_scroll K s c t b dir lines).1 = false →
      (vgacon_scroll K s c t b dir lines).2.1 = s ∧
      (vgacon_scroll K s c t b dir lines).2.2 = c) := by
  have hacc := scroll_accepted_iff K s c t b dir lines
  have htrue : (vgacon_scroll K s c t b dir lines).1 = true ↔
      ¬ (t ≠ 0 ∨ b ≠ c.vc_rows ∨ s.vga_hardscroll_enabled = false ∨
        lines ≥ c.vc_rows / 2 ∨ s.vga_is_gfx = true ∨ c.vc_mode ≠ K.KD_TEXT) := by
    rw [hacc]
    constructor
    · rintro ⟨a1, a2, a3, a4, a5, a6⟩ h
      rcases h with h | h | h | h | h | h
      · exact h a1
      · exact h a2
      · rw [a5] at h; exact Bool.noConfusion h
      · omega
      · rw [a3] at h; exact Bool.noConfusion h
      · exact h a4
    · intro h
      refine ⟨?_, ?_, ?_, ?_, ?_, ?_⟩
      · by_contra g; exact h (Or.inl g)
      · by_contra g; exact h (Or.inr (Or.inl g))
      · cases g : s.vga_is_gfx
        · rfl
        · exact absurd (Or.inr (Or.inr (Or.inr (Or.inr (Or.inl g))))) h
      · by_contra g; exact h (Or.inr (Or.inr (Or.inr (Or.inr (Or.inr g)))))
      · cases g : s.vga_hardscroll_enabled
        · exact absurd (Or.inr (Or.inr (Or.inl g))) h
        · rfl
      · by_contra g; exact h (Or.inr (Or.inr (Or.inr (Or.inl (by omega)))))
  refine ⟨?_, htrue, ?_⟩
  · constructor
    · intro hf
      by_contra hn
      rw [htrue.mpr hn] at hf
      exact Bool.noConfusion hf
    · intro h
      cases g : (vgacon_scroll K s c t b dir lines).1
      · rfl
      · exact absurd h (htrue.mp g)
  · intro hf
    unfold vgacon_scroll at hf ⊢
    split_ifs at hf ⊢ with h1 h2
    · exact ⟨rfl, rfl⟩
    · exact ⟨rfl, rfl⟩
    · cases dir <;> exact Bool.noConfusion hf

/-- Claim C10.  `vgacon_reset_origin` returns 0 if and only if the device is in graphics
mode or the console is blanked while not palette-blanked, and then leaves the whole state
unchanged (no port write either); otherwise it returns 1 with `Origin = VisibleOrigin = 0`
and `RolledOver = 0`. -/
theorem reset_origin_spec (s : VgaState) :
    ((vgacon_reset_origin s).1 = 0 ↔
      (s.vga_is_gfx = true ∨ (s.console_blanked ≠ 0 ∧ s.vga_palette_blanked = false))) ∧
    ((s.vga_is_gfx = true ∨ (s.console_blanked ≠ 0 ∧ s.vga_palette_blanked = false)) →
      vgacon_reset_origin s = (0, s)) ∧
    (¬ (s.vga_is_gfx = true ∨ (s.console_blanked ≠ 0 ∧ s.vga_palette_blanked = false)) →
      (vgacon_reset_origin s).1 = 1 ∧
      (vgacon_reset_origin s).2.vga_origin = 0 ∧
      (vgacon_reset_origin s).2.vga_visible_origin = 0 ∧
      (vgacon_reset_origin s).2.vga_rolled_over = 0) := by
  unfold vgacon_reset_origin
  split_ifs with h
  · exact ⟨⟨fun _ => h, fun _ => rfl⟩, fun _ => rfl, fun hn => absurd h hn⟩
  · refine ⟨⟨fun h1 => ?_, fun h1 => absurd h1 h⟩, fun h1 => absurd h1 h, fun _ => ?_⟩
    · exact absurd (show (1 : Int) = 0 from h1) (by decide)
    · exact ⟨rfl, rfl, rfl, rfl⟩




/-! ### Frame of scrollback and restore -/

theorem scrollback_frame (s : VgaState) (c : vc_data) (lines : Int) :
    (vgacon_scrollback s c lines).vga_origin = s.vga_origin ∧
    (vgacon_scrollback s c lines).vga_rolled_over = s.vga_rolled_over ∧
    (vgacon_scrollback s c lines).vram = s.vram ∧
    (vgacon_scrollback s c lines).vga_vram_size = s.vga_vram_size ∧
    (vgacon_scrollback s c lines).vga_video_port_reg = s.vga_video_port_reg :=
  ⟨rfl, rfl, rfl, rfl, rfl⟩

/-- Claim C19.  `vgacon_scrollback` pans `VisibleOrigin` only: for every state and every
`lines` it leaves `Origin`, `RolledOver` and every video-memory cell unchanged, and the
console it is called on, every cell of its screen buffer included, is not written (the
operation step hands the console on as it was). -/
theorem scrollback_pans_only (K : Consts) (s : VgaState) (c : vc_data) (lines : Int) :
    (vgacon_scrollback s c lines).vga_origin = s.vga_origin ∧
    (vgacon_scrollback s c lines).vga_rolled_over = s.vga_rolled_over ∧
    (∀ i : Int, (vgacon_scrollback s c lines).vram i = s.vram i) ∧
    (step K (s, c) (Op.scrollback lines)).1 = vgacon_scrollback s c lines ∧
    (∀ i : Int, (step K (s, c) (Op.scrollback lines)).2.screenbuf i = c.screenbuf i) ∧
    (step K (s, c) (Op.scrollback lines)).2.vc_video_erase = c.vc_video_erase :=
  ⟨rfl, rfl, fun _ => rfl, rfl, fun _ => rfl, rfl⟩

theorem scrollback_seq_frame (s : VgaState) (c : vc_data) (ls : List Int) :
    (scrollback_seq s c ls).vga_origin = s.vga_origin ∧
    (scrollback_seq s c ls).vga_video_port_reg = s.vga_video_port_reg := by
  unfold scrollback_seq
  induction ls generalizing s with
  | nil => exact ⟨rfl, rfl⟩
  | cons l ls ih =>
    rw [List.foldl_cons]
    obtain ⟨h1, h2⟩ := ih (vgacon_scrollback s c l)
    exact ⟨h1.trans (scrollback_frame s c l).1, h2.trans (scrollback_frame s c l).2.2.2.2⟩



/-! ### Display start words -/

theorem and_ff00 (v : Nat) : v &&& 0xff00 = (v / 256 % 256) * 256 := by
  apply Nat.eq_of_testBit_eq
  intro i
  have e1 : (0xff00 : Nat) = (2 ^ 8 - 1) <<< 8 := by decide
  have e2 : (v / 256 % 256) * 256 = ((v >>> 8) % 2 ^ 8) <<< 8 := by
    rw [Nat.shiftLeft_eq, Nat.shiftRight_eq_div_pow]
    norm_num
  rw [e1, e2, Nat.testBit_and, Nat.testBit_shiftLeft, Nat.testBit_shiftLeft,
    Nat.testBit_two_pow_sub_one, Nat.testBit_mod_two_pow, Nat.testBit_shiftRight]
  by_cases h : 8 ≤ i
  · have : 8 + (i - 8) = i := by omega
    simp [h, this]
    by_cases h2 : i - 8 < 8 <;> simp [h2]
  · simp [h]

theorem write_vga_words (s : VgaState) (v : Nat) :
    (write_vga s 12 v).port_log =
      s.port_log ++
        [PortWrite.outw (12 + v / 256 % 256 * 256) s.vga_video_port_reg,
         PortWrite.outw (13 + v % 256 * 256) s.vga_video_port_reg] := by
  have h1 : u16 (u32 (((12 : Nat) : Int) + ((v &&& 0xff00 : Nat) : Int))) =
      12 + v / 256 % 256 * 256 := by
    rw [and_ff00]
    unfold u16 u32
    omega
  have h2 : u16 (u32 (((12 : Nat) : Int) + 1 +
      ((u32 ((v <<< 8 : Nat) : Int) &&& 0xff00 : Nat) : Int))) = 13 + v % 256 * 256 := by
    rw [and_ff00, Nat.shiftLeft_eq]
    unfold u16 u32
    omega
  unfold write_vga
  simp only [h1, h2]

theorem display_start_append (log : List PortWrite) (hi lo p q : Nat) :
    display_start (log ++ [PortWrite.outw (12 + hi * 256) p, PortWrite.outw (13 + lo * 256) q])
      = some (hi * 256 + lo) := by
  unfold display_start
  simp only [List.reverse_append, List.reverse_cons, List.reverse_nil, List.nil_append,
    List.singleton_append, List.cons_append]
  have a1 : (12 + hi * 256) % 256 = 12 := by omega
  have a2 : (13 + lo * 256) % 256 = 13 := by omega
  have a3 : (12 + hi * 256) / 256 = hi := by omega
  have a4 : (13 + lo * 256) / 256 = lo := by omega
  simp only [a1, a2, a3, a4, and_self, if_true]

theorem restore_publishes (s : VgaState) :
    display_start (vgacon_restore_screen s).port_log = some (u32 s.vga_origin % 65536) := by
  show display_start (write_vga { s with vga_visible_origin := s.vga_origin } 12
    (u32 s.vga_origin)).port_log = _
  rw [write_vga_words, display_start_append]
  congr 1
  omega


/-- Claim C15 (P7, second half).  After any finite sequence of `vgacon_scrollback` calls
with arbitrary line counts, `vgacon_restore_screen` leaves `VisibleOrigin = Origin`, with
`Origin` equal to its value before the sequence, and appends to the port log the two words
of the display-start registers: index 12 with the high byte of that offset and index 13
with its low byte, so that the log carries the offset (as a 16-bit value). -/
theorem restore_after_scrollback (s : VgaState) (c : vc_data) (ls : List Int) :
    (vgacon_restore_screen (scrollback_seq s c ls)).vga_visible_origin =
      (vgacon_restore_screen (scrollback_seq s c ls)).vga_origin ∧
    (vgacon_restore_screen (scrollback_seq s c ls)).vga_origin = s.vga_origin ∧
    (vgacon_restore_screen (scrollback_seq s c ls)).port_log =
      (scrollback_seq s c ls).port_log ++
        [PortWrite.outw (12 + u32 s.vga_origin / 256 % 256 * 256) s.vga_video_port_reg,
         PortWrite.outw (13 + u32 s.vga_origin % 256 * 256) s.vga_video_port_reg] ∧
    display_start (vgacon_restore_screen (scrollback_seq s c ls)).port_log =
      some (u32 s.vga_origin % 65536) := by
  obtain ⟨h1, h2⟩ := scrollback_seq_frame s c ls
  refine ⟨rfl, h1, ?_, ?_⟩
  · show (write_vga { scrollback_seq s c ls with
        vga_visible_origin := (scrollback_seq s c ls).vga_origin } 12
      (u32 (scrollback_seq s c ls).vga_origin)).port_log = _
    rw [write_vga_words, h1]
    show (scrollback_seq s c ls).port_log ++
      [PortWrite.outw _ (scrollback_seq s c ls).vga_video_port_reg,
       PortWrite.outw _ (scrollback_seq s c ls).vga_video_port_reg] = _
    rw [h2]
  · rw [restore_publishes, h1]

/-! ### Colour attribute values -/

/-- Claim C17 (P3).  In colour mode the attribute white on black, normal intensity, no
flag set, encodes to `0x07`; the same attribute with `reverse` set encodes to `0x70`; the
same attribute with `blink` set encodes to `0x87`. -/
theorem build_attr_color_values (s : VgaState) (c : vc_data)
    (hcol : s.vga_can_do_color = true) :
    vgacon_build_attr s c plain_attr = 0x07 ∧
    vgacon_build_attr s c { plain_attr with reverse := true } = 0x70 ∧
    vgacon_build_attr s c { plain_attr with blink := true } = 0x87 := by
  refine ⟨?_, ?_, ?_⟩ <;>
    (simp [vgacon_build_attr, hcol, plain_attr, VCI_NORMAL, VCI_HALF_BRIGHT, VCI_BOLD, u8]
     decide)

/-- Instance of C17 on the colour adapter. -/
theorem build_attr_color_values_witness :
    vgacon_build_attr vga16k console80x25 plain_attr = 0x07 ∧
    vgacon_build_attr vga16k console80x25 { plain_attr with reverse := true } = 0x70 ∧
    vgacon_build_attr vga16k console80x25 { plain_attr with blink := true } = 0x87 :=
  build_attr_color_values vga16k console80x25 (by decide)

/-! ### Resizing -/

/-- Counterexample to C12 as stated.  A resize requested by the user (`user = 1`) to the odd
width 79 and height 25 on the 16384-cell adapter returns 0, not `-EINVAL`: the parity test
comes after the early return of the `user` branch. -/
theorem resize_user_odd_counterexample :
    79 % 2 = 1 ∧
    (vgacon_resize linuxConsts vga16k console80x25 79 25 1).1 = 0 ∧
    (vgacon_resize linuxConsts vga16k console80x25 79 25 1).1 ≠ -linuxConsts.EINVAL := by
  decide

/-- Claim C12, amended (P6, odd width).  For every odd width and every height,
`vgacon_resize` called with `user = 0` rejects the request with `-EINVAL`. -/
theorem resize_rejects_odd_width (K : Consts) (s : VgaState) (c : vc_data)
    (width height : Nat) (hodd : width % 2 = 1) :
    (vgacon_resize K s c width height 0).1 = -K.EINVAL := by
  unfold vgacon_resize
  split_ifs with h1 h2 h3 h4
  · rfl
  · exact absurd rfl h2
  · rfl
  · exact absurd (Or.inl (by omega)) h3
  · exact absurd (Or.inl (by omega)) h3

/-- Instance of the amended C12: `resize(width = 79, height = 25)` with `user = 0`. -/
theorem resize_rejects_odd_width_witness :
    (vgacon_resize linuxConsts vga16k console80x25 79 25 0).1 = -linuxConsts.EINVAL :=
  resize_rejects_odd_width linuxConsts vga16k console80x25 79 25 (by decide)

/-- Evaluation for claim C13 (P6, capacity).  Width 65536 and height 65536 are 32-bit
values whose product `2^32` exceeds the capacity 16384, yet `vgacon_resize` with `user = 1`
returns 0: the product computed in `unsigned int` is 0, so the capacity test passes. -/
theorem resize_capacity_overflow :
    65536 < 4294967296 ∧
    65536 * 65536 > vga16k.vga_vram_size ∧
    (vgacon_resize linuxConsts vga16k console80x25 65536 65536 1).1 = 0 ∧
    (vgacon_resize linuxConsts vga16k console80x25 65536 65536 1).1 ≠ -linuxConsts.EINVAL := by
  decide




/-! ### Shadow buffer under scrolling -/

/-- The capacity test of `vgacon_resize` is exact while the product fits 32 bits. -/
theorem resize_rejects_oversize (K : Consts) (s : VgaState) (c : vc_data)
    (width height user : Nat) (hfit : width * height < 4294967296)
    (hbig : width * height > s.vga_vram_size) :
    (vgacon_resize K s c width height user).1 = -K.EINVAL := by
  have h : u32 ((width : Int) * (height : Int)) = width * height := u32_mul_lt _ _ hfit
  unfold vgacon_resize
  rw [h, if_pos hbig]

theorem scroll_console_fields (K : Consts) (s : VgaState) (c : vc_data) (t b : Nat)
    (dir : con_scroll) (lines : Nat) :
    (vgacon_scroll K s c t b dir lines).2.2.vc_screen_size = c.vc_screen_size ∧
    (vgacon_scroll K s c t b dir lines).2.2.vc_rows = c.vc_rows ∧
    (vgacon_scroll K s c t b dir lines).2.2.vc_cols = c.vc_cols ∧
    (vgacon_scroll K s c t b dir lines).2.2.vc_scr_end = c.vc_scr_end ∧
    (vgacon_scroll K s c t b dir lines).2.2.vc_mode = c.vc_mode ∧
    (vgacon_scroll K s c t b dir lines).2.2.vc_video_erase = c.vc_video_erase := by
  unfold vgacon_scroll
  split_ifs
  · exact ⟨rfl, rfl, rfl, rfl, rfl, rfl⟩
  · exact ⟨rfl, rfl, rfl, rfl, rfl, rfl⟩
  · cases dir <;> exact ⟨rfl, rfl, rfl, rfl, rfl, rfl⟩

theorem scroll_up_screenbuf (K : Consts) (s : VgaState) (c : vc_data) (t b lines : Nat)
    (hacc : (vgacon_scroll K s c t b con_scroll.SM_UP lines).1 = true) :
    (vgacon_scroll K s c t b con_scroll.SM_UP lines).2.2.screenbuf =
      cellset
        (cellmove c.screenbuf 0 (u32 (lines * c.vc_cols))
          (u32 ((c.vc_screen_size : Int) - u32 (lines * c.vc_cols))))
        (c.vc_scr_end - u32 (lines * c.vc_cols)) c.vc_video_erase
        (u32 (lines * c.vc_cols)) := by
  obtain ⟨h1, h2⟩ := scroll_not_rejected K s c t b _ lines hacc
  unfold vgacon_scroll
  rw [if_neg h1, if_neg h2]

theorem scroll_down_screenbuf (K : Consts) (s : VgaState) (c : vc_data) (t b lines : Nat)
    (hacc : (vgacon_scroll K s c t b con_scroll.SM_DOWN lines).1 = true) :
    (vgacon_scroll K s c t b con_scroll.SM_DOWN lines).2.2.screenbuf =
      cellset
        (cellmove c.screenbuf (u32 (lines * c.vc_cols)) 0
          (u32 ((c.vc_screen_size : Int) - u32 (lines * c.vc_cols))))
        0 c.vc_video_erase (u32 (lines * c.vc_cols)) := by
  obtain ⟨h1, h2⟩ := scroll_not_rejected K s c t b _ lines hacc
  unfold vgacon_scroll
  rw [if_neg h1, if_neg h2]

/-- Claim C20.  With `vc_scr_end = vc_screenbuf + screenSize` and `0 < delta < S`, an
accepted scroll applies the same transform to the screen buffer: on scroll-up cell `i` is
old cell `i + delta` for `i < S - delta` and the erase cell for `S - delta <= i < S`; on
scroll-down cell `i` is the erase cell for `i < delta` and old cell `i - delta` for
`delta <= i < S`; no cell outside `[0, S)` is written and the geometry (`screenSize`,
`rows`, `cols`) is unchanged. -/
theorem scroll_shadow_transform (K : Consts) (s : VgaState) (c : vc_data) (t b : Nat)
    (dir : con_scroll) (lines : Nat)
    (hend : c.vc_scr_end = c.vc_screen_size)
    (hS : c.vc_screen_size < 4294967296)
    (hd0 : 0 < lines * c.vc_cols)
    (hd1 : lines * c.vc_cols < c.vc_screen_size)
    (hacc : (vgacon_scroll K s c t b dir lines).1 = true) :
    (dir = con_scroll.SM_UP →
      (∀ i : Nat, i < c.vc_screen_size - lines * c.vc_cols →
        (vgacon_scroll K s c t b dir lines).2.2.screenbuf i =
          c.screenbuf ((i + lines * c.vc_cols : Nat) : Int)) ∧
      (∀ i : Nat, c.vc_screen_size - lines * c.vc_cols ≤ i → i < c.vc_screen_size →
        (vgacon_scroll K s c t b dir lines).2.2.screenbuf i = c.vc_video_erase)) ∧
    (dir = con_scroll.SM_DOWN →
      (∀ i : Nat, i < lines * c.vc_cols →
        (vgacon_scroll K s c t b dir lines).2.2.screenbuf i = c.vc_video_erase) ∧
      (∀ i : Nat, lines * c.vc_cols ≤ i → i < c.vc_screen_size →
        (vgacon_scroll K s c t b dir lines).2.2.screenbuf i =
          c.screenbuf ((i - lines * c.vc_cols : Nat) : Int))) ∧
    (∀ i : Int, i < 0 ∨ (c.vc_screen_size : Int) ≤ i →
      (vgacon_scroll K s c t b dir lines).2.2.screenbuf i = c.screenbuf i) ∧
    (vgacon_scroll K s c t b dir lines).2.2.vc_screen_size = c.vc_screen_size ∧
    (vgacon_scroll K s c t b dir lines).2.2.vc_rows = c.vc_rows ∧
    (vgacon_scroll K s c t b dir lines).2.2.vc_cols = c.vc_cols := by
  have hd : u32 ((lines : Int) * (c.vc_cols : Int)) = lines * c.vc_cols :=
    u32_mul_lt _ _ (by omega)
  have hr : u32 ((c.vc_screen_size : Int) - ((lines * c.vc_cols : Nat) : Int)) =
      c.vc_screen_size - lines * c.vc_cols := by
    unfold u32
    omega
  obtain ⟨g1, g2, g3, _, _, _⟩ := scroll_console_fields K s c t b dir lines
  refine ⟨?_, ?_, ?_, g1, g2, g3⟩
  · intro hdir
    subst hdir
    rw [scroll_up_screenbuf K s c t b lines hacc, hd, hr, hend]
    constructor
    · intro i hi
      rw [cellset_apply]
      unfold cellmove memmove
      split_ifs <;> (congr 1; omega)
    · intro i hi1 hi2
      rw [cellset_apply]
      split_ifs <;> first | rfl | omega
  · intro hdir
    subst hdir
    rw [scroll_down_screenbuf K s c t b lines hacc, hd, hr]
    constructor
    · intro i hi
      rw [cellset_apply]
      split_ifs <;> first | rfl | omega
    · intro i hi1 hi2
      rw [cellset_apply]
      unfold cellmove memmove
      split_ifs <;> (congr 1; omega)
  · intro i hi
    cases dir
    · rw [scroll_up_screenbuf K s c t b lines hacc, hd, hr, hend, cellset_apply]
      unfold cellmove memmove
      split_ifs <;> first | rfl | omega
    · rw [scroll_down_screenbuf K s c t b lines hacc, hd, hr, cellset_apply]
      unfold cellmove memmove
      split_ifs <;> first | rfl | omega

/-- Instance of C20: scroll-up by one line on the 80x25 console, cell 7. -/
theorem scroll_shadow_transform_witness :
    (vgacon_scroll linuxConsts vga16k console80x25 0 25 con_scroll.SM_UP 1).2.2.screenbuf
        ((7 : Nat) : Int) =
      console80x25.screenbuf ((7 + 1 * console80x25.vc_cols : Nat) : Int) :=
  (scroll_shadow_transform linuxConsts vga16k console80x25 0 25 con_scroll.SM_UP 1
    (by decide) (by decide) (by decide) (by decide) (by decide)).1 rfl |>.1 7 (by decide)




/-! ### Cursor size debounce -/

theorem set_cursor_size_fields (K : Consts) (s : VgaState) (frm to_ : Int) :
    (vgacon_set_cursor_size K s frm to_).vga_video_type = s.vga_video_type ∧
    (vgacon_set_cursor_size K s frm to_).vga_video_font_height = s.vga_video_font_height := by
  unfold vgacon_set_cursor_size
  split_ifs <;> exact ⟨rfl, rfl⟩

theorem set_cursor_size_same (K : Consts) (s : VgaState) (frm to_ : Int)
    (h : frm = s.cursor_size_lastfrom ∧ to_ = s.cursor_size_lastto) :
    vgacon_set_cursor_size K s frm to_ = s := by
  unfold vgacon_set_cursor_size
  rw [if_pos h]

theorem set_cursor_size_log (K : Consts) (s : VgaState) (frm to_ : Int)
    (h : ¬ (frm = s.cursor_size_lastfrom ∧ to_ = s.cursor_size_lastto)) :
    (vgacon_set_cursor_size K s frm to_).port_log =
      s.port_log ++
        (if s.vga_video_type ≥ K.VIDEO_TYPE_VGAC then
          [PortWrite.outb (u8 K.VGA_CRTC_CURSOR_START) s.vga_video_port_reg,
           PortWrite.outb (u8 K.VGA_CRTC_CURSOR_END) s.vga_video_port_reg]
         else []) ++
        [PortWrite.outb (u8 K.VGA_CRTC_CURSOR_START) s.vga_video_port_reg,
         PortWrite.outb
           ((Int.lor (Int.land
             (if s.vga_video_type ≥ K.VIDEO_TYPE_VGAC then
               (u8 (s.crtc K.VGA_CRTC_CURSOR_START) : Int) else 0) 0xc0) frm) % 256).toNat
           s.vga_video_port_val,
         PortWrite.outb (u8 K.VGA_CRTC_CURSOR_END) s.vga_video_port_reg,
         PortWrite.outb
           ((Int.lor (Int.land
             (if s.vga_video_type ≥ K.VIDEO_TYPE_VGAC then
               (u8 (s.crtc K.VGA_CRTC_CURSOR_END) : Int) else 0) 0xe0) to_) % 256).toNat
           s.vga_video_port_val] := by
  unfold vgacon_set_cursor_size
  rw [if_neg h]
  by_cases hx : s.vga_video_type ≥ K.VIDEO_TYPE_VGAC
  · simp only [hx, decide_True, if_true]
  · simp only [hx, decide_False, if_false, Bool.false_eq_true]

theorem cursor_writes_append (a b : List PortWrite) :
    cursor_writes (a ++ b) = cursor_writes a ++ cursor_writes b := by
  unfold cursor_writes
  exact List.filter_append a b

theorem write_vga_cursor_writes (s : VgaState) (reg val : Nat) :
    cursor_writes (write_vga s reg val).port_log = cursor_writes s.port_log := by
  unfold write_vga
  simp only [cursor_writes_append]
  simp [cursor_writes]

/-- Claim C18 (P5, debounce).  Two consecutive `vgacon_cursor` calls in text mode with
`CM_DRAW` or `CM_MOVE` that map to the same `(start, end)` pair write the cursor-size
registers only once: the second call adds no cursor register write to the port log.  In
general `vgacon_set_cursor_size(from, to)` writes to the ports if and only if `(from, to)`
differs from the cached pair, and afterwards the cache equals `(from, to)`. -/
theorem cursor_debounce (K : Consts) (s : VgaState) (c1 c2 : vc_data) (m1 m2 : Int)
    (ht1 : c1.vc_mode = K.KD_TEXT) (ht2 : c2.vc_mode = K.KD_TEXT)
    (hm1 : m1 = K.CM_DRAW ∨ m1 = K.CM_MOVE) (hm2 : m2 = K.CM_DRAW ∨ m2 = K.CM_MOVE)
    (hsame :
      cursor_shape (decide (s.vga_video_type ≥ K.VIDEO_TYPE_VGAC))
          (CUR_SIZE c1.vc_cursor_type) s.vga_video_font_height =
        cursor_shape (decide (s.vga_video_type ≥ K.VIDEO_TYPE_VGAC))
          (CUR_SIZE c2.vc_cursor_type) s.vga_video_font_height) :
    cursor_writes (vgacon_cursor K (vgacon_cursor K s c1 m1) c2 m2).port_log =
      cursor_writes (vgacon_cursor K s c1 m1).port_log ∧
    (∀ (st : VgaState) (frm to_ : Int),
      ((vgacon_set_cursor_size K st frm to_).port_log = st.port_log ↔
        (frm = st.cursor_size_lastfrom ∧ to_ = st.cursor_size_lastto)) ∧
      (cursor_writes (vgacon_set_cursor_size K st frm to_).port_log =
          cursor_writes st.port_log ↔
        (frm = st.cursor_size_lastfrom ∧ to_ = st.cursor_size_lastto)) ∧
      (vgacon_set_cursor_size K st frm to_).cursor_size_lastfrom = frm ∧
      (vgacon_set_cursor_size K st frm to_).cursor_size_lastto = to_) := by
  have general : ∀ (st : VgaState) (frm to_ : Int),
      ((vgacon_set_cursor_size K st frm to_).port_log = st.port_log ↔
        (frm = st.cursor_size_lastfrom ∧ to_ = st.cursor_size_lastto)) ∧
      (cursor_writes (vgacon_set_cursor_size K st frm to_).port_log =
          cursor_writes st.port_log ↔
        (frm = st.cursor_size_lastfrom ∧ to_ = st.cursor_size_lastto)) ∧
      (vgacon_set_cursor_size K st frm to_).cursor_size_lastfrom = frm ∧
      (vgacon_set_cursor_size K st frm to_).cursor_size_lastto = to_ := by
    intro st frm to_
    refine ⟨⟨fun h => ?_, fun h => ?_⟩, ⟨fun h => ?_, fun h => ?_⟩,
      set_cursor_size_cache K st frm to_⟩
    · by_contra hne
      rw [set_cursor_size_log K st frm to_ hne] at h
      have hl := congrArg List.length h
      simp only [List.length_append, List.length_cons, List.length_nil] at hl
      omega
    · rw [set_cursor_size_same K st frm to_ h]
    · by_contra hne
      rw [set_cursor_size_log K st frm to_ hne, cursor_writes_append,
        cursor_writes_append] at h
      have hl := congrArg List.length h
      simp only [List.length_append] at hl
      have h4 : (cursor_writes
          [PortWrite.outb (u8 K.VGA_CRTC_CURSOR_START) st.vga_video_port_reg,
           PortWrite.outb
             ((Int.lor (Int.land
               (if st.vga_video_type ≥ K.VIDEO_TYPE_VGAC then
                 (u8 (st.crtc K.VGA_CRTC_CURSOR_START) : Int) else 0) 0xc0) frm) % 256).toNat
             st.vga_video_port_val,
           PortWrite.outb (u8 K.VGA_CRTC_CURSOR_END) st.vga_video_port_reg,
           PortWrite.outb
             ((Int.lor (Int.land
               (if st.vga_video_type ≥ K.VIDEO_TYPE_VGAC then
                 (u8 (st.crtc K.VGA_CRTC_CURSOR_END) : Int) else 0) 0xe0) to_) % 256).toNat
             st.vga_video_port_val]).length = 4 := rfl
      rw [h4] at hl
      omega
    · rw [set_cursor_size_same K st frm to_ h]
  refine ⟨?_, general⟩
  have e1 := cursor_call_args K s c1 m1 ht1 hm1
  have t1 : (vgacon_cursor K s c1 m1).vga_video_type = s.vga_video_type := by
    rw [e1]
    exact (set_cursor_size_fields K _ _ _).1
  have t2 : (vgacon_cursor K s c1 m1).vga_video_font_height = s.vga_video_font_height := by
    rw [e1]
    exact (set_cursor_size_fields K _ _ _).2
  have k1 : (vgacon_cursor K s c1 m1).cursor_size_lastfrom =
      (cursor_args (decide (s.vga_video_type ≥ K.VIDEO_TYPE_VGAC))
        (CUR_SIZE c1.vc_cursor_type) s.vga_video_font_height).1 := by
    rw [e1]
    exact (set_cursor_size_cache K _ _ _).1
  have k2 : (vgacon_cursor K s c1 m1).cursor_size_lastto =
      (cursor_args (decide (s.vga_video_type ≥ K.VIDEO_TYPE_VGAC))
        (CUR_SIZE c1.vc_cursor_type) s.vga_video_font_height).2 := by
    rw [e1]
    exact (set_cursor_size_cache K _ _ _).2
  have e2 := cursor_call_args K (vgacon_cursor K s c1 m1) c2 m2 ht2 hm2
  rw [t1, t2, ← cursor_args_same _ _ _ _ hsame] at e2
  have same := set_cursor_size_same K
    (write_vga (vgacon_restore_screen (vgacon_cursor K s c1 m1)) 14
      (u32 ((vgacon_cursor K s c1 m1).vga_origin + c2.vc_pos)))
    _ _ ⟨k1.symm, k2.symm⟩
  rw [e2, same, write_vga_cursor_writes]
  exact write_vga_cursor_writes _ _ _


/-- Instance of C18: two `CM_DRAW` calls on the same console. -/
theorem cursor_debounce_witness :
    cursor_writes
        (vgacon_cursor linuxConsts
          (vgacon_cursor linuxConsts vga16k console80x25 linuxConsts.CM_DRAW)
          console80x25 linuxConsts.CM_DRAW).port_log =
      cursor_writes (vgacon_cursor linuxConsts vga16k console80x25 linuxConsts.CM_DRAW).port_log :=
  (cursor_debounce linuxConsts vga16k console80x25 console80x25
    linuxConsts.CM_DRAW linuxConsts.CM_DRAW (by decide) (by decide)
    (Or.inl rfl) (Or.inl rfl) rfl).1




/-! ### Scrollback by zero lines and in a short window -/

theorem origin_lt_window (s : VgaState) (c : vc_data) (hinv : origin_in_buffer s c) :
    s.vga_origin < (live_window s c).2 := by
  obtain ⟨h1, h2, h3⟩ := hinv
  unfold live_window nav_window
  split_ifs with h
  · simp only
    omega
  · simp only
    omega

theorem window_le_2pow30 (s : VgaState) (c : vc_data) (hr : scrollback_in_range s c) :
    (live_window s c).2 ≤ 1073741824 := by
  obtain ⟨r1, r2, r3⟩ := hr
  unfold live_window nav_window
  split_ifs <;> simp only <;> omega

theorem scrollback_raw (s : VgaState) (c : vc_data) (lines : Int)
    (hinv : origin_in_buffer s c) (hr : scrollback_in_range s c)
    (hv0 : 0 ≤ s.vga_visible_origin)
    (hl1 : -1073741824 ≤ lines * c.vc_cols) (hl2 : lines * c.vc_cols ≤ 1073741824) :
    i32 (c_rem (s.vga_visible_origin - (live_window s c).1 + (live_window s c).2)
        (live_window s c).2 + u32 (lines * c.vc_cols)) =
      window_distance (live_window s c) s.vga_visible_origin + lines * c.vc_cols := by
  obtain ⟨b1, b2, b3, b4⟩ := nav_window_bounds s c hinv
  have hW := window_le_2pow30 s c hr
  obtain ⟨e1, e2⟩ := window_distance_bounds (live_window s c) s.vga_visible_origin b2
  rw [c_rem_eq_emod _ _ (by omega) b2, Int.add_emod_self]
  unfold window_distance at e1 e2 ⊢
  unfold i32 u32
  omega

theorem pan_clamp_fixed (m avail d : Int) (hc : m = 0 ∨ 2 * m ≤ avail)
    (hd : d = 0 ∨ d = avail ∨ (m ≤ d ∧ d ≤ avail - m)) (hav : 0 ≤ avail) :
    pan_clamp m avail d = d := by
  unfold pan_clamp
  split_ifs <;> omega

theorem scrollback_zero_fixed (s : VgaState) (c : vc_data)
    (hinv : origin_in_buffer s c) (hr : scrollback_in_range s c)
    (hv0 : 0 ≤ s.vga_visible_origin) (hv1 : s.vga_visible_origin < (live_window s c).2)
    (hd : pan_clamp (driver_margin (live_window s c) s c)
        (window_distance (live_window s c) s.vga_origin)
        (window_distance (live_window s c) s.vga_visible_origin) =
      window_distance (live_window s c) s.vga_visible_origin) :
    (vgacon_scrollback s c 0).vga_visible_origin = s.vga_visible_origin := by
  have hraw := scrollback_raw s c 0 hinv hr hv0 (by simp) (by simp)
  rw [scrollback_visible_origin s c 0 hinv hr, hraw, zero_mul, add_zero, hd]
  unfold window_distance
  rw [Int.add_emod_emod, add_sub_cancel, Int.emod_eq_of_lt hv0 hv1]


/-- Counterexample to C16 as stated.  With `cols = 80`, `RolledOver = 0` and
`Origin = VisibleOrigin = 100 < 640`: for `lines = -53687092` the 32-bit product
`lines * cols` is `-64` modulo `2^32`, so `VisibleOrigin` becomes 36 where
`max(0, Origin + 80 * lines)` is 0; for `lines = 26843546` the converted offset is negative
and `VisibleOrigin` becomes 0 where the claim gives `Origin = 100`. -/
theorem scrollback_short_counterexample :
    console80x25.vc_cols = 80 ∧ vga16k_short.vga_rolled_over = 0 ∧
    vga16k_short.vga_origin < 640 ∧
    vga16k_short.vga_visible_origin = vga16k_short.vga_origin ∧
    (vgacon_scrollback vga16k_short console80x25 (-53687092)).vga_visible_origin = 36 ∧
    max 0 (vga16k_short.vga_origin + 80 * (-53687092)) = 0 ∧
    (vgacon_scrollback vga16k_short console80x25 26843546).vga_visible_origin = 0 ∧
    vga16k_short.vga_origin = 100 := by
  decide

/-- Claim C16, amended (P2).  With `cols = 80` the margin is 320; with `RolledOver = 0` and
`Origin < 640` the effective margin is 0, and starting from `VisibleOrigin = Origin`,
`vgacon_scrollback(lines)` yields exactly `max(0, Origin + 80 * lines)` for every
`lines <= 0` and `Origin` for every `lines >= 0`, for line counts whose pan fits the C
`int` (`|80 * lines| <= 2^30`). -/
theorem scrollback_short_span (s : VgaState) (c : vc_data) (lines : Int)
    (hcols : c.vc_cols = 80) (hro : s.vga_rolled_over = 0)
    (hinv : origin_in_buffer s c) (hN : s.vga_vram_size ≤ 1073741824)
    (hspan : s.vga_origin < 640) (hvo : s.vga_visible_origin = s.vga_origin)
    (hl1 : -1073741824 ≤ 80 * lines) (hl2 : 80 * lines ≤ 1073741824) :
    4 * (c.vc_cols : Int) = 320 ∧
    effective_margin (live_window s c) s c = 0 ∧
    (lines ≤ 0 →
      (vgacon_scrollback s c lines).vga_visible_origin = max 0 (s.vga_origin + 80 * lines)) ∧
    (0 ≤ lines → (vgacon_scrollback s c lines).vga_visible_origin = s.vga_origin) := by
  obtain ⟨o1, o2, o3⟩ := hinv
  have hr : scrollback_in_range s c := by
    unfold scrollback_in_range
    rw [hcols, hro]
    omega
  have hw : live_window s c = (0, (s.vga_vram_size : Int)) := by
    unfold live_window nav_window
    rw [hro, hcols]
    have : ¬ (((0 : Nat) : Int) > s.vga_origin + (c.vc_screen_size : Int) + 4 * ((80 : Nat) : Int)) := by
      omega
    rw [if_neg this]
  have hav : window_distance (live_window s c) s.vga_origin = s.vga_origin := by
    rw [hw]
    unfold window_distance
    simp only [sub_zero]
    exact Int.emod_eq_of_lt o1 o2
  have hm : effective_margin (live_window s c) s c = 0 := by
    unfold effective_margin
    rw [hav, hcols]
    have : s.vga_origin < 2 * (4 * ((80 : Nat) : Int)) := by omega
    rw [if_pos this]
  have hraw := scrollback_raw s c lines ⟨o1, o2, o3⟩ hr (by omega)
    (by rw [hcols]; push_cast; omega) (by rw [hcols]; push_cast; omega)
  have hvd : window_distance (live_window s c) s.vga_visible_origin = s.vga_origin := by
    rw [hvo]
    exact hav
  have hlc : lines * ((c.vc_cols : Nat) : Int) = 80 * lines := by
    rw [hcols]
    push_cast
    ring
  have key : (vgacon_scrollback s c lines).vga_visible_origin =
      pan_clamp 0 s.vga_origin (s.vga_origin + 80 * lines) := by
    rw [scrollback_visible_origin s c lines ⟨o1, o2, o3⟩ hr,
      driver_margin_eq _ _ _ (by rw [hcols]; decide), hraw, hm, hav, hvd, hlc, hw]
    simp only [zero_add]
    apply Int.emod_eq_of_lt
    · unfold pan_clamp
      split_ifs <;> omega
    · unfold pan_clamp
      split_ifs <;> omega
  refine ⟨by rw [hcols]; rfl, hm, ?_, ?_⟩
  · intro hl
    rw [key]
    unfold pan_clamp
    rcases le_total 0 (s.vga_origin + 80 * lines) with h | h
    · rw [max_eq_right h]
      split_ifs <;> omega
    · rw [max_eq_left h]
      split_ifs <;> omega
  · intro hl
    rw [key]
    unfold pan_clamp
    split_ifs <;> omega

/-- Instance of the amended C16: one line back from `Origin = 100` reaches
`max(0, 100 - 80)`. -/
theorem scrollback_short_span_witness :
    (vgacon_scrollback vga16k_short console80x25 (-1)).vga_visible_origin =
      max 0 (vga16k_short.vga_origin + 80 * (-1)) :=
  (scrollback_short_span vga16k_short console80x25 (-1) (by decide) (by decide) (by decide)
    (by decide) (by decide) (by decide) (by decide) (by decide)).2.2.1 (by decide)




/-! ### Reachable states -/

theorem scroll_declined_unchanged (K : Consts) (s : VgaState) (c : vc_data) (t b : Nat)
    (dir : con_scroll) (lines : Nat)
    (hrej : (vgacon_scroll K s c t b dir lines).1 = false) :
    (vgacon_scroll K s c t b dir lines).2 = (s, c) := by
  unfold vgacon_scroll at hrej ⊢
  split_ifs at hrej ⊢
  · rfl
  · rfl
  · cases dir <;> exact Bool.noConfusion hrej

theorem scroll_state_fields (K : Consts) (s : VgaState) (c : vc_data) (t b : Nat)
    (dir : con_scroll) (lines : Nat)
    (hacc : (vgacon_scroll K s c t b dir lines).1 = true) :
    (vgacon_scroll K s c t b dir lines).2.1.vga_vram_size = s.vga_vram_size ∧
    (vgacon_scroll K s c t b dir lines).2.1.vga_visible_origin =
      (vgacon_scroll K s c t b dir lines).2.1.vga_origin := by
  obtain ⟨h1, h2⟩ := scroll_not_rejected K s c t b dir lines hacc
  unfold vgacon_scroll
  rw [if_neg h1, if_neg h2]
  cases dir
  · dsimp only
    split_ifs <;> exact ⟨rfl, rfl⟩
  · dsimp only
    split_ifs <;> exact ⟨rfl, rfl⟩

theorem window_le_capacity (s : VgaState) (c : vc_data)
    (hro : (s.vga_rolled_over : Int) + c.vc_screen_size ≤ s.vga_vram_size)
    (hc : c.vc_cols ≤ c.vc_screen_size) :
    (live_window s c).2 ≤ s.vga_vram_size := by
  unfold live_window nav_window
  split_ifs <;> simp only <;> omega

theorem step_preserves_inv (K : Consts) (N S cols : Nat) (hS : 0 < S) (hc : cols ≤ S)
    (hN : N < 536870912) (sc : VgaState × vc_data) (op : Op)
    (h : reach_inv N S cols sc) : reach_inv N S cols (step K sc op) := by
  obtain ⟨s, c⟩ := sc
  have h' : s.vga_vram_size = N ∧ c.vc_screen_size = S ∧ c.vc_cols = cols ∧
      0 ≤ s.vga_origin ∧ s.vga_origin + S ≤ N ∧
      0 ≤ s.vga_visible_origin ∧ s.vga_visible_origin < N ∧
      (s.vga_rolled_over : Int) + S ≤ N := h
  obtain ⟨i1, i2, i3, i4, i5, i6, i7, i8⟩ := h'
  cases op with
  | scroll t b dir lines =>
    unfold step
    simp only
    cases hacc : (vgacon_scroll K s c t b dir lines).1
    · rw [scroll_declined_unchanged K s c t b dir lines hacc]
      exact ⟨i1, i2, i3, i4, i5, i6, i7, i8⟩
    · obtain ⟨f1, f2⟩ := scroll_state_fields K s c t b dir lines hacc
      obtain ⟨g1, _, g3, _, _, _⟩ := scroll_console_fields K s c t b dir lines
      have ho : ((usize s.vga_origin : Nat) : Int) = s.vga_origin := by
        unfold usize
        omega
      have hoo : ((u32 (usize s.vga_origin : Nat) : Nat) : Int) = s.vga_origin := by
        unfold u32
        omega
      unfold reach_inv
      rw [f2, f1, g1, g3]
      cases dir
      · rw [scroll_up_origin K s c t b lines hacc, scroll_up_rolled_over K s c t b lines hacc]
        split_ifs with hw
        · rw [hoo]
          refine ⟨i1, i2, i3, ?_, ?_, ?_, ?_, ?_⟩ <;> omega
        · refine ⟨i1, i2, i3, ?_, ?_, ?_, ?_, ?_⟩ <;> omega
      · rw [scroll_down_origin K s c t b lines hacc,
          scroll_down_rolled_over K s c t b lines hacc]
        split_ifs with hw
        · refine ⟨i1, i2, i3, ?_, ?_, ?_, ?_, ?_⟩ <;> omega
        · refine ⟨i1, i2, i3, ?_, ?_, ?_, ?_, ?_⟩ <;> omega
  | scrollback lines =>
    unfold step
    simp only
    have hinv : origin_in_buffer s c := by
      unfold origin_in_buffer
      rw [i1, i2]
      omega
    have hr : scrollback_in_range s c := by
      unfold scrollback_in_range
      rw [i1, i3]
      omega
    obtain ⟨_, b2, _, _⟩ := nav_window_bounds s c hinv
    have hwc := window_le_capacity s c (by rw [i1, i2]; exact i8) (by rw [i2, i3]; exact hc)
    obtain ⟨fo, fr, _, fn, _⟩ := scrollback_frame s c lines
    have v1 := Int.emod_nonneg
      ((live_window s c).1 +
        pan_clamp (driver_margin (live_window s c) s c)
          (window_distance (live_window s c) s.vga_origin)
          (i32 (c_rem (s.vga_visible_origin - (live_window s c).1 + (live_window s c).2)
            (live_window s c).2 + u32 (lines * c.vc_cols)))) (ne_of_gt b2)
    have v2 := Int.emod_lt_of_pos
      ((live_window s c).1 +
        pan_clamp (driver_margin (live_window s c) s c)
          (window_distance (live_window s c) s.vga_origin)
          (i32 (c_rem (s.vga_visible_origin - (live_window s c).1 + (live_window s c).2)
            (live_window s c).2 + u32 (lines * c.vc_cols)))) b2
    rw [← scrollback_visible_origin s c lines hinv hr] at v1 v2
    unfold reach_inv
    simp only
    rw [fo, fr, fn]
    refine ⟨i1, i2, i3, i4, i5, v1, ?_, i8⟩
    rw [i1] at hwc
    omega
  | restore_screen =>
    exact ⟨i1, i2, i3, i4, i5, i4, by show s.vga_origin < N; omega, i8⟩
  | reset_origin =>
    unfold step
    simp only
    unfold vgacon_reset_origin
    split_ifs
    · exact ⟨i1, i2, i3, i4, i5, i6, i7, i8⟩
    · refine ⟨i1, i2, i3, ?_, ?_, ?_, ?_, ?_⟩
      · show (0 : Int) ≤ 0
        omega
      · show (0 : Int) + S ≤ N
        omega
      · show (0 : Int) ≤ 0
        omega
      · show (0 : Int) < N
        omega
      · show ((0 : Nat) : Int) + S ≤ N
        omega
  | deinit visible =>
    unfold step
    simp only
    unfold vgacon_deinit
    split_ifs
    · refine ⟨i1, i2, i3, ?_, ?_, ?_, ?_, i8⟩
      · show (0 : Int) ≤ 0
        omega
      · show (0 : Int) + S ≤ N
        omega
      · show (0 : Int) ≤ 0
        omega
      · show (0 : Int) < N
        omega
    · exact ⟨i1, i2, i3, i4, i5, i6, i7, i8⟩

theorem run_preserves_inv (K : Consts) (N S cols : Nat) (hS : 0 < S) (hc : cols ≤ S)
    (hN : N < 536870912) (ops : List Op) (sc : VgaState × vc_data)
    (h : reach_inv N S cols sc) : reach_inv N S cols (run K sc ops) := by
  unfold run
  induction ops generalizing sc with
  | nil => exact h
  | cons op ops ih =>
    rw [List.foldl_cons]
    exact ih _ (step_preserves_inv K N S cols hS hc hN sc op h)

/-- Claim C11.  Starting from `Origin = VisibleOrigin = RolledOver = 0` with a fixed
geometry `0 < screenSize = rows * cols <= N` (and `N` below `2^29`, as the capacities
`0x4000` and `0x1000` that `vgacon_startup` sets), every sequence of accepted or declined
scroll requests, scrollback pans, `vgacon_restore_screen`, `vgacon_reset_origin` and
`vgacon_deinit` keeps `0 <= Origin < N`, `0 <= VisibleOrigin < N` and
`Origin + screenSize <= N`. -/
theorem reachable_view_invariant (K : Consts) (s : VgaState) (c : vc_data) (ops : List Op)
    (ho : s.vga_origin = 0) (hv : s.vga_visible_origin = 0) (hro : s.vga_rolled_over = 0)
    (hS0 : 0 < c.vc_screen_size) (hSg : c.vc_screen_size = c.vc_rows * c.vc_cols)
    (hSN : c.vc_screen_size ≤ s.vga_vram_size) (hN : s.vga_vram_size < 536870912) :
    0 ≤ (run K (s, c) ops).1.vga_origin ∧
    (run K (s, c) ops).1.vga_origin < s.vga_vram_size ∧
    0 ≤ (run K (s, c) ops).1.vga_visible_origin ∧
    (run K (s, c) ops).1.vga_visible_origin < s.vga_vram_size ∧
    (run K (s, c) ops).1.vga_origin + c.vc_screen_size ≤ s.vga_vram_size ∧
    (run K (s, c) ops).1.vga_vram_size = s.vga_vram_size ∧
    (run K (s, c) ops).2.vc_screen_size = c.vc_screen_size := by
  have hc : c.vc_cols ≤ c.vc_screen_size := by
    rw [hSg]
    have hr : 0 < c.vc_rows := by
      rcases Nat.eq_zero_or_pos c.vc_rows with h | h
      · rw [hSg, h, Nat.zero_mul] at hS0
        exact absurd hS0 (lt_irrefl 0)
      · exact h
    exact Nat.le_mul_of_pos_left _ hr
  have h0 : reach_inv s.vga_vram_size c.vc_screen_size c.vc_cols (s, c) := by
    refine ⟨rfl, rfl, rfl, ?_, ?_, ?_, ?_, ?_⟩
    · show 0 ≤ s.vga_origin
      omega
    · show s.vga_origin + c.vc_screen_size ≤ s.vga_vram_size
      omega
    · show 0 ≤ s.vga_visible_origin
      omega
    · show s.vga_visible_origin < s.vga_vram_size
      omega
    · show (s.vga_rolled_over : Int) + c.vc_screen_size ≤ s.vga_vram_size
      omega
  obtain ⟨j1, j2, _, j4, j5, j6, j7, _⟩ :=
    run_preserves_inv K s.vga_vram_size c.vc_screen_size c.vc_cols hS0 hc hN ops (s, c) h0
  exact ⟨j4, by omega, j6, j7, j5, j1, j2⟩

/-- Instance of C11 for a run that scrolls up, wraps downward, pans, closes the console and
pans again. -/
theorem reachable_view_invariant_witness :
    0 ≤ (run linuxConsts (vga16k, console80x25)
        [Op.scroll 0 25 con_scroll.SM_UP 1, Op.scroll 0 25 con_scroll.SM_DOWN 3,
         Op.scrollback (-5), Op.deinit true, Op.scrollback (-300)]).1.vga_origin ∧
    (run linuxConsts (vga16k, console80x25)
        [Op.scroll 0 25 con_scroll.SM_UP 1, Op.scroll 0 25 con_scroll.SM_DOWN 3,
         Op.scrollback (-5), Op.deinit true, Op.scrollback (-300)]).1.vga_origin <
      vga16k.vga_vram_size :=
  ⟨(reachable_view_invariant linuxConsts vga16k console80x25
      [Op.scroll 0 25 con_scroll.SM_UP 1, Op.scroll 0 25 con_scroll.SM_DOWN 3,
       Op.scrollback (-5), Op.deinit true, Op.scrollback (-300)]
      (by decide) (by decide) (by decide) (by decide) (by decide) (by decide) (by decide)).1,
   (reachable_view_invariant linuxConsts vga16k console80x25
      [Op.scroll 0 25 con_scroll.SM_UP 1, Op.scroll 0 25 con_scroll.SM_DOWN 3,
       Op.scrollback (-5), Op.deinit true, Op.scrollback (-300)]
      (by decide) (by decide) (by decide) (by decide) (by decide) (by decide) (by decide)).2.1⟩

/-! ### Clearing a rectangle -/

theorem clear_rows_keeps (mem : Int → Nat) (p : Int) (cols width height : Nat) (i : Int)
    (h : mem i = u16 BLANK) : clear_rows mem p cols width height i = u16 BLANK := by
  induction height generalizing mem p with
  | zero => exact h
  | succ n ih =>
    rw [clear_rows]
    apply ih
    rw [scr_memset_apply]
    split_ifs
    · rfl
    · exact h

theorem clear_rows_inside (mem : Int → Nat) (p : Int) (cols width height : Nat) (i : Int)
    (r : Nat) (hr : r < height) (h1 : p + (r : Int) * cols ≤ i)
    (h2 : i < p + (r : Int) * cols + width) :
    clear_rows mem p cols width height i = u16 BLANK := by
  induction height generalizing mem p r with
  | zero => omega
  | succ n ih =>
    rw [clear_rows]
    cases r with
    | zero =>
      apply clear_rows_keeps
      rw [scr_memset_apply]
      simp only [Nat.cast_zero, zero_mul, add_zero] at h1 h2
      rw [if_pos ⟨h1, h2⟩]
    | succ r =>
      have e : ((r + 1 : Nat) : Int) * (cols : Int) = (r : Int) * cols + cols := by
        push_cast
        ring
      rw [e] at h1 h2
      exact ih _ _ r (by omega) (by omega) (by omega)

theorem clear_rows_outside (mem : Int → Nat) (p : Int) (cols width height : Nat) (i : Int)
    (h : ∀ r : Nat, r < height →
      ¬ (p + (r : Int) * cols ≤ i ∧ i < p + (r : Int) * cols + width)) :
    clear_rows mem p cols width height i = mem i := by
  induction height generalizing mem p with
  | zero => rfl
  | succ n ih =>
    rw [clear_rows, ih]
    · rw [scr_memset_apply]
      have h0 := h 0 (by omega)
      simp only [Nat.cast_zero, zero_mul, add_zero] at h0
      rw [if_neg h0]
    · intro r hr
      have e : ((r + 1 : Nat) : Int) * (cols : Int) = (r : Int) * cols + cols := by
        push_cast
        ring
      have := h (r + 1) (by omega)
      rw [e] at this
      intro hh
      exact this ⟨by omega, by omega⟩

/-- Claim C21, the behaviour of the code.  For a rectangle of `height` rows and `width`
columns (`int` values, not negative) whose rows lie inside the view,
`(sy + height) * cols <= screenSize`, `vgacon_clear` stores the constant `BLANK = 0x0020`
(a space with attribute 0) in every cell `Origin + (sy + r) * cols + sx + c`, `r < height`,
`c < width`, whatever the erase cell of the console is; every other cell keeps its word,
and `Origin` and `VisibleOrigin` are not moved. -/
theorem clear_writes_blank (s : VgaState) (vc : vc_data) (ypos xpos height width : Int)
    (hy : 0 ≤ ypos) (hh0 : 0 ≤ height) (hh1 : height < 2147483648)
    (hw0 : 0 ≤ width) (hw1 : width < 2147483648)
    (hS : vc.vc_screen_size < 4294967296)
    (hin : (ypos + height) * vc.vc_cols ≤ vc.vc_screen_size) :
    (∀ r c : Nat, (r : Int) < height → (c : Int) < width →
      (vgacon_clear s vc ypos xpos height width).vram
          (s.vga_origin + (ypos + r) * vc.vc_cols + xpos + c) = 0x0020) ∧
    (∀ i : Int,
      (∀ r c : Nat, (r : Int) < height → (c : Int) < width →
        i ≠ s.vga_origin + (ypos + r) * vc.vc_cols + xpos + c) →
      (vgacon_clear s vc ypos xpos height width).vram i = s.vram i) ∧
    (vgacon_clear s vc ypos xpos height width).vga_origin = s.vga_origin ∧
    (vgacon_clear s vc ypos xpos height width).vga_visible_origin = s.vga_visible_origin := by
  have hH : ((u32 height : Nat) : Int) = height := by
    unfold u32
    omega
  have hW : ((usize width : Nat) : Int) = width := by
    unfold usize
    omega
  have hyc : 0 ≤ ypos * (vc.vc_cols : Int) := mul_nonneg hy (by omega)
  have hhc : 0 ≤ height * (vc.vc_cols : Int) := mul_nonneg hh0 (by omega)
  have hsum : (ypos + height) * (vc.vc_cols : Int) =
      ypos * vc.vc_cols + height * vc.vc_cols := by ring
  have hP : ((u32 (ypos * (vc.vc_cols : Int)) : Nat) : Int) = ypos * vc.vc_cols := by
    unfold u32
    omega
  have hrow : ∀ r : Nat, (ypos + (r : Int)) * (vc.vc_cols : Int) =
      ypos * vc.vc_cols + (r : Int) * vc.vc_cols := fun r => by ring
  refine ⟨?_, ?_, rfl, rfl⟩
  · intro r c hr hc
    show clear_rows s.vram _ _ _ _ _ = 32
    rw [hP]
    have := clear_rows_inside s.vram (s.vga_origin + ypos * vc.vc_cols + xpos) vc.vc_cols
      (usize width) (u32 height) (s.vga_origin + (ypos + r) * vc.vc_cols + xpos + c) r
      (by omega) (by rw [hrow]; omega) (by rw [hrow, hW]; omega)
    rw [this]
    rfl
  · intro i hi
    show clear_rows s.vram _ _ _ _ _ = s.vram i
    rw [hP]
    apply clear_rows_outside
    intro r hr hh
    obtain ⟨k1, k2⟩ := hh
    rw [hW] at k2
    have hc0 : 0 ≤ i - (s.vga_origin + ypos * vc.vc_cols + xpos + (r : Int) * vc.vc_cols) := by
      omega
    have := hi r (i - (s.vga_origin + ypos * vc.vc_cols + xpos + (r : Int) * vc.vc_cols)).toNat
      (by omega) (by omega)
    apply this
    rw [hrow]
    omega

/-- Instance of C21: clearing 2 rows of 4 columns at row 2, column 3 of the 80-column
console with the view at offset 8000; the cell in row 3, column 5. -/
theorem clear_writes_blank_witness :
    (vgacon_clear vga16k_mid console80x25 2 3 2 4).vram
        (vga16k_mid.vga_origin + (2 + ((1 : Nat) : Int)) * (console80x25.vc_cols : Int) + 3 +
          ((2 : Nat) : Int)) = 0x0020 :=
  (clear_writes_blank vga16k_mid console80x25 2 3 2 4 (by decide) (by decide) (by decide)
    (by decide) (by decide) (by decide) (by decide)).1 1 2 (by decide) (by decide)

/-- Failing input for C21.  The erase cell of the 80x25 console is a space, white on
black, whose hardware encoding is `0x0720`; after
`vgacon_clear(sy = 0, sx = 0, height = 1, width = 1)` the cell at `Origin` holds `0x0020`,
while the scroll path fills the cells it exposes with `0x0720`. -/
theorem clear_erase_counterexample :
    to_u16 vga16k console80x25 console80x25.vc_video_erase = 0x0720 ∧
    (vgacon_clear vga16k console80x25 0 0 1 1).vram vga16k.vga_origin = 0x0020 ∧
    (vgacon_scroll linuxConsts vga16k console80x25 0 25 con_scroll.SM_UP 1).2.1.vram
      ((vgacon_scroll linuxConsts vga16k console80x25 0 25 con_scroll.SM_UP 1).2.1.vga_origin
        + 1999) = 0x0720 := by
  refine ⟨by decide, by decide, ?_⟩
  have hacc : (vgacon_scroll linuxConsts vga16k console80x25 0 25 con_scroll.SM_UP 1).1 =
      true := by decide
  rw [scroll_up_vram _ _ _ _ _ _ hacc, scroll_up_origin _ _ _ _ _ _ hacc,
    if_neg (by decide), if_neg (by decide), scr_memset_apply, if_pos (by decide)]
  decide

/-! ### Writing a run of cells -/

theorem build_attr_lt (s : VgaState) (c : vc_data) (a : vc_cell_attr) :
    vgacon_build_attr s c a < 256 := by
  have hu : ∀ x : Nat, u8 x < 256 := fun x => Nat.mod_lt _ (by decide)
  unfold vgacon_build_attr
  lift_lets
  intro invert a0 a1 a2 a3 a4 a5 b0 b1 b2
  have h1 : a1 < 256 := by
    show (if _ then _ else _) < 256
    split_ifs <;> first | exact hu _
  have h2 : a2 < 256 := by
    show (if _ then _ else _) < 256
    split_ifs <;> first | exact hu _ | exact h1
  have h3 : a3 < 256 := by
    show (if _ then _ else _) < 256
    split_ifs <;> first | exact hu _ | exact h2
  have h4 : a4 < 256 := by
    show (if _ then _ else _) < 256
    split_ifs <;> first | exact hu _ | exact h3
  have h5 : a5 < 256 := by
    show (if _ then _ else _) < 256
    split_ifs <;> first | exact hu _ | exact h4
  have g0 : b0 < 256 := by
    show (if _ then _ else _) < 256
    split_ifs <;> decide
  have g1 : b1 < 256 := by
    show (if _ then _ else _) < 256
    split_ifs <;> first | exact hu _ | exact g0
  have g2 : b2 < 256 := by
    show (if _ then _ else _) < 256
    split_ifs <;> first | exact hu _ | exact g1
  split_ifs
  · exact h5
  · exact g2

theorem to_u16_eq (s : VgaState) (vc : vc_data) (c : vc_cell) :
    to_u16 s vc c = (vgacon_build_attr s vc c.attr <<< 8) ||| c.glyph.val := by
  have h := build_attr_lt s vc c.attr
  have hg := c.glyph.isLt
  unfold to_u16
  rw [show u16 (vgacon_build_attr s vc c.attr) = vgacon_build_attr s vc c.attr from
    Nat.mod_eq_of_lt (by omega)]
  apply Nat.mod_eq_of_lt
  apply @Nat.or_lt_two_pow _ _ 16
  · rw [Nat.shiftLeft_eq]
    omega
  · omega

theorem putcs_loop_vram (vc : vc_data) (cells : Nat → vc_cell) (n k : Nat) (s : VgaState)
    (ypos xpos L : Int) (hL : L = ypos * vc.vc_cols + xpos)
    (hy : 0 ≤ ypos) (hx0 : 0 ≤ xpos) (hx1 : xpos < vc.vc_cols)
    (hb : L + n ≤ 1073741824) (i : Int) :
    (putcs_loop vc cells n k s ypos xpos).vram i =
      if s.vga_origin + L ≤ i ∧ i < s.vga_origin + L + n then
        to_u16 s vc (cells (k + (i - (s.vga_origin + L)).toNat))
      else s.vram i := by
  induction n generalizing k s ypos xpos L with
  | zero =>
    rw [putcs_loop]
    split_ifs <;> first | rfl | omega
  | succ n ih =>
    have hyc : 0 ≤ ypos * (vc.vc_cols : Int) := mul_nonneg hy (by omega)
    have hyle : ypos ≤ ypos * (vc.vc_cols : Int) := le_mul_of_one_le_right hy (by omega)
    have hP : ((u32 (ypos * (vc.vc_cols : Int)) : Nat) : Int) = ypos * vc.vc_cols := by
      unfold u32
      omega
    have hX : i32 (xpos + 1) = xpos + 1 := i32_of_range _ (by omega) (by omega)
    have hY : i32 (ypos + 1) = ypos + 1 := i32_of_range _ (by omega) (by omega)
    have hU : ((u32 (xpos + 1) : Nat) : Int) = xpos + 1 := by
      unfold u32
      omega
    have hrow : (ypos + 1) * (vc.vc_cols : Int) = ypos * vc.vc_cols + vc.vc_cols := by ring
    have hput : ∀ j : Int, (vgacon_putc s vc (cells k) ypos xpos).vram j =
        if j = s.vga_origin + L then to_u16 s vc (cells k) else s.vram j := by
      intro j
      show scr_write s.vram _ _ j = _
      unfold scr_write store
      rw [hP, u16_to_u16, hL]
      split_ifs <;> first | rfl | omega
    have hso : (vgacon_putc s vc (cells k) ypos xpos).vga_origin = s.vga_origin := rfl
    have hto : ∀ x : vc_cell, to_u16 (vgacon_putc s vc (cells k) ypos xpos) vc x =
        to_u16 s vc x := fun _ => rfl
    rw [putcs_loop]
    simp only [hX, hY]
    by_cases hwrap : u32 (xpos + 1) ≥ vc.vc_cols
    · have hw : (vc.vc_cols : Int) ≤ xpos + 1 := by omega
      rw [if_pos hwrap, ih (k + 1) _ (ypos + 1) 0 (L + 1) (by rw [hrow]; omega) (by omega)
        (by omega) (by omega) (by push_cast at hb ⊢; omega), hso, hput]
      simp only [hto]
      split_ifs <;> first | rfl | omega | (congr 2; omega)
    · have hw : xpos + 1 < (vc.vc_cols : Int) := by omega
      rw [if_neg hwrap, ih (k + 1) _ ypos (xpos + 1) (L + 1) (by omega) (by omega)
        (by omega) (by omega) (by push_cast at hb ⊢; omega), hso, hput]
      simp only [hto]
      split_ifs <;> first | rfl | omega | (congr 2; omega)

/-- Claim C22.  For a grid position (`0 <= row`, `0 <= col < cols`), a count `count >= 0`
and a target range `[Origin + row*cols + col, Origin + row*cols + col + count)` inside a
buffer of at most `2^30` cells, `vgacon_putcs` stores, for every `i < count`, the word
`(vgacon_build_attr(cells[i].attr) << 8) | cells[i].glyph` at offset
`Origin + row*cols + col + i`: stepping to column 0 of the next row is linear addressing.
Every cell outside the range keeps its word, and `Origin` and `VisibleOrigin` are not
moved. -/
theorem putcs_writes_cells (s : VgaState) (vc : vc_data) (cells : Nat → vc_cell)
    (count ypos xpos : Int)
    (hy : 0 ≤ ypos) (hx0 : 0 ≤ xpos) (hx1 : xpos < vc.vc_cols) (hc : 0 ≤ count)
    (hO : 0 ≤ s.vga_origin) (hN : s.vga_vram_size ≤ 1073741824)
    (hin : s.vga_origin + ypos * vc.vc_cols + xpos + count ≤ s.vga_vram_size) :
    (∀ i : Nat, (i : Int) < count →
      (vgacon_putcs s vc cells count ypos xpos).vram
          (s.vga_origin + ypos * vc.vc_cols + xpos + i) =
        (vgacon_build_attr s vc (cells i).attr <<< 8) ||| (cells i).glyph.val) ∧
    (∀ j : Int, j < s.vga_origin + ypos * vc.vc_cols + xpos ∨
        s.vga_origin + ypos * vc.vc_cols + xpos + count ≤ j →
      (vgacon_putcs s vc cells count ypos xpos).vram j = s.vram j) ∧
    (vgacon_putcs s vc cells count ypos xpos).vga_origin = s.vga_origin ∧
    (vgacon_putcs s vc cells count ypos xpos).vga_visible_origin = s.vga_visible_origin := by
  have hyc : 0 ≤ ypos * (vc.vc_cols : Int) := mul_nonneg hy (by omega)
  have hC : ((u32 count : Nat) : Int) = count := by
    unfold u32
    omega
  have key := putcs_loop_vram vc cells (u32 count) 0 s ypos xpos
    (ypos * vc.vc_cols + xpos) rfl hy hx0 hx1 (by omega)
  have frame : ∀ (n k : Nat) (st : VgaState) (y x : Int),
      (putcs_loop vc cells n k st y x).vga_origin = st.vga_origin ∧
      (putcs_loop vc cells n k st y x).vga_visible_origin = st.vga_visible_origin := by
    intro n
    induction n with
    | zero => intro k st y x; exact ⟨rfl, rfl⟩
    | succ n ih =>
      intro k st y x
      rw [putcs_loop]
      split_ifs
      · exact ih _ _ _ _
      · exact ih _ _ _ _
  refine ⟨?_, ?_, (frame _ _ _ _ _).1, (frame _ _ _ _ _).2⟩
  · intro i hi
    unfold vgacon_putcs
    rw [key, ← to_u16_eq, if_pos (by omega)]
    congr 2
    omega
  · intro j hj
    unfold vgacon_putcs
    rw [key, if_neg (by omega)]

/-- Instance of C22: five cells written from row 1, column 78 of the 80-column console
with the view at offset 8000; the fourth cell lands in column 1 of row 2. -/
theorem putcs_writes_cells_witness :
    (vgacon_putcs vga16k_mid console80x25 (fun k => console80x25.screenbuf k) 5 1 78).vram
        (vga16k_mid.vga_origin + 1 * (console80x25.vc_cols : Int) + 78 + ((3 : Nat) : Int)) =
      (vgacon_build_attr vga16k_mid console80x25 (console80x25.screenbuf ((3 : Nat) : Int)).attr
        <<< 8) ||| (console80x25.screenbuf ((3 : Nat) : Int)).glyph.val :=
  (putcs_writes_cells vga16k_mid console80x25 (fun k => console80x25.screenbuf k) 5 1 78
    (by decide) (by decide) (by decide) (by decide) (by decide) (by decide) (by decide)).1 3
    (by decide)

/-! ### Normal blanking -/

theorem reset_origin_vram (s : VgaState) :
    (vgacon_reset_origin s).2.vram = s.vram ∧
    (vgacon_reset_origin s).2.vga_is_gfx = s.vga_is_gfx ∧
    (vgacon_reset_origin s).2.vga_palette_blanked = s.vga_palette_blanked := by
  unfold vgacon_reset_origin
  split_ifs <;> exact ⟨rfl, rfl, rfl⟩

theorem blank_normal_clear (K : Consts) (s : VgaState) (c : vc_data) (mode_switch : Int)
    (h : ¬ (mode_switch = 0 ∧ s.vga_video_type = K.VIDEO_TYPE_VGAC)) :
    (vgacon_blank_normal K s c mode_switch).1 = 1 ∧
    (∀ i : Int, (vgacon_blank_normal K s c mode_switch).2.vram i =
      if 0 ≤ i ∧ i < c.vc_screen_size then 0x0020 else s.vram i) ∧
    (vgacon_blank_normal K s c mode_switch).2.vga_is_gfx =
      (if mode_switch ≠ 0 then true else s.vga_is_gfx) ∧
    (vgacon_blank_normal K s c mode_switch).2.vga_palette_blanked =
      s.vga_palette_blanked := by
  obtain ⟨r1, r2, r3⟩ := reset_origin_vram s
  have hmem : ∀ i : Int, scr_memset (vgacon_reset_origin s).2.vram 0 BLANK c.vc_screen_size i =
      if 0 ≤ i ∧ i < c.vc_screen_size then 0x0020 else s.vram i := by
    intro i
    rw [scr_memset_apply, r1]
    split_ifs <;> first | rfl | omega
  unfold vgacon_blank_normal
  rw [if_neg h]
  dsimp only
  split_ifs with hm
  · exact ⟨rfl, hmem, rfl, r3⟩
  · exact ⟨rfl, hmem, r2, r3⟩

/-- Counterexample to C23 as stated.  On the monochrome adapter (not `VIDEO_TYPE_VGAC`)
blanking at level 1 without a mode switch returns 1 and clears the cells from the buffer
base, so it does not palette-blank, and it leaves the graphics-mode flag clear. -/
theorem blank_normal_counterexample :
    (vgacon_blank_normal linuxConsts mda4k console80x25 0).1 = 1 ∧
    (vgacon_blank_normal linuxConsts mda4k console80x25 0).2.vga_palette_blanked = false ∧
    (vgacon_blank_normal linuxConsts mda4k console80x25 0).2.vram 5 = 0x0020 ∧
    mda4k.vram 5 = 5 ∧
    (vgacon_blank_normal linuxConsts mda4k console80x25 0).2.vga_is_gfx = false := by
  obtain ⟨h1, h2, h3, h4⟩ := blank_normal_clear linuxConsts mda4k console80x25 0 (by decide)
  refine ⟨h1, h4, ?_, by decide, h3⟩
  rw [h2]
  decide

/-- Claim C23, amended.  At level 1 (and -1) `vgacon_blank` does one of two things.  If no
mode switch is requested and the adapter is `VIDEO_TYPE_VGAC` it palette-blanks: it returns
0, sets the palette-blanked flag and leaves every video-memory cell, `Origin`,
`VisibleOrigin`, `RolledOver` and the graphics-mode flag as they were.  Otherwise it returns
1 and sets the first `screenSize` cells from the buffer base to `BLANK = 0x0020`, leaving
the other cells and the palette-blanked flag as they were; the graphics-mode flag is set
when a mode switch is requested and is left unchanged when none is. -/
theorem blank_normal_spec (K : Consts) (s : VgaState) (c : vc_data) (mode_switch : Int) :
    (mode_switch = 0 ∧ s.vga_video_type = K.VIDEO_TYPE_VGAC →
      (vgacon_blank_normal K s c mode_switch).1 = 0 ∧
      (vgacon_blank_normal K s c mode_switch).2.vga_palette_blanked = true ∧
      (∀ i : Int, (vgacon_blank_normal K s c mode_switch).2.vram i = s.vram i) ∧
      (vgacon_blank_normal K s c mode_switch).2.vga_origin = s.vga_origin ∧
      (vgacon_blank_normal K s c mode_switch).2.vga_visible_origin = s.vga_visible_origin ∧
      (vgacon_blank_normal K s c mode_switch).2.vga_rolled_over = s.vga_rolled_over ∧
      (vgacon_blank_normal K s c mode_switch).2.vga_is_gfx = s.vga_is_gfx) ∧
    (¬ (mode_switch = 0 ∧ s.vga_video_type = K.VIDEO_TYPE_VGAC) →
      (vgacon_blank_normal K s c mode_switch).1 = 1 ∧
      (∀ i : Int, (vgacon_blank_normal K s c mode_switch).2.vram i =
        if 0 ≤ i ∧ i < c.vc_screen_size then 0x0020 else s.vram i) ∧
      (mode_switch ≠ 0 → (vgacon_blank_normal K s c mode_switch).2.vga_is_gfx = true) ∧
      (mode_switch = 0 →
        (vgacon_blank_normal K s c mode_switch).2.vga_is_gfx = s.vga_is_gfx) ∧
      (vgacon_blank_normal K s c mode_switch).2.vga_palette_blanked =
        s.vga_palette_blanked) := by
  constructor
  · intro h
    unfold vgacon_blank_normal
    rw [if_pos h]
    exact ⟨rfl, rfl, fun _ => rfl, rfl, rfl, rfl, rfl⟩
  · intro h
    obtain ⟨h1, h2, h3, h4⟩ := blank_normal_clear K s c mode_switch h
    refine ⟨h1, h2, ?_, ?_, h4⟩
    · intro hm
      rw [h3, if_pos hm]
    · intro hm
      rw [h3, if_neg (by simp [hm])]

/-! ### Where the origins are reset -/

theorem blank_normal_origin (K : Consts) (s : VgaState) (c : vc_data) (mode_switch : Int)
    (h : mode_switch ≠ 0) :
    (vgacon_blank_normal K s c mode_switch).2.vga_origin = (vgacon_reset_origin s).2.vga_origin ∧
    (vgacon_blank_normal K s c mode_switch).2.vga_visible_origin =
      (vgacon_reset_origin s).2.vga_visible_origin ∧
    (vgacon_blank_normal K s c mode_switch).2.vga_is_gfx = true := by
  unfold vgacon_blank_normal
  rw [if_neg (fun hh => h hh.1)]
  dsimp only
  rw [if_pos h]
  exact ⟨rfl, rfl, rfl⟩

/-- Counterexample to C24 as stated.  With `Origin = VisibleOrigin = 8000`: `vgacon_init`
(here with `init = 1`) does not touch the origins; `vgacon_deinit` of a console that is not
the visible one leaves them; and `vgacon_blank(1, mode_switch = 1)` leaves them when the
console is already blanked without palette blanking, because `vgacon_reset_origin`
declines. -/
theorem origin_reset_counterexample :
    (vgacon_init linuxConsts vc_resize_idle (-1) 0 vga16k_mid console80x25 1).1.vga_origin =
      8000 ∧
    (vgacon_init linuxConsts vc_resize_idle (-1) 0 vga16k_mid console80x25
      1).1.vga_visible_origin = 8000 ∧
    (vgacon_deinit vga16k_mid console80x25_hidden).vga_origin = 8000 ∧
    (vgacon_deinit vga16k_mid console80x25_hidden).vga_visible_origin = 8000 ∧
    (vgacon_blank_normal linuxConsts vga16k_mid_blanked console80x25 1).2.vga_origin = 8000 ∧
    (vgacon_blank_normal linuxConsts vga16k_mid_blanked console80x25 1).2.vga_visible_origin =
      8000 := by
  decide

/-- Claim C24, amended.  `vgacon_deinit` of the visible console sets `Origin` and
`VisibleOrigin` to the buffer base, and leaves the driver state as it is for any other
console.  `vgacon_blank(1, mode_switch)` with a mode switch requested marks graphics mode
and sets both origins to the base when the device was not in graphics mode and the console
was not blanked, or was palette-blanked; otherwise it leaves both origins where they were.
`vgacon_init` called with `init != 0` leaves the whole driver state, both origins included,
as it was; with `init = 0` the driver state is the one `vc_resize` returns. -/
theorem origin_reset_points (K : Consts)
    (vc_resize : VgaState → vc_data → Nat → Nat → VgaState × vc_data)
    (global_cursor_default : Int) (flags : Nat) (s : VgaState) (c : vc_data)
    (init mode_switch : Int) :
    (c.is_visible = true →
      (vgacon_deinit s c).vga_origin = 0 ∧ (vgacon_deinit s c).vga_visible_origin = 0) ∧
    (c.is_visible = false → vgacon_deinit s c = s) ∧
    (mode_switch ≠ 0 → s.vga_is_gfx = false →
      s.console_blanked = 0 ∨ s.vga_palette_blanked = true →
      (vgacon_blank_normal K s c mode_switch).2.vga_origin = 0 ∧
      (vgacon_blank_normal K s c mode_switch).2.vga_visible_origin = 0 ∧
      (vgacon_blank_normal K s c mode_switch).2.vga_is_gfx = true) ∧
    (mode_switch ≠ 0 →
      s.vga_is_gfx = true ∨ (s.console_blanked ≠ 0 ∧ s.vga_palette_blanked = false) →
      (vgacon_blank_normal K s c mode_switch).2.vga_origin = s.vga_origin ∧
      (vgacon_blank_normal K s c mode_switch).2.vga_visible_origin = s.vga_visible_origin) ∧
    (init ≠ 0 →
      (vgacon_init K vc_resize global_cursor_default flags s c init).1 = s) ∧
    (init = 0 →
      (vgacon_init K vc_resize global_cursor_default flags s c init).1 =
        (vc_resize s
          { c with
            vc_can_do_color := s.vga_can_do_color
            vc_scan_lines := u32 s.vga_scan_lines }
          s.vga_video_num_columns s.vga_video_num_lines).1) := by
  refine ⟨?_, ?_, ?_, ?_, ?_, ?_⟩
  · intro hv
    unfold vgacon_deinit
    rw [if_pos hv]
    exact ⟨rfl, rfl⟩
  · intro hv
    unfold vgacon_deinit
    rw [if_neg (by simp [hv])]
  · intro hm hg hb
    obtain ⟨e1, e2, e3⟩ := blank_normal_origin K s c mode_switch hm
    rw [e1, e2]
    refine ⟨?_, ?_, e3⟩
    · unfold vgacon_reset_origin
      rw [if_neg (by
        intro hh
        rcases hh with hh | ⟨hh1, hh2⟩
        · rw [hg] at hh
          exact Bool.noConfusion hh
        · rcases hb with hb | hb
          · exact hh1 hb
          · rw [hb] at hh2
            exact Bool.noConfusion hh2)]
      rfl
    · unfold vgacon_reset_origin
      rw [if_neg (by
        intro hh
        rcases hh with hh | ⟨hh1, hh2⟩
        · rw [hg] at hh
          exact Bool.noConfusion hh
        · rcases hb with hb | hb
          · exact hh1 hb
          · rw [hb] at hh2
            exact Bool.noConfusion hh2)]
      rfl
  · intro hm hr
    obtain ⟨e1, e2, _⟩ := blank_normal_origin K s c mode_switch hm
    rw [e1, e2]
    unfold vgacon_reset_origin
    rw [if_pos hr]
    exact ⟨rfl, rfl⟩
  · intro hi
    unfold vgacon_init
    dsimp only
    rw [if_pos hi]
  · intro hi
    unfold vgacon_init
    dsimp only
    rw [if_neg (by simp [hi])]

/-! ### Lockstep of video memory and screen buffer -/

theorem scroll_encoding_fields (K : Consts) (s : VgaState) (c : vc_data) (t b : Nat)
    (dir : con_scroll) (lines : Nat) (x : vc_cell) :
    to_u16 (vgacon_scroll K s c t b dir lines).2.1 (vgacon_scroll K s c t b dir lines).2.2 x =
      to_u16 s c x := by
  unfold vgacon_scroll
  split_ifs
  · rfl
  · rfl
  · cases dir
    · dsimp only
      split_ifs <;> rfl
    · dsimp only
      split_ifs <;> rfl

/-- Claim C26.  Lockstep is preserved by scrolling.  For a capacity that fits an
`unsigned int`, a view `[Origin, Origin + S)` inside the buffer, a screen buffer that ends
at `vc_scr_end = vc_screenbuf + S` and `delta = lines * cols` with `0 < delta < S`: if
every cell of the view holds the encoding of the screen-buffer cell with the same index,
`mem[Origin + i] = to_u16(shadow[i])` for all `i < S`, then after an accepted
`vgacon_scroll`, up or down, the same holds for the new `Origin`, the new video memory and
the new screen buffer. -/
theorem scroll_keeps_lockstep (K : Consts) (s : VgaState) (c : vc_data) (t b : Nat)
    (dir : con_scroll) (lines : Nat)
    (hN : s.vga_vram_size < 4294967296)
    (hO : 0 ≤ s.vga_origin)
    (hV : s.vga_origin + c.vc_screen_size ≤ s.vga_vram_size)
    (hend : c.vc_scr_end = c.vc_screen_size)
    (hd0 : 0 < lines * c.vc_cols)
    (hd1 : lines * c.vc_cols < c.vc_screen_size)
    (hacc : (vgacon_scroll K s c t b dir lines).1 = true)
    (hlock : ∀ i : Nat, i < c.vc_screen_size →
      s.vram (s.vga_origin + i) = to_u16 s c (c.screenbuf i)) :
    ∀ i : Nat, i < (vgacon_scroll K s c t b dir lines).2.2.vc_screen_size →
      (vgacon_scroll K s c t b dir lines).2.1.vram
          ((vgacon_scroll K s c t b dir lines).2.1.vga_origin + i) =
        to_u16 (vgacon_scroll K s c t b dir lines).2.1 (vgacon_scroll K s c t b dir lines).2.2
          ((vgacon_scroll K s c t b dir lines).2.2.screenbuf i) := by
  have hd : u32 ((lines : Int) * (c.vc_cols : Int)) = lines * c.vc_cols :=
    u32_mul_lt _ _ (by omega)
  have hr : u32 ((c.vc_screen_size : Int) - ((lines * c.vc_cols : Nat) : Int)) =
      c.vc_screen_size - lines * c.vc_cols := by
    unfold u32
    omega
  have ho : ((usize s.vga_origin : Nat) : Int) = s.vga_origin := by
    unfold usize
    omega
  obtain ⟨g1, _, _, _, _, _⟩ := scroll_console_fields K s c t b dir lines
  intro i hi
  rw [g1] at hi
  rw [scroll_encoding_fields]
  cases dir
  · rw [scroll_up_vram K s c t b lines hacc, scroll_up_origin K s c t b lines hacc,
      scroll_up_screenbuf K s c t b lines hacc, hd, hr, hend]
    by_cases hi2 : i < c.vc_screen_size - lines * c.vc_cols
    · have hl := hlock (i + lines * c.vc_cols) (by omega)
      have e : cellset (cellmove c.screenbuf 0 ((lines * c.vc_cols : Nat) : Int)
          (c.vc_screen_size - lines * c.vc_cols))
          ((c.vc_screen_size : Int) - ((lines * c.vc_cols : Nat) : Int)) c.vc_video_erase
          (lines * c.vc_cols) (i : Int) =
          c.screenbuf ((i + lines * c.vc_cols : Nat) : Int) := by
        rw [cellset_apply, if_neg (by omega)]
        unfold cellmove memmove
        split_ifs <;> (congr 1; omega)
      rw [e, ← hl]
      split_ifs with hw
      · rw [scr_memset_apply]
        unfold scr_memmove memmove
        split_ifs <;> first | omega | (congr 1; omega)
      · rw [scr_memset_apply]
        split_ifs <;> first | omega | (congr 1; omega)
    · have e : cellset (cellmove c.screenbuf 0 ((lines * c.vc_cols : Nat) : Int)
          (c.vc_screen_size - lines * c.vc_cols))
          ((c.vc_screen_size : Int) - ((lines * c.vc_cols : Nat) : Int)) c.vc_video_erase
          (lines * c.vc_cols) (i : Int) = c.vc_video_erase := by
        rw [cellset_apply, if_pos (by omega)]
      rw [e]
      split_ifs with hw
      · rw [scr_memset_apply, u16_to_u16, if_pos (by omega)]
      · rw [scr_memset_apply, u16_to_u16, if_pos (by omega)]
  · rw [scroll_down_vram K s c t b lines hacc, scroll_down_origin K s c t b lines hacc,
      scroll_down_screenbuf K s c t b lines hacc, hd, hr]
    by_cases hi2 : i < lines * c.vc_cols
    · have e : cellset (cellmove c.screenbuf ((lines * c.vc_cols : Nat) : Int) 0
          (c.vc_screen_size - lines * c.vc_cols)) 0 c.vc_video_erase
          (lines * c.vc_cols) (i : Int) = c.vc_video_erase := by
        rw [cellset_apply, if_pos (by omega)]
      rw [e]
      split_ifs with hw
      · rw [scr_memset_apply, u16_to_u16, if_pos (by omega)]
      · rw [scr_memset_apply, u16_to_u16, if_pos (by omega)]
    · have hl := hlock (i - lines * c.vc_cols) (by omega)
      have e : cellset (cellmove c.screenbuf ((lines * c.vc_cols : Nat) : Int) 0
          (c.vc_screen_size - lines * c.vc_cols)) 0 c.vc_video_erase
          (lines * c.vc_cols) (i : Int) =
          c.screenbuf ((i - lines * c.vc_cols : Nat) : Int) := by
        rw [cellset_apply, if_neg (by omega)]
        unfold cellmove memmove
        split_ifs <;> (congr 1; omega)
      rw [e, ← hl]
      split_ifs with hw
      · rw [scr_memset_apply]
        unfold scr_memmove memmove
        split_ifs <;> first | omega | (congr 1; omega)
      · rw [scr_memset_apply]
        split_ifs <;> first | omega | (congr 1; omega)

/-- Instance of C26: scroll-up by one line from a state in lockstep, cell 7 of the new
view. -/
theorem scroll_keeps_lockstep_witness :
    (vgacon_scroll linuxConsts vga16k_lockstep console80x25 0 25 con_scroll.SM_UP 1).2.1.vram
        ((vgacon_scroll linuxConsts vga16k_lockstep console80x25 0 25
          con_scroll.SM_UP 1).2.1.vga_origin + ((7 : Nat) : Int)) =
      to_u16 (vgacon_scroll linuxConsts vga16k_lockstep console80x25 0 25 con_scroll.SM_UP 1).2.1
        (vgacon_scroll linuxConsts vga16k_lockstep console80x25 0 25 con_scroll.SM_UP 1).2.2
        ((vgacon_scroll linuxConsts vga16k_lockstep console80x25 0 25
          con_scroll.SM_UP 1).2.2.screenbuf ((7 : Nat) : Int)) :=
  scroll_keeps_lockstep linuxConsts vga16k_lockstep console80x25 0 25 con_scroll.SM_UP 1
    (by decide) (by decide) (by decide) (by decide) (by decide) (by decide) (by decide)
    (fun i _ => by
      show to_u16 vga16k console80x25 (console80x25.screenbuf (0 + (i : Int))) = _
      rw [zero_add]
      rfl)
    7 (by decide)

/-! ### Reverse and underline on a monochrome adapter -/

/-- Claim C27, the behaviour of the code.  In monochrome mode, for every attribute with
reverse set and selected clear, underline set or not, `vgacon_build_attr` takes the reverse
base `0x70`, not the underline base `0x01`: the result is `0x70`, plus `0x80` if blink or
the pointer marker is set, plus `0x08` if the intensity is bold.  The test of
`reverse XOR selected` comes first in the conditional expression, although the comment above
it says that underline takes precedence. -/
theorem build_attr_mono_reverse_wins (s : VgaState) (c : vc_data) (a : vc_cell_attr)
    (hmono : s.vga_can_do_color = false)
    (hrev : a.reverse = true) (hsel : a.selected = false) :
    vgacon_build_attr s c a =
      0x70 + (if a.blink || a.pointer_pos then 0x80 else 0) +
        (if a.intensity = VCI_BOLD then 0x08 else 0) := by
  unfold vgacon_build_attr
  simp only [hmono, hrev, hsel, Bool.false_eq_true, if_false, Bool.xor_false, if_true]
  split_ifs <;> rfl

/-- Instance of C27 on the monochrome adapter: reverse and underline set, everything else
plain. -/
theorem build_attr_mono_reverse_wins_witness :
    vgacon_build_attr mda4k console80x25 reverse_underline_attr =
      0x70 + (if reverse_underline_attr.blink || reverse_underline_attr.pointer_pos then 0x80
        else 0) + (if reverse_underline_attr.intensity = VCI_BOLD then 0x08 else 0) :=
  build_attr_mono_reverse_wins mda4k console80x25 reverse_underline_attr (by decide)
    (by decide) (by decide)

/-- Failing input for C27.  On the monochrome adapter the attribute with reverse and
underline set, selected clear and nothing else set encodes as `0x70`, the reverse value,
where the claim and the comment in the source give the underline value `0x01`. -/
theorem mono_reverse_underline_counterexample :
    mda4k.vga_can_do_color = false ∧
    reverse_underline_attr.reverse = true ∧
    reverse_underline_attr.underline = true ∧
    reverse_underline_attr.selected = false ∧
    vgacon_build_attr mda4k console80x25 reverse_underline_attr = 0x70 ∧
    vgacon_build_attr mda4k console80x25 reverse_underline_attr ≠ 0x01 := by
  decide

/-! ### Selection highlight against re-encoding -/

theorem color_attr_base_lt (c : vc_data) (a : vc_cell_attr) : color_attr_base c a < 256 := by
  have hu : ∀ x : Nat, u8 x < 256 := fun x => Nat.mod_lt _ (by decide)
  unfold color_attr_base
  lift_lets
  intro a0 a1 a2
  have h1 : a1 < 256 := by
    show (if _ then _ else _) < 256
    split_ifs <;> exact hu _
  show (if _ then _ else _) < 256
  split_ifs
  · exact hu _
  · exact h1

theorem build_attr_color_split (s : VgaState) (c : vc_data) (a : vc_cell_attr)
    (hcol : s.vga_can_do_color = true) :
    vgacon_build_attr s c a =
      color_attr_finish a.blink (decide (a.intensity = VCI_BOLD))
        (if xor a.reverse a.selected then color_attr_swap (color_attr_base c a)
          else color_attr_base c a) := by
  unfold vgacon_build_attr color_attr_finish color_attr_swap color_attr_base
  simp only [hcol, if_true, decide_eq_true_eq]

set_option maxRecDepth 100000 in
theorem invert_attr_finish : ∀ C : Fin 256, ∀ bl bo : Bool,
    invert_attr (color_attr_finish bl bo C.val) =
      color_attr_finish bl bo (color_attr_swap C.val) ∧
    invert_attr (color_attr_finish bl bo (color_attr_swap C.val)) =
      color_attr_finish bl bo C.val := by
  decide

set_option maxRecDepth 100000 in
theorem invert_word_high : ∀ A : Fin 256,
    ((A.val <<< 8) &&& 0x88ff) ||| (((A.val <<< 8) &&& 0x7000) >>> 4) |||
        (((A.val <<< 8) &&& 0x0700) <<< 4) = invert_attr A.val <<< 8 ∧
    invert_attr A.val < 256 ∧
    (invert_attr A.val <<< 8) &&& 0x88ff = (A.val <<< 8) &&& 0x88ff := by
  decide

set_option maxRecDepth 100000 in
theorem invert_word_low : ∀ g : Fin 256,
    g.val &&& 0x88ff = g.val ∧ g.val &&& 0x7000 = 0 ∧ g.val &&& 0x0700 = 0 := by
  decide

theorem invert_word_bytes (A g : Nat) (hA : A < 256) (hg : g < 256) :
    invert_word true ((A <<< 8) ||| g) = (invert_attr A <<< 8) ||| g ∧
    ((invert_attr A <<< 8) ||| g) &&& 0x88ff = ((A <<< 8) ||| g) &&& 0x88ff := by
  obtain ⟨a1, a2, a3⟩ := invert_word_high ⟨A, hA⟩
  obtain ⟨g1, g2, g3⟩ := invert_word_low ⟨g, hg⟩
  simp only at a1 a2 a3 g1 g2 g3
  constructor
  · unfold invert_word
    rw [if_pos rfl, Nat.and_distrib_right, Nat.and_distrib_right, Nat.and_distrib_right,
      g1, g2, g3, Nat.or_zero, Nat.or_zero]
    have e : ((A <<< 8) &&& 0x88ff) ||| g ||| (((A <<< 8) &&& 0x7000) >>> 4) |||
        (((A <<< 8) &&& 0x0700) <<< 4) = (invert_attr A <<< 8) ||| g := by
      rw [← a1]
      ac_rfl
    rw [e]
    apply Nat.mod_eq_of_lt
    apply @Nat.or_lt_two_pow _ _ 16
    · rw [Nat.shiftLeft_eq]
      omega
    · omega
  · rw [Nat.and_distrib_right, Nat.and_distrib_right, a3]

theorem invert_attr_build (s : VgaState) (vc : vc_data) (c : vc_cell)
    (hcol : s.vga_can_do_color = true) :
    invert_attr (vgacon_build_attr s vc c.attr) =
      vgacon_build_attr s vc (toggle_selected c).attr := by
  have hb : color_attr_base vc (toggle_selected c).attr = color_attr_base vc c.attr := rfl
  have hx : xor (toggle_selected c).attr.reverse (toggle_selected c).attr.selected =
      !(xor c.attr.reverse c.attr.selected) := by
    show xor c.attr.reverse (!c.attr.selected) = _
    cases c.attr.reverse <;> cases c.attr.selected <;> rfl
  obtain ⟨k1, k2⟩ := invert_attr_finish ⟨color_attr_base vc c.attr, color_attr_base_lt vc c.attr⟩
    c.attr.blink (decide (c.attr.intensity = VCI_BOLD))
  rw [build_attr_color_split s vc c.attr hcol,
    build_attr_color_split s vc (toggle_selected c).attr hcol, hb, hx]
  cases xor c.attr.reverse c.attr.selected
  · exact k1
  · exact k2

/-- Claim C28.  In colour mode, for every cell and every per-display override colour, the
per-word transform of `vgacon_invert_selection` applied to `to_u16(cell)` is
`to_u16(cell with its selected flag toggled)`, and it keeps the glyph byte and the blink and
bold bits (mask `0x88ff` of the word).  Accordingly `vgacon_invert_selection(offset, 1)` on
video memory that holds `to_u16(cell)` at `VisibleOrigin + offset` leaves the encoding of
the toggled cell there. -/
theorem invert_selection_reencodes (s : VgaState) (vc : vc_data) (c : vc_cell)
    (hcol : s.vga_can_do_color = true) :
    invert_word s.vga_can_do_color (to_u16 s vc c) = to_u16 s vc (toggle_selected c) ∧
    invert_word s.vga_can_do_color (to_u16 s vc c) &&& 0x88ff = to_u16 s vc c &&& 0x88ff ∧
    (∀ offset : Int, s.vram (s.vga_visible_origin + offset) = to_u16 s vc c →
      (vgacon_invert_selection s offset 1).vram (s.vga_visible_origin + offset) =
        to_u16 s vc (toggle_selected c)) := by
  obtain ⟨w1, w2⟩ := invert_word_bytes (vgacon_build_attr s vc c.attr) c.glyph.val
    (build_attr_lt s vc c.attr) c.glyph.isLt
  have h1 : invert_word s.vga_can_do_color (to_u16 s vc c) =
      to_u16 s vc (toggle_selected c) := by
    rw [hcol, to_u16_eq, to_u16_eq, w1, invert_attr_build s vc c hcol]
    rfl
  refine ⟨h1, ?_, ?_⟩
  · rw [h1, to_u16_eq, to_u16_eq, ← invert_attr_build s vc c hcol]
    exact w2
  · intro offset hmem
    show invert_loop s.vga_can_do_color s.vram (s.vga_visible_origin + offset) (u32 1)
      (s.vga_visible_origin + offset) = _
    have e1 : u32 1 = 1 := by decide
    rw [e1, invert_loop, invert_loop]
    unfold scr_write scr_read store
    rw [if_pos rfl, hmem, u16_to_u16, h1, u16_to_u16]

/-- Instance of C28 on the colour adapter for an italic, reversed, blinking, bold cell. -/
theorem invert_selection_reencodes_witness :
    invert_word vga16k.vga_can_do_color
        (to_u16 vga16k console80x25 { attr := fancy_attr, glyph := 65 }) =
      to_u16 vga16k console80x25 (toggle_selected { attr := fancy_attr, glyph := 65 }) :=
  (invert_selection_reencodes vga16k console80x25 { attr := fancy_attr, glyph := 65 }
    (by decide)).1

/-! ### A zero pan after a pan -/

/-- Claim C29.  The positions `vgacon_scrollback` produces are fixed points of a zero pan:
for every state whose live view lies inside the buffer (`0 <= Origin < N`,
`Origin + screenSize <= N`, quantities within the C `int` range), whatever `VisibleOrigin`
is, and for every line count `k`, `vgacon_scrollback(k)` followed by `vgacon_scrollback(0)`
leaves `VisibleOrigin` at the value it has after `vgacon_scrollback(k)` alone. -/
theorem scrollback_then_zero (s : VgaState) (c : vc_data) (k : Int)
    (hinv : origin_in_buffer s c) (hr : scrollback_in_range s c) :
    (vgacon_scrollback (vgacon_scrollback s c k) c 0).vga_visible_origin =
      (vgacon_scrollback s c k).vga_visible_origin := by
  have hinv1 : origin_in_buffer (vgacon_scrollback s c k) c := hinv
  have hr1 : scrollback_in_range (vgacon_scrollback s c k) c := hr
  have hw : live_window (vgacon_scrollback s c k) c = live_window s c := rfl
  have hm : driver_margin (live_window s c) (vgacon_scrollback s c k) c =
      driver_margin (live_window s c) s c := rfl
  have ho : (vgacon_scrollback s c k).vga_origin = s.vga_origin := rfl
  obtain ⟨_, b2, _, _⟩ := nav_window_bounds s c hinv
  obtain ⟨d1, d2⟩ := window_distance_bounds (live_window s c) s.vga_origin b2
  obtain ⟨m1, _⟩ := driver_margin_bounds (live_window s c) s c
  obtain ⟨_, p1, p2⟩ := pan_clamp_cases (driver_margin (live_window s c) s c)
    (window_distance (live_window s c) s.vga_origin)
    (i32 (c_rem (s.vga_visible_origin - (live_window s c).1 + (live_window s c).2)
      (live_window s c).2 + u32 (k * c.vc_cols))) m1 d1
  have hvo := scrollback_visible_origin s c k hinv hr
  apply scrollback_zero_fixed (vgacon_scrollback s c k) c hinv1 hr1
  · rw [hvo]
    exact Int.emod_nonneg _ (ne_of_gt b2)
  · rw [hw, hvo]
    exact Int.emod_lt_of_pos _ b2
  · rw [hw, hm, ho, hvo, window_distance_of_emod _ _ p1 (by linarith)]
    exact pan_clamp_idem _ _ _

/-- Instance of C29: from the view at offset 8000 with the display at offset 100, a pan of
three lines followed by a zero pan. -/
theorem scrollback_then_zero_witness :
    (vgacon_scrollback (vgacon_scrollback vga16k_inside_margin console80x25 3) console80x25
        0).vga_visible_origin =
      (vgacon_scrollback vga16k_inside_margin console80x25 3).vga_visible_origin :=
  scrollback_then_zero vga16k_inside_margin console80x25 3 (by decide) (by decide)

/-! ### Range of the cursor scan lines -/

theorem cursor_erase_call (K : Consts) (s : VgaState) (c : vc_data)
    (htext : c.vc_mode = K.KD_TEXT) :
    vgacon_cursor K s c K.CM_ERASE =
      vgacon_set_cursor_size K
        (write_vga (vgacon_restore_screen s) 14 (u32 (s.vga_origin + c.vc_pos)))
        31 (if s.vga_video_type ≥ K.VIDEO_TYPE_VGAC then 30 else 31) := by
  have e1 : (vgacon_restore_screen s).vga_origin = s.vga_origin := rfl
  have e2 : ∀ x : Nat, (write_vga (vgacon_restore_screen s) 14 x).vga_video_type =
      s.vga_video_type := fun _ => rfl
  unfold vgacon_cursor
  rw [if_neg (not_not.mpr htext), if_pos rfl]
  simp only [e1, e2]
  split_ifs <;> rfl

theorem cursor_shape_range (extended : Bool) (kind : Nat) (h : Int)
    (h2 : 2 ≤ h) (h32 : h ≤ 32)
    (hk : h ≤ 31 ∨ kind = CUR_UNDERLINE ∨ kind = CUR_TWO_THIRDS ∨ kind = CUR_LOWER_THIRD ∨
      kind = CUR_LOWER_HALF ∨ kind = CUR_NONE) :
    0 ≤ (cursor_shape extended kind h).1 ∧ (cursor_shape extended kind h).1 ≤ 31 ∧
    0 ≤ (cursor_shape extended kind h).2 ∧ (cursor_shape extended kind h).2 ≤ 31 := by
  have d3 : c_div h 3 = h / 3 := Int.tdiv_eq_ediv (by omega) (by decide)
  have d2 : c_div h 2 = h / 2 := Int.tdiv_eq_ediv (by omega) (by decide)
  have d23 : c_div (2 * h) 3 = 2 * h / 3 := Int.tdiv_eq_ediv (by omega) (by decide)
  unfold cursor_shape
  rw [d3, d2, d23]
  split_ifs <;> simp only <;> omega

set_option maxRecDepth 100000 in
theorem cursor_bits_split : ∀ r : Fin 256,
    Int.land (r.val : Int) 0xc0 = 64 * ((r.val / 64 : Nat) : Int) ∧
    Int.land (r.val : Int) 0xe0 = 32 * ((r.val / 32 : Nat) : Int) := by
  decide

set_option maxRecDepth 100000 in
theorem cursor_bits_start : ∀ m : Fin 4, ∀ x : Fin 32,
    Int.land (Int.lor (64 * (m.val : Int)) (x.val : Int)) 0xc0 = 64 * (m.val : Int) := by
  decide

set_option maxRecDepth 100000 in
theorem cursor_bits_end : ∀ m : Fin 8, ∀ x : Fin 32,
    Int.land (Int.lor (32 * (m.val : Int)) (x.val : Int)) 0xe0 = 32 * (m.val : Int) := by
  decide

theorem cursor_bits_kept (r x : Int) (hr0 : 0 ≤ r) (hr1 : r < 256) (hx0 : 0 ≤ x)
    (hx1 : x ≤ 31) :
    Int.land (Int.lor (Int.land r 0xc0) x) 0xc0 = Int.land r 0xc0 ∧
    Int.land (Int.lor (Int.land r 0xe0) x) 0xe0 = Int.land r 0xe0 := by
  obtain ⟨s1, s2⟩ := cursor_bits_split ⟨r.toNat, by omega⟩
  have b1 := cursor_bits_start ⟨r.toNat / 64, by omega⟩ ⟨x.toNat, by omega⟩
  have b2 := cursor_bits_end ⟨r.toNat / 32, by omega⟩ ⟨x.toNat, by omega⟩
  have er : ((r.toNat : Nat) : Int) = r := Int.toNat_of_nonneg hr0
  have ex : ((x.toNat : Nat) : Int) = x := Int.toNat_of_nonneg hx0
  simp only [er, ex] at s1 s2 b1 b2
  rw [s1, s2]
  exact ⟨b1, b2⟩

/-- Claim C30, restricted to what the code guarantees.  For a console in text mode, a
cursor mode `CM_ERASE`, `CM_DRAW` or `CM_MOVE` and a font height `h` with `2 <= h <= 32`,
where `h <= 31` or the call is an erase or the cursor kind is one of UNDERLINE, TWO_THIRDS,
LOWER_THIRD, LOWER_HALF, NONE: `vgacon_cursor` calls `vgacon_set_cursor_size` with a pair
`(start, end)` such that `0 <= start <= 31` and `0 <= end <= 31`, and OR-ing the pair into
register bytes `r` masked with `0xc0` and `0xe0` leaves those upper bits as read. -/
theorem cursor_pair_in_range (K : Consts) (s : VgaState) (c : vc_data) (mode : Int)
    (htext : c.vc_mode = K.KD_TEXT)
    (hmode : mode = K.CM_ERASE ∨ mode = K.CM_DRAW ∨ mode = K.CM_MOVE)
    (h2 : 2 ≤ s.vga_video_font_height) (h32 : s.vga_video_font_height ≤ 32)
    (hk : s.vga_video_font_height ≤ 31 ∨ mode = K.CM_ERASE ∨
      CUR_SIZE c.vc_cursor_type = CUR_UNDERLINE ∨ CUR_SIZE c.vc_cursor_type = CUR_TWO_THIRDS ∨
      CUR_SIZE c.vc_cursor_type = CUR_LOWER_THIRD ∨ CUR_SIZE c.vc_cursor_type = CUR_LOWER_HALF ∨
      CUR_SIZE c.vc_cursor_type = CUR_NONE) :
    ∃ frm to_ : Int,
      vgacon_cursor K s c mode =
        vgacon_set_cursor_size K
          (write_vga (vgacon_restore_screen s) 14 (u32 (s.vga_origin + c.vc_pos))) frm to_ ∧
      (vgacon_cursor K s c mode).cursor_size_lastfrom = frm ∧
      (vgacon_cursor K s c mode).cursor_size_lastto = to_ ∧
      0 ≤ frm ∧ frm ≤ 31 ∧ 0 ≤ to_ ∧ to_ ≤ 31 ∧
      ∀ r : Int, 0 ≤ r → r < 256 →
        Int.land (Int.lor (Int.land r 0xc0) frm) 0xc0 = Int.land r 0xc0 ∧
        Int.land (Int.lor (Int.land r 0xe0) to_) 0xe0 = Int.land r 0xe0 := by
  have fin : ∀ frm to_ : Int,
      vgacon_cursor K s c mode =
        vgacon_set_cursor_size K
          (write_vga (vgacon_restore_screen s) 14 (u32 (s.vga_origin + c.vc_pos))) frm to_ →
      0 ≤ frm → frm ≤ 31 → 0 ≤ to_ → to_ ≤ 31 →
      ∃ frm to_ : Int,
        vgacon_cursor K s c mode =
          vgacon_set_cursor_size K
            (write_vga (vgacon_restore_screen s) 14 (u32 (s.vga_origin + c.vc_pos))) frm to_ ∧
        (vgacon_cursor K s c mode).cursor_size_lastfrom = frm ∧
        (vgacon_cursor K s c mode).cursor_size_lastto = to_ ∧
        0 ≤ frm ∧ frm ≤ 31 ∧ 0 ≤ to_ ∧ to_ ≤ 31 ∧
        ∀ r : Int, 0 ≤ r → r < 256 →
          Int.land (Int.lor (Int.land r 0xc0) frm) 0xc0 = Int.land r 0xc0 ∧
          Int.land (Int.lor (Int.land r 0xe0) to_) 0xe0 = Int.land r 0xe0 := by
    intro frm to_ hcall f0 f1 t0 t1
    refine ⟨frm, to_, hcall, ?_, ?_, f0, f1, t0, t1, ?_⟩
    · rw [hcall]
      exact (set_cursor_size_cache K _ _ _).1
    · rw [hcall]
      exact (set_cursor_size_cache K _ _ _).2
    · intro r hr0 hr1
      exact ⟨(cursor_bits_kept r frm hr0 hr1 f0 f1).1, (cursor_bits_kept r to_ hr0 hr1 t0 t1).2⟩
  by_cases he : mode = K.CM_ERASE
  · subst he
    apply fin _ _ (cursor_erase_call K s c htext) (by decide) (by decide)
    · split_ifs <;> decide
    · split_ifs <;> decide
  · have hdm : mode = K.CM_DRAW ∨ mode = K.CM_MOVE := by
      rcases hmode with h | h | h
      · exact absurd h he
      · exact Or.inl h
      · exact Or.inr h
    have hk2 : s.vga_video_font_height ≤ 31 ∨
        CUR_SIZE c.vc_cursor_type = CUR_UNDERLINE ∨
        CUR_SIZE c.vc_cursor_type = CUR_TWO_THIRDS ∨
        CUR_SIZE c.vc_cursor_type = CUR_LOWER_THIRD ∨
        CUR_SIZE c.vc_cursor_type = CUR_LOWER_HALF ∨ CUR_SIZE c.vc_cursor_type = CUR_NONE := by
      rcases hk with h | h | h
      · exact Or.inl h
      · exact absurd h he
      · exact Or.inr h
    obtain ⟨r1, r2, r3, r4⟩ := cursor_shape_range
      (decide (s.vga_video_type ≥ K.VIDEO_TYPE_VGAC)) (CUR_SIZE c.vc_cursor_type)
      s.vga_video_font_height h2 h32 hk2
    exact fin _ _ (cursor_call_shape K s c mode htext hdm (by omega) (by omega)) r1 r2 r3 r4

/-- Instance of C30: the block cursor with a font of 16 scan lines on the colour adapter,
`CM_DRAW`. -/
theorem cursor_pair_in_range_witness :
    ∃ frm to_ : Int,
      vgacon_cursor linuxConsts vga16k console80x25_block linuxConsts.CM_DRAW =
        vgacon_set_cursor_size linuxConsts
          (write_vga (vgacon_restore_screen vga16k) 14
            (u32 (vga16k.vga_origin + console80x25_block.vc_pos))) frm to_ ∧
      (vgacon_cursor linuxConsts vga16k console80x25_block
        linuxConsts.CM_DRAW).cursor_size_lastfrom = frm ∧
      (vgacon_cursor linuxConsts vga16k console80x25_block
        linuxConsts.CM_DRAW).cursor_size_lastto = to_ ∧
      0 ≤ frm ∧ frm ≤ 31 ∧ 0 ≤ to_ ∧ to_ ≤ 31 ∧
      ∀ r : Int, 0 ≤ r → r < 256 →
        Int.land (Int.lor (Int.land r 0xc0) frm) 0xc0 = Int.land r 0xc0 ∧
        Int.land (Int.lor (Int.land r 0xe0) to_) 0xe0 = Int.land r 0xe0 :=
  cursor_pair_in_range linuxConsts vga16k console80x25_block linuxConsts.CM_DRAW
    (by decide) (Or.inr (Or.inl rfl)) (by decide) (by decide) (Or.inl (by decide))

/-- Failing input for C30.  A font of 32 scan lines passes the tests of `vgacon_font_set`;
with that font height and the block cursor, `vgacon_cursor(CM_DRAW)` passes the pair
`(1, 32)`: the end value exceeds 31, and the byte written to the cursor end register, for a
register that read 0, is `0x20`, so bit 5 of the preserved bits `0xe0` is not as read. -/
theorem cursor_block_font32_counterexample :
    font_set_guard linuxConsts vga16k 8 32 32 256 = none ∧
    vga16k_font32.vga_video_font_height = 32 ∧
    (vgacon_cursor linuxConsts vga16k_font32 console80x25_block
      linuxConsts.CM_DRAW).cursor_size_lastfrom = 1 ∧
    (vgacon_cursor linuxConsts vga16k_font32 console80x25_block
      linuxConsts.CM_DRAW).cursor_size_lastto = 32 ∧
    vga16k_font32.crtc linuxConsts.VGA_CRTC_CURSOR_END = 0 ∧
    (vgacon_cursor linuxConsts vga16k_font32 console80x25_block
      linuxConsts.CM_DRAW).port_log.getLast? = some (PortWrite.outb 0x20 0x3D5) ∧
    Int.land (Int.lor (Int.land 0 0xe0) 32) 0xe0 ≠ Int.land 0 0xe0 := by
  decide

/-! ### Lock intervals in the program order of one call -/

/-- Replaying the effects of `vgacon_scroll` gives the video memory, the screen buffer and
the port log of its result. -/
theorem scroll_replay (K : Consts) (s : VgaState) (c : vc_data) (t b : Nat)
    (dir : con_scroll) (lines : Nat) :
    replay (s.vram, c.screenbuf, s.port_log) (vgacon_scroll_events K s c t b dir lines) =
      ((vgacon_scroll K s c t b dir lines).2.1.vram,
       (vgacon_scroll K s c t b dir lines).2.2.screenbuf,
       (vgacon_scroll K s c t b dir lines).2.1.port_log) := by
  unfold vgacon_scroll vgacon_scroll_events
  by_cases h1 : t ≠ 0 ∨ b ≠ c.vc_rows ∨ s.vga_is_gfx = true ∨ c.vc_mode ≠ K.KD_TEXT
  · rw [if_pos h1, if_pos h1]; rfl
  rw [if_neg h1, if_neg h1]
  by_cases h2 : s.vga_hardscroll_enabled = false ∨ lines ≥ c.vc_rows / 2
  · rw [if_pos h2, if_pos h2]; rfl
  rw [if_neg h2, if_neg h2]
  cases dir
  · dsimp only
    split_ifs <;>
      simp [replay, write_vga_events, write_vga, replay_event, vgacon_restore_screen,
        vgacon_restore_screen_events, vga_update_mem_top, vga_update_mem_top_events]
  · dsimp only
    split_ifs <;>
      simp [replay, write_vga_events, write_vga, replay_event, vgacon_restore_screen,
        vgacon_restore_screen_events, vga_update_mem_top, vga_update_mem_top_events]
/-- Replaying the effects of the loop of `vgacon_clear` gives the memory `clear_rows`
computes. -/
theorem clear_rows_replay (sb : Int → vc_cell) (log : List PortWrite) (cols width : Nat) :
    ∀ (height : Nat) (mem : Int → Nat) (p : Int),
      replay (mem, sb, log) (clear_rows_events p cols width height) =
        (clear_rows mem p cols width height, sb, log) := by
  intro height
  induction height with
  | zero => intro mem p; rfl
  | succ n ih =>
    intro mem p
    have := ih (scr_memset mem p BLANK width) (p + cols)
    simpa [replay, clear_rows_events, clear_rows, replay_event] using this

/-- Replaying the effects of the loop of `vgacon_putcs` gives the memory `putcs_loop`
computes; the effects do not depend on the contents of video memory. -/
theorem putcs_replay (vc : vc_data) (cells : Nat → vc_cell) (sb : Int → vc_cell) :
    ∀ (count k : Nat) (s : VgaState) (ypos xpos : Int),
      replay (s.vram, sb, s.port_log) (putcs_events s vc cells count k ypos xpos) =
        ((putcs_loop vc cells count k s ypos xpos).vram, sb,
         (putcs_loop vc cells count k s ypos xpos).port_log) ∧
      ∀ mem : Int → Nat,
        putcs_events { s with vram := mem } vc cells count k ypos xpos =
          putcs_events s vc cells count k ypos xpos := by
  intro count
  induction count with
  | zero => intro k s ypos xpos; exact ⟨rfl, fun _ => rfl⟩
  | succ n ih =>
    intro k s ypos xpos
    constructor
    · unfold putcs_events putcs_loop
      dsimp only
      by_cases hx : u32 (i32 (xpos + 1)) ≥ vc.vc_cols
      · rw [if_pos hx, if_pos hx]
        have h1 := (ih (k + 1) (vgacon_putc s vc (cells k) ypos xpos) (i32 (ypos + 1)) 0).1
        have h2 := (ih (k + 1) s (i32 (ypos + 1)) 0).2
          (scr_write s.vram (to_u16 s vc (cells k)) (s.vga_origin + u32 (ypos * vc.vc_cols) + xpos))
        rw [← h1]
        unfold replay
        rw [List.foldl_cons]
        unfold vgacon_putc
        dsimp only [replay_event]
        rw [h2]
      · rw [if_neg hx, if_neg hx]
        have h1 := (ih (k + 1) (vgacon_putc s vc (cells k) ypos xpos) ypos (i32 (xpos + 1))).1
        have h2 := (ih (k + 1) s ypos (i32 (xpos + 1))).2
          (scr_write s.vram (to_u16 s vc (cells k)) (s.vga_origin + u32 (ypos * vc.vc_cols) + xpos))
        rw [← h1]
        unfold replay
        rw [List.foldl_cons]
        unfold vgacon_putc
        dsimp only [replay_event]
        rw [h2]
    · intro mem
      unfold putcs_events
      by_cases hx : u32 (i32 (xpos + 1)) ≥ vc.vc_cols
      · rw [if_pos hx, if_pos hx, (ih (k + 1) s (i32 (ypos + 1)) 0).2 mem]; rfl
      · rw [if_neg hx, if_neg hx, (ih (k + 1) s ypos (i32 (xpos + 1))).2 mem]; rfl

/-- The loop of `vgacon_clear` never takes the lock. -/
theorem clear_rows_unlocked (cols width : Nat) :
    ∀ (height : Nat) (p : Int),
      unlocked_mutations false (clear_rows_events p cols width height) =
        clear_rows_events p cols width height ∧
      lock_count (clear_rows_events p cols width height) = 0 := by
  intro height
  induction height with
  | zero => intro p; exact ⟨rfl, rfl⟩
  | succ n ih =>
    intro p
    obtain ⟨h1, h2⟩ := ih (p + cols)
    unfold clear_rows_events
    refine ⟨by simp [unlocked_mutations, h1], ?_⟩
    unfold lock_count at h2 ⊢
    rw [List.count_cons_of_ne (by simp), h2]

/-- The loop of `vgacon_putcs` never takes the lock. -/
theorem putcs_unlocked (s : VgaState) (vc : vc_data) (cells : Nat → vc_cell) :
    ∀ (count k : Nat) (ypos xpos : Int),
      unlocked_mutations false (putcs_events s vc cells count k ypos xpos) =
        putcs_events s vc cells count k ypos xpos ∧
      lock_count (putcs_events s vc cells count k ypos xpos) = 0 := by
  intro count
  induction count with
  | zero => intro k ypos xpos; exact ⟨rfl, rfl⟩
  | succ n ih =>
    intro k ypos xpos
    unfold putcs_events
    by_cases hx : u32 (i32 (xpos + 1)) ≥ vc.vc_cols
    · obtain ⟨h1, h2⟩ := ih (k + 1) (i32 (ypos + 1)) 0
      rw [if_pos hx]
      refine ⟨by simp [unlocked_mutations, h1], ?_⟩
      unfold lock_count at h2 ⊢
      rw [List.count_cons_of_ne (by simp), h2]
    · obtain ⟨h1, h2⟩ := ih (k + 1) ypos (i32 (xpos + 1))
      rw [if_neg hx]
      refine ⟨by simp [unlocked_mutations, h1], ?_⟩
      unfold lock_count at h2 ⊢
      rw [List.count_cons_of_ne (by simp), h2]

/-- The stores of an accepted `vgacon_scroll`, in program order. -/
theorem scroll_events_shape (K : Consts) (s : VgaState) (c : vc_data) (t b : Nat)
    (dir : con_scroll) (lines : Nat)
    (hacc : (vgacon_scroll K s c t b dir lines).1 = true) :
    ∃ stores : List Event,
      vgacon_scroll_events K s c t b dir lines =
        vgacon_restore_screen_events s ++ stores ++
          vga_update_mem_top_events (vgacon_scroll K s c t b dir lines).2.1 ∧
      stores ≠ [] ∧
      (∀ e ∈ stores, e ≠ Event.lock ∧ e ≠ Event.unlock ∧ ∀ w, e ≠ Event.port w) ∧
      unlocked_mutations false (vgacon_scroll_events K s c t b dir lines) = stores ∧
      lock_count (vgacon_scroll_events K s c t b dir lines) = 2 := by
  unfold vgacon_scroll at hacc ⊢
  unfold vgacon_scroll_events
  by_cases h1 : t ≠ 0 ∨ b ≠ c.vc_rows ∨ s.vga_is_gfx = true ∨ c.vc_mode ≠ K.KD_TEXT
  · rw [if_pos h1] at hacc; exact absurd hacc (by simp)
  rw [if_neg h1] at hacc ⊢
  rw [if_neg h1]
  by_cases h2 : s.vga_hardscroll_enabled = false ∨ lines ≥ c.vc_rows / 2
  · rw [if_pos h2] at hacc; exact absurd hacc (by simp)
  rw [if_neg h2]
  rw [if_neg h2]
  cases dir
  · dsimp only
    split_ifs
    · exact ⟨_, rfl, by simp, by simp, rfl, rfl⟩
    · exact ⟨_, rfl, by simp, by simp, rfl, rfl⟩
  · dsimp only
    split_ifs
    · exact ⟨_, rfl, by simp, by simp, rfl, rfl⟩
    · exact ⟨_, rfl, by simp, by simp, rfl, rfl⟩
/-- Claim C25, counterexample.  On the fresh adapter a one-line scroll-up of the 80x25
console is accepted; in program order it takes `vga_lock`, writes two ports and releases
the lock (`vgacon_restore_screen`), then stores to video memory (`scr_memset`) and to the
screen buffer (`cellmove`, `cellset`), then takes the lock a second time for the two port
writes of `vga_update_mem_top`.  The three stores occur while the lock is not held and the
lock is taken twice, so the mutations do not lie in one lock-held interval.  Clearing one
cell stores to video memory without taking the lock at all. -/
theorem lock_interval_counterexample :
    (vgacon_scroll linuxConsts vga16k console80x25 0 25 con_scroll.SM_UP 1).1 = true ∧
    vgacon_scroll_events linuxConsts vga16k console80x25 0 25 con_scroll.SM_UP 1 =
      [Event.lock, Event.port (PortWrite.outw 12 0x3D4), Event.port (PortWrite.outw 13 0x3D4),
       Event.unlock,
       Event.vram_set 2000 0x0720 80, Event.shadow_move 0 80 1920,
       Event.shadow_set 1920 space_cell 80,
       Event.lock, Event.port (PortWrite.outw 12 0x3D4),
       Event.port (PortWrite.outw 20493 0x3D4), Event.unlock] ∧
    unlocked_mutations false
        (vgacon_scroll_events linuxConsts vga16k console80x25 0 25 con_scroll.SM_UP 1) =
      [Event.vram_set 2000 0x0720 80, Event.shadow_move 0 80 1920,
       Event.shadow_set 1920 space_cell 80] ∧
    lock_count (vgacon_scroll_events linuxConsts vga16k console80x25 0 25 con_scroll.SM_UP 1)
      = 2 ∧
    ¬ single_lock_interval
        (vgacon_scroll_events linuxConsts vga16k console80x25 0 25 con_scroll.SM_UP 1) ∧
    vgacon_clear_events vga16k console80x25 0 0 1 1 = [Event.vram_set 0 BLANK 1] ∧
    unlocked_mutations false (vgacon_clear_events vga16k console80x25 0 0 1 1) =
      [Event.vram_set 0 BLANK 1] ∧
    lock_count (vgacon_clear_events vga16k console80x25 0 0 1 1) = 0 := by
  decide

/-- Claim C25, amended.  In the program order of one call `vga_lock` is held only around
the two port writes of `write_vga`.  The effects of an accepted `vgacon_scroll` are those
of `vgacon_restore_screen` (lock, two port writes, unlock), then a non-empty run of stores
to video memory and to the screen buffer with no lock, unlock or port event among them,
then those of `vga_update_mem_top` (lock, two port writes, unlock); exactly these stores
occur while the lock is not held, and the lock is taken twice.  `vgacon_clear` and
`vgacon_putcs` never take the lock: every one of their effects occurs while it is not
held.  Replaying each trace gives the video memory, the screen buffer and the port log of
the call's result. -/
theorem lock_held_for_ports_only (K : Consts) (s : VgaState) (c : vc_data) (t b : Nat)
    (dir : con_scroll) (lines : Nat) (cells : Nat → vc_cell)
    (count ypos xpos height width : Int)
    (hacc : (vgacon_scroll K s c t b dir lines).1 = true) :
    replay (s.vram, c.screenbuf, s.port_log) (vgacon_scroll_events K s c t b dir lines) =
      ((vgacon_scroll K s c t b dir lines).2.1.vram,
       (vgacon_scroll K s c t b dir lines).2.2.screenbuf,
       (vgacon_scroll K s c t b dir lines).2.1.port_log) ∧
    (∃ stores : List Event,
      vgacon_scroll_events K s c t b dir lines =
        vgacon_restore_screen_events s ++ stores ++
          vga_update_mem_top_events (vgacon_scroll K s c t b dir lines).2.1 ∧
      stores ≠ [] ∧
      (∀ e ∈ stores, e ≠ Event.lock ∧ e ≠ Event.unlock ∧ ∀ w, e ≠ Event.port w) ∧
      unlocked_mutations false (vgacon_scroll_events K s c t b dir lines) = stores) ∧
    lock_count (vgacon_scroll_events K s c t b dir lines) = 2 ∧
    replay (s.vram, c.screenbuf, s.port_log)
        (vgacon_clear_events s c ypos xpos height width) =
      ((vgacon_clear s c ypos xpos height width).vram, c.screenbuf,
       (vgacon_clear s c ypos xpos height width).port_log) ∧
    unlocked_mutations false (vgacon_clear_events s c ypos xpos height width) =
      vgacon_clear_events s c ypos xpos height width ∧
    lock_count (vgacon_clear_events s c ypos xpos height width) = 0 ∧
    replay (s.vram, c.screenbuf, s.port_log)
        (vgacon_putcs_events s c cells count ypos xpos) =
      ((vgacon_putcs s c cells count ypos xpos).vram, c.screenbuf,
       (vgacon_putcs s c cells count ypos xpos).port_log) ∧
    unlocked_mutations false (vgacon_putcs_events s c cells count ypos xpos) =
      vgacon_putcs_events s c cells count ypos xpos ∧
    lock_count (vgacon_putcs_events s c cells count ypos xpos) = 0 := by
  obtain ⟨stores, e1, e2, e3, e4, e5⟩ := scroll_events_shape K s c t b dir lines hacc
  refine ⟨scroll_replay K s c t b dir lines, ⟨stores, e1, e2, e3, e4⟩, e5,
    ?_, ?_, ?_, ?_, ?_, ?_⟩
  · exact clear_rows_replay _ _ _ _ _ _ _
  · exact (clear_rows_unlocked _ _ _ _).1
  · exact (clear_rows_unlocked _ _ _ _).2
  · exact (putcs_replay c cells c.screenbuf _ _ s _ _).1
  · exact (putcs_unlocked s c cells _ _ _ _).1
  · exact (putcs_unlocked s c cells _ _ _ _).2

/-- Claim C25, witness.  The one-line scroll-up of the 80x25 console on the fresh adapter
is accepted and takes the lock twice; clearing one row and writing three cells take it
never. -/
theorem lock_held_for_ports_only_witness :
    (vgacon_scroll linuxConsts vga16k console80x25 0 25 con_scroll.SM_UP 1).1 = true ∧
    lock_count (vgacon_scroll_events linuxConsts vga16k console80x25 0 25 con_scroll.SM_UP 1)
      = 2 ∧
    lock_count (vgacon_clear_events vga16k console80x25 0 0 1 80) = 0 ∧
    lock_count (vgacon_putcs_events vga16k console80x25 (fun _ => space_cell) 3 0 0) = 0 :=
  ⟨by decide,
   (lock_held_for_ports_only linuxConsts vga16k console80x25 0 25 con_scroll.SM_UP 1
      (fun _ => space_cell) 3 0 0 1 80 (by decide)).2.2.1,
   (lock_held_for_ports_only linuxConsts vga16k console80x25 0 25 con_scroll.SM_UP 1
      (fun _ => space_cell) 3 0 0 1 80 (by decide)).2.2.2.2.2.1,
   (lock_held_for_ports_only linuxConsts vga16k console80x25 0 25 con_scroll.SM_UP 1
      (fun _ => space_cell) 3 0 0 1 80 (by decide)).2.2.2.2.2.2.2.2⟩

end Vgacon
